import Mathlib

/-!
Instana self-hosted install analyzer

A shallow embedding of `pkg/integration/instana/selfhostedinstall_analyzer.go`.

Modelling conventions.

* A Go `string` is a Lean `String`; `strings.Contains` is contiguous-sublist
  containment on the characters.
* A Go `error` is represented by the text its `Error()` method returns.
* A Go slice is a `List`; a nil slice and an empty slice are both `[]`.
* Go `int` values are `Int`.  The only arithmetic is `i - 10` and `i + 1` on
  a slice index `i`, which cannot leave the 64-bit range.
* An index expression that would raise a run-time panic yields `none`.
* Every call that leaves the process (the controller-runtime client, the
  client-go clientset) is a field of `Cluster`, threaded through an explicit
  world state `σ`, so consecutive calls may observe different answers.
* Console output (`fmt.Print`) is not part of the returned value and is
  left out.
-/

namespace Instana

/-! ## Strings -/

/-- Scan of `strings.Contains` on character lists: is `sub` a prefix of some
suffix of the first argument. -/
def containsChars : List Char → List Char → Bool
  | [], sub => sub.isPrefixOf []
  | c :: cs, sub => sub.isPrefixOf (c :: cs) || containsChars cs sub

/-- Go `strings.Contains(s, substr)`. -/
def strings_Contains (s substr : String) : Bool :=
  containsChars s.data substr.data

/-! ## The operator log scan -/

/-- Go `func max(x, y int) int` (lines 311-316). -/
def max (x y : Int) : Int :=
  if x < y then y else x

/-- Inner loop `for j := start; j < i; j++` (lines 298-302).  The first
argument counts the iterations still to run; the caller passes `i - start`
(zero when `start ≥ i`).  `logLines[j]` outside the slice is a panic. -/
def warningLoop (logLines : List String) : Nat → Int → String → Option String
  | 0, _, logs => some logs
  | n + 1, j, logs =>
    if j < 0 then none
    else
      match logLines[j.toNat]? with
      | none => none
      | some l =>
        if strings_Contains l "WARNING" then
          warningLoop logLines n (j + 1) (logs ++ (l ++ "\n"))
        else
          warningLoop logLines n (j + 1) logs

/-- Outer loop `for i, line := range logLines` (lines 294-305).  The second
argument is the part of the slice still to visit, `i` the index of its head.
The state is the builder `logs` and `lastErrorIndex`. -/
def lineLoop (logLines : List String) :
    List String → Int → String → Int → Option (String × Int)
  | [], _, logs, lastErrorIndex => some (logs, lastErrorIndex)
  | line :: rest, i, logs, lastErrorIndex =>
    if strings_Contains line "ERROR" then
      let start := max lastErrorIndex (i - 10)
      match warningLoop logLines (i - start).toNat start (logs ++ (line ++ "\n")) with
      | none => none
      | some logs2 => lineLoop logLines rest (i + 1) logs2 (i + 1)
    else
      lineLoop logLines rest (i + 1) logs lastErrorIndex

/-- Body of the pod loop after the log text has been read (lines 293-305):
scan the lines of one pod, continuing from `logs` and `lastErrorIndex`. -/
def scanPodLog (logLines : List String) (logs : String) (lastErrorIndex : Int) :
    Option (String × Int) :=
  lineLoop logLines logLines 0 logs lastErrorIndex

/-! ## Results -/

/-- The text returned by the `Error()` method of a Go `error`. -/
abbrev Error := String

/-- Go `common.Sensitive`. -/
structure Sensitive where
  Unmasked : String
  Masked : String
  deriving DecidableEq, Repr

/-- Go `common.Failure`. -/
structure Failure where
  Text : String
  Sensitive : List Sensitive
  deriving DecidableEq, Repr

/-- Go `common.Result`, restricted to the fields this analyzer assigns; a
field left out of a composite literal has its zero value. -/
structure Result where
  Kind : String
  Name : String
  Error : List Failure
  deriving DecidableEq, Repr

/-! ## Unstructured objects -/

/-- The dynamic values held by `map[string]interface{}` in an
`unstructured.Unstructured`: what the JSON decoder produces.  A `float64`
carries its printed form only; a map keeps its entries in key order. -/
inductive Value where
  | null : Value
  | bool : Bool → Value
  | int64 : Int → Value
  | float64 : String → Value
  | str : String → Value
  | map : List (String × Value) → Value
  | slice : List Value → Value

/-- The `Object` field of an `unstructured.Unstructured`. -/
abbrev Object := List (String × Value)

/-- The `%T` rendering of a dynamic value. -/
def Value.typeName : Value → String
  | .null => "<nil>"
  | .bool _ => "bool"
  | .int64 _ => "int64"
  | .float64 _ => "float64"
  | .str _ => "string"
  | .map _ => "map[string]interface \x7b\x7d"
  | .slice _ => "[]interface \x7b\x7d"

mutual
/-- The `%v` rendering of a dynamic value. -/
def Value.show : Value → String
  | .null => "<nil>"
  | .bool b => if b then "true" else "false"
  | .int64 n => toString n
  | .float64 s => s
  | .str s => s
  | .map m => "map[" ++ Value.showEntries m ++ "]"
  | .slice l => "[" ++ Value.showItems l ++ "]"
/-- The entries of a map, `key:value` separated by blanks. -/
def Value.showEntries : List (String × Value) → String
  | [] => ""
  | [(k, v)] => k ++ ":" ++ Value.show v
  | (k, v) :: e :: rest => k ++ ":" ++ Value.show v ++ " " ++ Value.showEntries (e :: rest)
/-- The items of a slice separated by blanks. -/
def Value.showItems : List Value → String
  | [] => ""
  | [v] => Value.show v
  | v :: e :: rest => Value.show v ++ " " ++ Value.showItems (e :: rest)
end

/-- Map index expression `m[field]` with the comma-ok result. -/
def mapIndex (m : List (String × Value)) (field : String) : Option Value :=
  match m.find? (fun e => e.1 == field) with
  | none => none
  | some e => some e.2

/-- Helper `jsonPath` of package `unstructured`. -/
def jsonPath (fields : List String) : String :=
  "." ++ ".".intercalate fields

/-- The loop of `unstructured.NestedFieldNoCopy`: `seen` holds the fields
already walked, the list argument the fields still to walk.  The answer is
the triple `(value, found, err)`. -/
def nestedFieldLoop (seen : List String) :
    Value → List String → Option Value × Bool × Option Error
  | val, [] => (some val, true, none)
  | .null, _ :: _ => (none, false, none)
  | .map m, field :: rest =>
    match mapIndex m field with
    | none => (none, false, none)
    | some v => nestedFieldLoop (seen ++ [field]) v rest
  | val, field :: _ =>
    (none, false, some (jsonPath (seen ++ [field]) ++ " accessor error: " ++ val.show
      ++ " is of the type " ++ val.typeName ++ ", expected map[string]interface\x7b\x7d"))

/-- Go `unstructured.NestedFieldNoCopy(obj, fields...)`. -/
def NestedFieldNoCopy (obj : Object) (fields : List String) :
    Option Value × Bool × Option Error :=
  nestedFieldLoop [] (.map obj) fields

/-- Go `unstructured.NestedInt64(obj, fields...)`: `(value, found, err)`. -/
def NestedInt64 (obj : Object) (fields : List String) : Int × Bool × Option Error :=
  match NestedFieldNoCopy obj fields with
  | (some (.int64 i), true, none) => (i, true, none)
  | (some val, true, none) =>
    (0, false, some (jsonPath fields ++ " accessor error: " ++ val.show
      ++ " is of the type " ++ val.typeName ++ ", expected int64"))
  | (_, found, err) => (0, found, err)

/-- Go `unstructured.NestedString(obj, fields...)`: `(value, found, err)`. -/
def NestedString (obj : Object) (fields : List String) : String × Bool × Option Error :=
  match NestedFieldNoCopy obj fields with
  | (some (.str s), true, none) => (s, true, none)
  | (some val, true, none) =>
    ("", false, some (jsonPath fields ++ " accessor error: " ++ val.show
      ++ " is of the type " ++ val.typeName ++ ", expected string"))
  | (_, found, err) => ("", found, err)

/-- Go `(*Unstructured).GetName()`: the string at `metadata.name`, the empty
string when it is missing or not a string. -/
def GetName (obj : Object) : String :=
  match NestedString obj ["metadata", "name"] with
  | (val, found, err) => if !found || err.isSome then "" else val

/-! ## The cluster -/

/-- Everything the analyzer asks of the outside world.  `σ` is the state of
that world; each call returns its answer together with the next state. -/
structure Cluster (σ : Type) where
  /-- Call `client.List` on a `v1.NamespaceList`: the `Name` of each item. -/
  listNamespaces : σ → Except Error (List String) × σ
  /-- Call `client.List` on an `UnstructuredList` of the given kind and API
  version, restricted by `client.InNamespace`. -/
  list : (kind apiVersion ns : String) → σ → Except Error (List Object) × σ
  /-- Call `client.Get` on an `Unstructured` of the given kind and API
  version with the object key `(ns, name)`. -/
  get : (kind apiVersion ns name : String) → σ → Except Error Object × σ
  /-- Call `rest.InClusterConfig()`. -/
  inClusterConfig : σ → Option Error × σ
  /-- Call `kubernetes.NewForConfig(config)`. -/
  newForConfig : σ → Option Error × σ
  /-- Call `clientset.CoreV1().Pods(ns).List` with a label selector: the
  `Name` of each item. -/
  listPods : (ns labelSelector : String) → σ → Except Error (List String) × σ
  /-- Call `GetLogs(podName, logOptions).Stream` followed by `io.Copy` into
  a builder: the whole log text, or the error of whichever step failed. -/
  podLogs : (ns podName : String) → σ → Except Error String × σ

variable {σ : Type}

/-! ## Namespace resolution -/

/-- Inner loop over `keywords` with its `break` (lines 87-92): has some
keyword been found in `name`. -/
def keywordLoop (name : String) : List String → Bool
  | [] => false
  | keyword :: rest => if strings_Contains name keyword then true else keywordLoop name rest

/-- Outer loop over `namespaceList.Items` (lines 86-93). -/
def namespaceLoop (keywords : List String) : List String → List String → List String
  | [], matchedNamespaces => matchedNamespaces
  | name :: rest, matchedNamespaces =>
    if keywordLoop name keywords then
      namespaceLoop keywords rest (matchedNamespaces ++ [name])
    else
      namespaceLoop keywords rest matchedNamespaces

/-- Go `getNamespacesWithKeywords` (lines 77-96). -/
def getNamespacesWithKeywords (c : Cluster σ) (keywords : List String) (w : σ) :
    Except Error (List String) × σ :=
  match c.listNamespaces w with
  | (.error err, w1) => (.error err, w1)
  | (.ok items, w1) => (.ok (namespaceLoop keywords items []), w1)

/-! ## Workload checks -/

/-- Loop over `stsList.Items` (lines 107-132). -/
def statefulSetLoop (ns : String) : List Object → List Result → List Result
  | [], results => results
  | sts :: rest, results =>
    match NestedInt64 sts ["status", "readyReplicas"], NestedInt64 sts ["spec", "replicas"] with
    | (readyReplicas0, found1, err1), (replicas0, found2, err2) =>
      let readyReplicas := if err1.isSome || !found1 then 0 else readyReplicas0
      let replicas := if err2.isSome || !found2 then 0 else replicas0
      if readyReplicas = replicas then
        statefulSetLoop ns rest results
      else
        statefulSetLoop ns rest (results ++ [
          { Kind := "StatefulSet"
            Name := GetName sts
            Error := [
              { Text := "In namespace " ++ ns ++ ", statefulSet " ++ GetName sts ++ " is not running"
                Sensitive := [] }] }])

/-- Go `checkStatefulSets` (lines 98-135). -/
def checkStatefulSets (c : Cluster σ) (ns : String) (w : σ) : List Result × σ :=
  match c.list "StatefulSet" "apps/v1" ns w with
  | (.error err, w1) => ([{ Kind := "", Name := "", Error := [{ Text := err, Sensitive := [] }] }], w1)
  | (.ok items, w1) => (statefulSetLoop ns items [], w1)

/-- Loop over `deployList.Items` (lines 146-171). -/
def deploymentLoop (ns : String) : List Object → List Result → List Result
  | [], results => results
  | deploy :: rest, results =>
    match NestedInt64 deploy ["status", "availableReplicas"],
        NestedInt64 deploy ["spec", "replicas"] with
    | (availableReplicas0, found1, err1), (replicas0, found2, err2) =>
      let availableReplicas := if err1.isSome || !found1 then 0 else availableReplicas0
      let replicas := if err2.isSome || !found2 then 0 else replicas0
      if availableReplicas = replicas then
        deploymentLoop ns rest results
      else
        deploymentLoop ns rest (results ++ [
          { Kind := "Deployment"
            Name := GetName deploy
            Error := [
              { Text := "In namespace " ++ ns ++ ", deployment " ++ GetName deploy
                  ++ " is not available"
                Sensitive := [] }] }])

/-- Go `checkDeployments` (lines 137-173). -/
def checkDeployments (c : Cluster σ) (ns : String) (w : σ) : List Result × σ :=
  match c.list "Deployment" "apps/v1" ns w with
  | (.error err, w1) => ([{ Kind := "", Name := "", Error := [{ Text := err, Sensitive := [] }] }], w1)
  | (.ok items, w1) => (deploymentLoop ns items [], w1)

/-- Loop over `podList.Items` (lines 184-205). -/
def podLoop (ns : String) : List Object → List Result → List Result
  | [], results => results
  | pod :: rest, results =>
    match NestedString pod ["status", "phase"] with
    | (phase0, found, err) =>
      let phase := if err.isSome || !found then "Unknown" else phase0
      if phase = "Running" then
        podLoop ns rest results
      else
        podLoop ns rest (results ++ [
          { Kind := "Pod"
            Name := GetName pod
            Error := [
              { Text := "In namespace " ++ ns ++ ", pod " ++ GetName pod ++ " is not running"
                Sensitive := [] }] }])

/-- Go `checkPods` (lines 175-208). -/
def checkPods (c : Cluster σ) (ns : String) (w : σ) : List Result × σ :=
  match c.list "Pod" "v1" ns w with
  | (.error err, w1) => ([{ Kind := "", Name := "", Error := [{ Text := err, Sensitive := [] }] }], w1)
  | (.ok items, w1) => (podLoop ns items [], w1)

/-! ## Custom resources -/

/-- Loop over `crList.Items` with its `break` (lines 224-230): the name of
the first item whose name contains `keyword`, else the zero value of
`crName`. -/
def crNameLoop (keyword : String) : List Object → String
  | [] => ""
  | cr :: rest => if strings_Contains (GetName cr) keyword then GetName cr else crNameLoop keyword rest

/-- The `%v` rendering of an `error` value that may be nil. -/
def showError : Option Error → String
  | none => "<nil>"
  | some e => e

/-- Go `checkCustomResource` (lines 210-255). -/
def checkCustomResource (c : Cluster σ) (keyword kind ns : String) (w : σ) :
    Except Error (List Result) × σ :=
  match c.list kind "instana.io/v1beta2" ns w with
  | (.error err, w1) => (.error err, w1)
  | (.ok items, w1) =>
    let crName := crNameLoop keyword items
    match c.get kind "instana.io/v1beta2" ns crName w1 with
    | (.error err, w2) =>
      (.ok [{ Kind := "", Name := "", Error := [{ Text := err, Sensitive := [] }] }], w2)
    | (.ok cr, w2) =>
      match NestedString cr ["status", "componentsStatus"] with
      | (status, found, err) =>
        if err.isSome || !found || status ≠ "Ready" then
          (.ok [
            { Kind := kind
              Name := crName
              Error := [
                { Text := "In namespace " ++ ns ++ ", " ++ crName ++ " is not ready: "
                    ++ showError err
                  Sensitive := [] }] }], w2)
        else
          (.ok [], w2)

/-! ## Operator logs -/

/-- Go `strings.Split(s, "\n")`: the pieces between line feeds, in order;
always at least one piece.  The first argument is the piece being read. -/
def splitLines : List Char → List Char → List String
  | cur, [] => [String.mk cur]
  | cur, c :: cs =>
    if c = '\n' then String.mk cur :: splitLines [] cs else splitLines (cur ++ [c]) cs

/-- Loop over `podList.Items` (lines 278-306).  A log that cannot be read
returns the error at once; a panic of the scan is `none`. -/
def podLogLoop (c : Cluster σ) (ns : String) :
    List String → String → Int → σ → Option (Except Error String) × σ
  | [], logs, _, w => (some (.ok logs), w)
  | pod :: rest, logs, lastErrorIndex, w =>
    match c.podLogs ns pod w with
    | (.error err, w1) => (some (.error err), w1)
    | (.ok buf, w1) =>
      match scanPodLog (splitLines [] buf.data) logs lastErrorIndex with
      | none => (none, w1)
      | some (logs1, lastErrorIndex1) => podLogLoop c ns rest logs1 lastErrorIndex1 w1

/-- Go `getInstanaOperatorLogs` (lines 257-309); `none` is a panic. -/
def getInstanaOperatorLogs (c : Cluster σ) (ns : String) (w : σ) :
    Option (Except Error String) × σ :=
  match c.inClusterConfig w with
  | (some err, w1) => (some (.error err), w1)
  | (none, w1) =>
    match c.newForConfig w1 with
    | (some err, w2) => (some (.error err), w2)
    | (none, w2) =>
      match c.listPods ns "app.kubernetes.io/component=operator" w2 with
      | (.error err, w3) => (some (.error err), w3)
      | (.ok items, w3) => podLogLoop c ns items "" 0 w3

/-! ## The orchestrator -/

/-- The keywords of the data-store group (line 26). -/
def dataStoreKeywords : List String :=
  ["kafka", "elasticsearch", "postgres", "clickhouse", "cassandra", "beeinstana",
    "instana-operator"]

/-- Loop over the data-store namespaces (lines 31-37). -/
def dataStoreLoop (c : Cluster σ) : List String → List Result → σ → List Result × σ
  | [], results, w => (results, w)
  | ns :: rest, results, w =>
    match checkStatefulSets c ns w with
    | (r1, w1) =>
      match checkDeployments c ns w1 with
      | (r2, w2) =>
        match checkPods c ns w2 with
        | (r3, w3) => dataStoreLoop c rest (((results ++ r1) ++ r2) ++ r3) w3

/-- The assignment `coreResults[0].Error = append(coreResults[0].Error, f)`
(lines 53-56). -/
def appendToFirst (f : Failure) : List Result → List Result
  | [] => []
  | r :: rest => { r with Error := r.Error ++ [f] } :: rest

/-- The core group (lines 39-60): `none` is a panic, otherwise the results so
far or the error returned. -/
def coreStep (c : Cluster σ) (results : List Result) (w : σ) :
    Option (Except Error (List Result)) × σ :=
  match getNamespacesWithKeywords c ["core"] w with
  | (.error err, w1) => (some (.error err), w1)
  | (.ok [], w1) => (some (.ok results), w1)
  | (.ok (coreNamespace0 :: _), w1) =>
    match checkCustomResource c "core" "Core" coreNamespace0 w1 with
    | (.error err, w2) => (some (.error err), w2)
    | (.ok [], w2) => (some (.ok results), w2)
    | (.ok (r :: rs), w2) =>
      if r.Error.length > 0 then
        match getInstanaOperatorLogs c "instana-operator" w2 with
        | (none, w3) => (none, w3)
        | (some (.error err), w3) => (some (.error err), w3)
        | (some (.ok logs), w3) =>
          (some (.ok (results ++ appendToFirst
            { Text := "Core is not ready\nExternal instana-operator Log:\n" ++ logs
              Sensitive := [] } (r :: rs))), w3)
      else
        (some (.ok (results ++ (r :: rs))), w2)

/-- The unit group (lines 62-74). -/
def unitStep (c : Cluster σ) (results : List Result) (w : σ) :
    Except Error (List Result) × σ :=
  match getNamespacesWithKeywords c ["unit"] w with
  | (.error err, w1) => (.error err, w1)
  | (.ok [], w1) => (.ok results, w1)
  | (.ok (unitNamespace0 :: _), w1) =>
    match checkCustomResource c "unit" "Unit" unitNamespace0 w1 with
    | (.error err, w2) => (.error err, w2)
    | (.ok unitResults, w2) => (.ok (results ++ unitResults), w2)

/-- Go `Analyze` (lines 23-75): `none` is a panic, `some (.error e)` the
return `nil, err`, `some (.ok rs)` the return `results, nil`. -/
def Analyze (c : Cluster σ) (w : σ) : Option (Except Error (List Result)) × σ :=
  match getNamespacesWithKeywords c dataStoreKeywords w with
  | (.error err, w1) => (some (.error err), w1)
  | (.ok namespaces, w1) =>
    match dataStoreLoop c namespaces [] w1 with
    | (results, w2) =>
      match coreStep c results w2 with
      | (none, w3) => (none, w3)
      | (some (.error err), w3) => (some (.error err), w3)
      | (some (.ok results1), w3) =>
        match unitStep c results1 w3 with
        | (.error err, w4) => (some (.error err), w4)
        | (.ok results2, w4) => (some (.ok results2), w4)

/-! ## Auxiliary views of the pod loop -/

/-- The reads of the pod loop alone: the log text of each pod in pod order,
or the error of the first log that cannot be read. -/
def readPodLogs (c : Cluster σ) (ns : String) : List String → σ → Except Error (List String) × σ
  | [], w => (.ok [], w)
  | pod :: rest, w =>
    match c.podLogs ns pod w with
    | (.error err, w1) => (.error err, w1)
    | (.ok buf, w1) =>
      match readPodLogs c ns rest w1 with
      | (.error err, w2) => (.error err, w2)
      | (.ok bufs, w2) => (.ok (buf :: bufs), w2)

/-- The scans of the pod loop alone, on logs already split into lines. -/
def scanPodLogs : List (List String) → String → Int → Option (String × Int)
  | [], logs, lastErrorIndex => some (logs, lastErrorIndex)
  | logLines :: rest, logs, lastErrorIndex =>
    match scanPodLog logLines logs lastErrorIndex with
    | none => none
    | some (logs1, lastErrorIndex1) => scanPodLogs rest logs1 lastErrorIndex1

/-- The three checks run for one data-store namespace (lines 34-36), with
their results in the order they are appended. -/
def namespaceChecks (c : Cluster σ) (ns : String) (w : σ) : List Result × σ :=
  match checkStatefulSets c ns w with
  | (r1, w1) =>
    match checkDeployments c ns w1 with
    | (r2, w2) =>
      match checkPods c ns w2 with
      | (r3, w3) => (r1 ++ r2 ++ r3, w3)

/-! ## Fixtures -/

/-- A cluster that answers every call from fixed tables and never changes. -/
structure Fixture where
  /-- Answer of the namespace listing. -/
  namespaces : Except Error (List String)
  /-- Answer of the listing of a kind in a namespace. -/
  objects : (kind ns : String) → Except Error (List Object)
  /-- Answer of the operator pod listing: each pod name with its log. -/
  operatorPods : Except Error (List (String × Except Error String))

/-- The `Cluster` of a fixture; a fetch by name looks the name up in the
listing of that kind and namespace. -/
def Fixture.cluster (f : Fixture) : Cluster Unit where
  listNamespaces := fun w => (f.namespaces, w)
  list := fun kind _ ns w => (f.objects kind ns, w)
  get := fun kind _ ns name w =>
    match f.objects kind ns with
    | .error err => (.error err, w)
    | .ok items =>
      match items.find? (fun o => GetName o == name) with
      | some o => (.ok o, w)
      | none => (.error (kind ++ " \"" ++ name ++ "\" not found"), w)
  inClusterConfig := fun w => (none, w)
  newForConfig := fun w => (none, w)
  listPods := fun _ _ w =>
    match f.operatorPods with
    | .error err => (.error err, w)
    | .ok pods => (.ok (pods.map Prod.fst), w)
  podLogs := fun _ podName w =>
    match f.operatorPods with
    | .error err => (.error err, w)
    | .ok pods =>
      match pods.find? (fun p => p.1 == podName) with
      | some p => (p.2, w)
      | none => (.error ("pods \"" ++ podName ++ "\" not found"), w)

/-- Two operator pods: the first log has an error on its second line, the
second log a warning followed by an error. -/
def twoPodFixture : Fixture where
  namespaces := .ok ["instana-operator"]
  objects := fun _ _ => .ok []
  operatorPods := .ok [("operator-0", .ok "INFO x\nERROR a"), ("operator-1", .ok "WARNING w\nERROR b")]

/-! ## Reference definitions for the log excerpt -/

/-- Each line followed by a line feed, all joined. -/
def concatLines : List String → String
  | [] => ""
  | l :: ls => (l ++ "\n") ++ concatLines ls

/-- Reference, in the words of the specification: the lines of the lookback
window `[max(lastErrorIndex, i-10), i)` that contain `"WARNING"`, in
increasing index. -/
def specWindow (lines : List String) (lastErrorIndex : Int) (i : Nat) : List String :=
  ((List.range i).filter (fun (j : Nat) =>
      decide (Max.max lastErrorIndex ((i : Int) - 10) ≤ (j : Int))
        && strings_Contains (lines.getD j "") "WARNING")).map (fun j => lines.getD j "")

/-- Reference, in the words of the specification: what index `i` adds to the
excerpt and how it moves `lastErrorIndex`. -/
def specStep (lines : List String) (st : String × Int) (i : Nat) : String × Int :=
  if strings_Contains (lines.getD i "") "ERROR" then
    (st.1 ++ concatLines (lines.getD i "" :: specWindow lines st.2 i), (i : Int) + 1)
  else
    st

/-- Reference, in the words of the specification: the excerpt of one pod
log, scanning the indices top to bottom from `lastErrorIndex = 0`. -/
def specExcerpt (lines : List String) : String :=
  ((List.range lines.length).foldl (specStep lines) ("", 0)).1

/-! ## Reference definitions for the workload checks -/

/-- Reference: the value stored in `obj` under key `a` and then key `b`;
absent when `a` is missing, is not a map, or has no key `b`. -/
def fieldAt (obj : Object) (a b : String) : Option Value :=
  match mapIndex obj a with
  | some (.map m) => mapIndex m b
  | _ => none

/-- Reference: the integer at `a.b`, 0 when missing or not an integer. -/
def int64At (obj : Object) (a b : String) : Int :=
  match fieldAt obj a b with
  | some (.int64 n) => n
  | _ => 0

/-- Reference: the string at `a.b`, `dflt` when missing or not a string. -/
def stringAt (obj : Object) (a b dflt : String) : String :=
  match fieldAt obj a b with
  | some (.str s) => s
  | _ => dflt

/-- Reference: the object with `a.b` set to `v`.  The other entries of the
map at `a` are kept (none when `a` was missing or not a map), and so is every
other top-level entry. -/
def setField (obj : Object) (a b : String) (v : Value) : Object :=
  let inner : List (String × Value) :=
    match mapIndex obj a with
    | some (.map m) => m
    | _ => []
  (a, .map ((b, v) :: inner.filter (fun e => !(e.1 == b)))) :: obj.filter (fun e => !(e.1 == a))

/-- A workload object with a name, a `spec` map and a `status` map. -/
def workload (name : String) (spec status : List (String × Value)) : Object :=
  [("metadata", .map [("name", .str name)]), ("spec", .map spec), ("status", .map status)]

/-- A fixture with data-store namespaces: in `instana-kafka` one stateful
set is short of a replica, one deployment has an unreadable status, one pod
is pending and one pod has no phase; the deployment listing of
`instana-postgres` fails, and so does every listing of `kafka-cassandra`. -/
def workloadFixture : Fixture where
  namespaces := .ok ["default", "instana-kafka", "instana-postgres", "Kafka-upper",
    "kafka-cassandra"]
  objects := fun kind ns =>
    if ns = "instana-kafka" then
      if kind = "StatefulSet" then
        .ok [workload "kafka" [("replicas", .int64 3)] [("readyReplicas", .int64 2)],
          workload "zookeeper" [("replicas", .int64 1)] [("readyReplicas", .int64 1)],
          [("metadata", .map [("name", .str "idle")]), ("spec", .map [("replicas", .int64 0)])]]
      else if kind = "Deployment" then
        .ok [workload "ui" [("replicas", .int64 2)] [("availableReplicas", .str "two")],
          workload "api" [("replicas", .int64 2)] [("availableReplicas", .int64 2)]]
      else if kind = "Pod" then
        .ok [workload "kafka-0" [] [("phase", .str "Running")],
          workload "kafka-1" [] [("phase", .str "Pending")],
          workload "kafka-2" [] []]
      else .ok []
    else if ns = "instana-postgres" then
      if kind = "Deployment" then .error "deployments.apps is forbidden"
      else if kind = "Pod" then .ok [workload "pg-0" [] [("phase", .str "Failed")]]
      else .ok []
    else if ns = "kafka-cassandra" then .error (kind ++ " listing timed out")
    else .ok []
  operatorPods := .ok []

/-- An object that has a name and neither a `spec` nor a `status` block. -/
def bareObject : Object :=
  [("metadata", .map [("name", .str "idle")])]

/-! ## Reference definitions and fixtures for the custom resources -/

/-- Reference: the name of the first listed object whose name contains
`keyword` as a contiguous part, the empty name when there is none. -/
def firstMatchName (keyword : String) (items : List Object) : String :=
  match items.find? (fun o =>
      decide (keyword.data <:+: (stringAt o "metadata" "name" "").data)) with
  | some o => stringAt o "metadata" "name" ""
  | none => ""

/-- A custom-resource object with a name and a `status` map. -/
def customResource (name : String) (status : List (String × Value)) : Object :=
  [("metadata", .map [("name", .str name)]), ("status", .map status)]

/-- The end-to-end scenario: namespaces `myapp-core` and `myapp-kafka`; in
`myapp-kafka` a stateful set with 2 of 3 replicas ready next to a healthy
deployment and a running pod; in `myapp-core` a Core resource that is not
ready; one operator pod whose log has a warning two lines before its only
error. -/
def scenarioFixture : Fixture where
  namespaces := .ok ["myapp-core", "myapp-kafka"]
  objects := fun kind ns =>
    if ns = "myapp-kafka" then
      if kind = "StatefulSet" then
        .ok [workload "kafka" [("replicas", .int64 3)] [("readyReplicas", .int64 2)]]
      else if kind = "Deployment" then
        .ok [workload "ui" [("replicas", .int64 1)] [("availableReplicas", .int64 1)]]
      else if kind = "Pod" then
        .ok [workload "kafka-0" [] [("phase", .str "Running")]]
      else .ok []
    else if ns = "myapp-core" then
      if kind = "Core" then
        .ok [customResource "instana-core" [("componentsStatus", .str "NotReady")]]
      else .ok []
    else .ok []
  operatorPods := .ok [("operator-0",
    .ok "INFO start\nWARNING disk pressure\nINFO reconcile\nERROR reconcile failed\nINFO done\n")]

/-- A namespace `x-core` with three Core resources, of which the second and
the third contain "core" in their name. -/
def twoCoreFixture : Fixture where
  namespaces := .ok ["x-core"]
  objects := fun kind ns =>
    if ns = "x-core" then
      if kind = "Core" then
        .ok [customResource "alpha" [("componentsStatus", .str "Ready")],
          customResource "core-a" [("componentsStatus", .str "Pending")],
          customResource "core-b" [("componentsStatus", .str "Ready")]]
      else .ok []
    else .ok []
  operatorPods := .ok []

/-- Namespaces `myapp-core` and `myapp-unit`: the Core resource is ready,
the Unit resource is pending, and the operator pods cannot be listed. -/
def readyCoreFixture : Fixture where
  namespaces := .ok ["myapp-core", "myapp-unit"]
  objects := fun kind ns =>
    if ns = "myapp-core" then
      if kind = "Core" then
        .ok [customResource "instana-core" [("componentsStatus", .str "Ready")]]
      else .ok []
    else if ns = "myapp-unit" then
      if kind = "Unit" then
        .ok [customResource "instana-unit" [("componentsStatus", .str "Pending")]]
      else .ok []
    else .ok []
  operatorPods := .error "pods is forbidden"

/-- The failure appended to the first Core result (lines 53-56). -/
def coreLogFailure (logs : String) : Failure :=
  { Text := "Core is not ready\nExternal instana-operator Log:\n" ++ logs, Sensitive := [] }

/-- Reference: the data-store results in the words of the specification:
for each namespace in order, the stateful-set results, then the deployment
results, then the pod results, each check starting in the world the one
before it left. -/
def dataStoreResults (c : Cluster σ) : List String → σ → List Result
  | [], _ => []
  | ns :: rest, w =>
    (checkStatefulSets c ns w).1
      ++ (checkDeployments c ns (checkStatefulSets c ns w).2).1
      ++ (checkPods c ns (checkDeployments c ns (checkStatefulSets c ns w).2).2).1
      ++ dataStoreResults c rest
          (checkPods c ns (checkDeployments c ns (checkStatefulSets c ns w).2).2).2

/-- A namespace `y-core` without any Core resource, and no operator pod. -/
def fetchFailFixture : Fixture where
  namespaces := .ok ["y-core"]
  objects := fun _ _ => .ok []
  operatorPods := .ok []

/-- The cluster of a fixture whose namespace listing fails the `k`-th time it
is called (counting from 0); the world is the number of namespace listings
made so far. -/
def flakyNamespaces (f : Fixture) (k : Nat) : Cluster Nat where
  listNamespaces := fun w =>
    if w = k then (.error "namespaces unavailable", w + 1) else (f.namespaces, w + 1)
  list := fun kind apiVersion ns w => ((f.cluster.list kind apiVersion ns ()).1, w)
  get := fun kind apiVersion ns name w => ((f.cluster.get kind apiVersion ns name ()).1, w)
  inClusterConfig := fun w => (none, w)
  newForConfig := fun w => (none, w)
  listPods := fun ns labelSelector w => ((f.cluster.listPods ns labelSelector ()).1, w)
  podLogs := fun ns podName w => ((f.cluster.podLogs ns podName ()).1, w)

/-- The scenario with an operator pod whose log cannot be read. -/
def logFailFixture : Fixture where
  namespaces := scenarioFixture.namespaces
  objects := scenarioFixture.objects
  operatorPods := .ok [("operator-0", .error "log stream closed")]

/-- The first namespace resolved for one keyword: the error of the
resolution, or the head of the resolved list if there is one. -/
def firstResolved (c : Cluster σ) (keyword : String) (w : σ) :
    Except Error (Option String) × σ :=
  match getNamespacesWithKeywords c [keyword] w with
  | (.error err, w1) => (.error err, w1)
  | (.ok nss, w1) => (.ok nss.head?, w1)

/-- The scenario with a third namespace `myapp-unit` that holds a pending
Unit resource. -/
def unitScenarioFixture : Fixture where
  namespaces := .ok ["myapp-core", "myapp-kafka", "myapp-unit"]
  objects := fun kind ns =>
    if ns = "myapp-unit" then
      if kind = "Unit" then
        .ok [customResource "instana-unit" [("componentsStatus", .str "Pending")]]
      else .ok []
    else scenarioFixture.objects kind ns
  operatorPods := scenarioFixture.operatorPods

/-- The same cluster with two more namespaces, `other-core` and
`other-unit`, listed after the first match of their keyword and holding
custom resources of their own. -/
def extendedScenarioFixture : Fixture where
  namespaces := .ok ["myapp-core", "myapp-kafka", "other-core", "myapp-unit", "other-unit"]
  objects := fun kind ns =>
    if kind = "Core" ∧ ns = "other-core" then
      .ok [customResource "broken-core" [("componentsStatus", .str "Failed")]]
    else if kind = "Unit" ∧ ns = "other-unit" then
      .error "units.instana.io is forbidden"
    else unitScenarioFixture.objects kind ns
  operatorPods := scenarioFixture.operatorPods

/-! ## Ghost view of the scan -/

/-- Ghost view of the outer loop (lines 294-305): the index of each line
containing "ERROR", paired with the window start computed for it on line
297.  Same traversal and same updates of `lastErrorIndex` as `lineLoop`. -/
def errorWindows : List String → Nat → Int → List (Nat × Int)
  | [], _, _ => []
  | line :: rest, i, lastErrorIndex =>
    if strings_Contains line "ERROR" then
      (i, max lastErrorIndex ((i : Int) - 10)) :: errorWindows rest (i + 1) ((i : Int) + 1)
    else
      errorWindows rest (i + 1) lastErrorIndex

/-- The line positions written for one error (lines 296-302): the error
line, then the lines of its window `[start, i)` containing "WARNING". -/
def emittedAt (lines : List String) (e : Nat × Int) : List Nat :=
  e.1 :: (List.range e.1).filter (fun (j : Nat) =>
    decide (e.2 ≤ (j : Int)) && strings_Contains (lines.getD j "") "WARNING")

/-- The line positions written for one pod log, in the order written. -/
def emittedPositions (lines : List String) : List Nat :=
  (errorWindows lines 0 0).flatMap (emittedAt lines)

/-- Ghost view of the inner loop (lines 298-302): the indices `j` at which
`logLines[j]` is evaluated, for the iteration count and the start that
`lineLoop` passes to `warningLoop`. -/
def warningReads : Nat → Int → List Int
  | 0, _ => []
  | n + 1, j => j :: warningReads n (j + 1)

/-- Replay of a list of windows through the inner loop of the source: for
each window `(i, start)` in order, the line at `i` is written and
`warningLoop` is run with iteration count `i - start` from `start`; a panic
of the inner loop is a panic of the replay. -/
def replayWindows (logLines : List String) : List (Nat × Int) → String → Option String
  | [], logs => some logs
  | e :: rest, logs =>
    match warningLoop logLines ((e.1 : Int) - e.2).toNat e.2
        (logs ++ (logLines.getD e.1 "" ++ "\n")) with
    | none => none
    | some logs2 => replayWindows logLines rest logs2

/-! ## Lemmas on the log scan -/

theorem concatLines_append (a b : List String) :
    concatLines (a ++ b) = concatLines a ++ concatLines b := by
  induction a with
  | nil => simp [concatLines]
  | cons x xs ih => simp [concatLines, ih, String.append_assoc]

theorem max_eq_builtin (x y : Int) : max x y = Max.max x y := by
  unfold max
  split <;> omega

theorem filter_le_range (s i : Nat) :
    (List.range i).filter (fun j => decide (s ≤ j)) = List.range' s (i - s) := by
  induction i with
  | zero => simp
  | succ i ih =>
    rw [List.range_succ, List.filter_append, ih]
    by_cases h : s ≤ i
    · have e : i + 1 - s = (i - s) + 1 := by omega
      rw [e, List.range'_concat]
      simp [h]
    · have e : i + 1 - s = 0 := by omega
      have e2 : i - s = 0 := by omega
      simp [h, e, e2]

/-- The inner loop started at an index `s` with `s + n` inside the slice
never panics and appends the warning lines of `[s, s + n)` in order. -/
theorem warningLoop_eq (lines : List String) :
    ∀ (n s : Nat) (logs : String), n = 0 ∨ s + n ≤ lines.length →
      warningLoop lines n (s : Int) logs = some (logs ++ concatLines
        (((List.range' s n).filter
          (fun k => strings_Contains (lines.getD k "") "WARNING")).map
            (fun k => lines.getD k ""))) := by
  intro n
  induction n with
  | zero => intro s logs _; simp [warningLoop, concatLines]
  | succ n ih =>
    intro s logs h
    have h : s + (n + 1) ≤ lines.length := by omega
    have hs : s < lines.length := by omega
    have hget : lines[s]? = some lines[s] := List.getElem?_eq_getElem hs
    have hD : lines.getD s "" = lines[s] := by simp [List.getD, hget]
    have hcast : ((s : Int) + 1) = ((s + 1 : Nat) : Int) := by push_cast; rfl
    have ih2 := fun logs => ih (s + 1) logs (by omega)
    unfold warningLoop
    have hneg : ¬ ((s : Int) < 0) := by omega
    simp only [hneg, if_false, Int.toNat_ofNat, hget, hcast]
    rw [List.range'_succ, List.filter_cons, hD]
    split
    · rw [ih2]
      simp [concatLines, hget, String.append_assoc]
    · rw [ih2]

/-- The reference window written over the index range the inner loop
walks. -/
theorem specWindow_eq (lines : List String) (last : Int) (i s : Nat)
    (hs : Max.max last ((i : Int) - 10) = (s : Int)) :
    specWindow lines last i =
      ((List.range' s (i - s)).filter
        (fun k => strings_Contains (lines.getD k "") "WARNING")).map
          (fun k => lines.getD k "") := by
  unfold specWindow
  rw [hs, ← filter_le_range, List.filter_filter]
  congr 1
  apply List.filter_congr
  intro j _
  simp [Bool.and_comm]

/-- The outer loop never panics and computes the reference fold, from any
index and any `lastErrorIndex` that is not negative. -/
theorem lineLoop_eq (lines : List String) :
    ∀ (rest pre : List String) (logs : String) (last : Int),
      lines = pre ++ rest → 0 ≤ last →
      lineLoop lines rest (pre.length : Int) logs last =
        some ((List.range' pre.length rest.length).foldl (specStep lines) (logs, last)) := by
  intro rest
  induction rest with
  | nil => intro pre logs last _ _; simp [lineLoop]
  | cons line rest ih =>
    intro pre logs last hl h0
    have hlen : pre.length < lines.length := by rw [hl]; simp
    have hD : lines.getD pre.length "" = line := by
      rw [hl, List.getD_eq_getElem?_getD, List.getElem?_append_right (le_refl _)]
      simp
    have hcast : ((pre.length : Int) + 1) = (((pre ++ [line]).length : Nat) : Int) := by
      simp
    have hl2 : lines = (pre ++ [line]) ++ rest := by rw [hl]; simp
    have hlen2 : (pre ++ [line]).length = pre.length + 1 := by simp
    unfold lineLoop
    rw [List.length_cons, List.range'_succ, List.foldl_cons]
    by_cases hE : strings_Contains line "ERROR" = true
    · have hstep : specStep lines (logs, last) pre.length =
          (logs ++ concatLines (line :: specWindow lines last pre.length),
            (pre.length : Int) + 1) := by
        unfold specStep; rw [hD]; simp only [hE, if_true]
      simp only [hE, if_true]
      obtain ⟨s, hs⟩ : ∃ s : Nat, Max.max last ((pre.length : Int) - 10) = (s : Int) :=
        ⟨(Max.max last ((pre.length : Int) - 10)).toNat, by
          rw [Int.toNat_of_nonneg]; exact le_trans h0 (le_max_left _ _)⟩
      have hn : ((pre.length : Int) - (s : Int)).toNat = pre.length - s := by omega
      rw [max_eq_builtin, hs, hn, warningLoop_eq lines (pre.length - s) s _ (by omega)]
      simp only []
      rw [hcast, ih (pre ++ [line]) _ _ hl2 (by omega), hlen2, hstep,
        specWindow_eq lines last pre.length s hs]
      simp [concatLines, String.append_assoc]
    · have hstep : specStep lines (logs, last) pre.length = (logs, last) := by
        unfold specStep; rw [hD]; simp only [hE, if_false, Bool.false_eq_true]
      simp only [hE, if_false, Bool.false_eq_true]
      rw [hcast, ih (pre ++ [line]) _ _ hl2 h0, hlen2, hstep]

/-- The scan of one pod log is the reference fold, whatever value
`lastErrorIndex` has been left at. -/
theorem scanPodLog_eq (lines : List String) (logs : String) (last : Int) (h0 : 0 ≤ last) :
    scanPodLog lines logs last =
      some ((List.range lines.length).foldl (specStep lines) (logs, last)) := by
  have h := lineLoop_eq lines lines [] logs last rfl h0
  simpa [scanPodLog, List.range_eq_range'] using h

/-! ## Lemmas on the size of the excerpt -/

theorem specStep_of_not_error (lines : List String) (st : String × Int) (i : Nat)
    (h : strings_Contains (lines.getD i "") "ERROR" = false) : specStep lines st i = st := by
  unfold specStep; rw [h]; simp

theorem specStep_length_le (lines : List String) (st : String × Int) (i : Nat) :
    st.1.length ≤ (specStep lines st i).1.length := by
  unfold specStep
  split
  · simp [String.length_append]
  · exact le_refl _

theorem specStep_length_lt (lines : List String) (st : String × Int) (i : Nat)
    (h : strings_Contains (lines.getD i "") "ERROR" = true) :
    st.1.length < (specStep lines st i).1.length := by
  unfold specStep
  have h1 : ("\n" : String).length = 1 := by decide
  simp only [h, if_true, concatLines, String.length_append, h1]
  omega

theorem specStep_nonneg (lines : List String) (st : String × Int) (i : Nat) (h : 0 ≤ st.2) :
    0 ≤ (specStep lines st i).2 := by
  unfold specStep
  split
  · simp; omega
  · exact h

theorem foldl_specStep_nonneg (lines : List String) :
    ∀ (idxs : List Nat) (st : String × Int), 0 ≤ st.2 →
      0 ≤ (idxs.foldl (specStep lines) st).2 := by
  intro idxs
  induction idxs with
  | nil => intro st h; simpa using h
  | cons i idxs ih => intro st h; exact ih _ (specStep_nonneg lines st i h)

theorem foldl_specStep_length_le (lines : List String) :
    ∀ (idxs : List Nat) (st : String × Int),
      st.1.length ≤ (idxs.foldl (specStep lines) st).1.length := by
  intro idxs
  induction idxs with
  | nil => intro st; simp
  | cons i idxs ih =>
    intro st
    exact le_trans (specStep_length_le lines st i) (ih _)

theorem foldl_specStep_of_no_error (lines : List String) :
    ∀ (idxs : List Nat) (st : String × Int),
      (∀ i ∈ idxs, strings_Contains (lines.getD i "") "ERROR" = false) →
      idxs.foldl (specStep lines) st = st := by
  intro idxs
  induction idxs with
  | nil => intro st _; rfl
  | cons i idxs ih =>
    intro st h
    rw [List.foldl_cons, specStep_of_not_error lines st i (h i (by simp))]
    exact ih st (fun j hj => h j (by simp [hj]))

theorem foldl_specStep_length_lt (lines : List String) :
    ∀ (idxs : List Nat) (st : String × Int),
      (∃ i ∈ idxs, strings_Contains (lines.getD i "") "ERROR" = true) →
      st.1.length < (idxs.foldl (specStep lines) st).1.length := by
  intro idxs
  induction idxs with
  | nil => intro st h; simp at h
  | cons i idxs ih =>
    intro st h
    rw [List.foldl_cons]
    by_cases hi : strings_Contains (lines.getD i "") "ERROR" = true
    · exact lt_of_lt_of_le (specStep_length_lt lines st i hi) (foldl_specStep_length_le lines _ _)
    · obtain ⟨j, hj, hje⟩ := h
      have hjm : j ∈ idxs := by
        rcases List.mem_cons.1 hj with rfl | hm
        · exact absurd hje hi
        · exact hm
      exact lt_of_le_of_lt (specStep_length_le lines st i) (ih _ ⟨j, hjm, hje⟩)

theorem exists_index_of_mem (lines : List String) (line : String) (h : line ∈ lines) :
    ∃ i ∈ List.range lines.length, lines.getD i "" = line := by
  obtain ⟨i, hi, he⟩ := List.mem_iff_getElem.1 h
  exact ⟨i, List.mem_range.2 hi, by simp [List.getD, List.getElem?_eq_getElem hi, he]⟩

theorem getD_mem_of_lt (lines : List String) (i : Nat) (h : i < lines.length) :
    lines.getD i "" ∈ lines := by
  simp [List.getD, List.getElem?_eq_getElem h]

/-- One pod scan from a non-negative `lastErrorIndex`: it returns, leaves
`lastErrorIndex` non-negative, never shortens the builder, lengthens it when
the log has an error line and leaves it alone when it has none. -/
theorem scanPodLog_facts (lines : List String) (logs : String) (last : Int) (h0 : 0 ≤ last) :
    ∃ logs1 last1, scanPodLog lines logs last = some (logs1, last1) ∧ 0 ≤ last1 ∧
      logs.length ≤ logs1.length ∧
      ((∃ line ∈ lines, strings_Contains line "ERROR" = true) → logs.length < logs1.length) ∧
      ((∀ line ∈ lines, strings_Contains line "ERROR" = false) → logs1 = logs) := by
  refine ⟨_, _, scanPodLog_eq lines logs last h0, ?_, ?_, ?_, ?_⟩
  · exact foldl_specStep_nonneg lines _ (logs, last) h0
  · exact foldl_specStep_length_le lines _ (logs, last)
  · rintro ⟨line, hm, he⟩
    obtain ⟨i, hi, hl⟩ := exists_index_of_mem lines line hm
    exact foldl_specStep_length_lt lines _ (logs, last) ⟨i, hi, by rw [hl]; exact he⟩
  · intro h
    rw [foldl_specStep_of_no_error lines _ (logs, last)
      (fun i hi => h _ (getD_mem_of_lt lines i (List.mem_range.1 hi)))]

/-- The same facts for the scans of a sequence of pod logs. -/
theorem scanPodLogs_facts :
    ∀ (logss : List (List String)) (logs : String) (last : Int), 0 ≤ last →
      ∃ logs1 last1, scanPodLogs logss logs last = some (logs1, last1) ∧ 0 ≤ last1 ∧
        logs.length ≤ logs1.length ∧
        ((∃ lines ∈ logss, ∃ line ∈ lines, strings_Contains line "ERROR" = true) →
          logs.length < logs1.length) ∧
        ((∀ lines ∈ logss, ∀ line ∈ lines, strings_Contains line "ERROR" = false) →
          logs1 = logs) := by
  intro logss
  induction logss with
  | nil => intro logs last h0; exact ⟨logs, last, rfl, h0, le_refl _, by simp, by simp⟩
  | cons lines rest ih =>
    intro logs last h0
    obtain ⟨l1, n1, hs, hn, hle, hlt, heq⟩ := scanPodLog_facts lines logs last h0
    obtain ⟨l2, n2, hs2, hn2, hle2, hlt2, heq2⟩ := ih l1 n1 hn
    refine ⟨l2, n2, by simp [scanPodLogs, hs, hs2], hn2, le_trans hle hle2, ?_, ?_⟩
    · rintro ⟨ls, hm, line, hl, he⟩
      rcases List.mem_cons.1 hm with rfl | hm
      · exact lt_of_lt_of_le (hlt ⟨line, hl, he⟩) hle2
      · exact lt_of_le_of_lt hle (hlt2 ⟨ls, hm, line, hl, he⟩)
    · intro h
      rw [heq2 (fun ls hm => h ls (by simp [hm])), heq (h lines (by simp))]

/-- The pod loop is its reads followed by its scans. -/
theorem podLogLoop_eq (c : Cluster σ) (ns : String) :
    ∀ (pods : List String) (logs : String) (last : Int) (w w1 : σ) (bufs : List String),
      0 ≤ last → readPodLogs c ns pods w = (.ok bufs, w1) →
      podLogLoop c ns pods logs last w =
        ((scanPodLogs (bufs.map (fun b => splitLines [] b.data)) logs last).map
          (fun r => Except.ok r.1), w1) := by
  intro pods
  induction pods with
  | nil =>
    intro logs last w w1 bufs _ h
    simp only [readPodLogs, Prod.mk.injEq, Except.ok.injEq] at h
    obtain ⟨rfl, rfl⟩ := h
    simp [podLogLoop, scanPodLogs]
  | cons pod rest ih =>
    intro logs last w w1 bufs h0 h
    unfold readPodLogs at h
    unfold podLogLoop
    rcases hp : c.podLogs ns pod w with ⟨_ | buf, w2⟩
    · simp [hp] at h
    · rw [hp] at h
      simp only at h ⊢
      rcases hr : readPodLogs c ns rest w2 with ⟨_ | bufs2, w3⟩
      · simp [hr] at h
      · rw [hr] at h
        simp only [Prod.mk.injEq, Except.ok.injEq] at h
        obtain ⟨rfl, rfl⟩ := h
        simp only [List.map_cons, scanPodLogs]
        obtain ⟨l1, n1, hscan, hn1, _⟩ :=
          scanPodLog_facts (splitLines [] buf.data) logs last h0
        rw [hscan]
        exact ih l1 n1 w2 w3 bufs2 hn1 hr

/-! ## Lemmas on the ghost view -/

/-- The reference fold writes the lines at the positions of the ghost view. -/
theorem foldl_specStep_eq_emitted (lines : List String) :
    ∀ (rest pre : List String) (logs : String) (last : Int), lines = pre ++ rest →
      ((List.range' pre.length rest.length).foldl (specStep lines) (logs, last)).1 =
        logs ++ concatLines (((errorWindows rest pre.length last).flatMap
          (emittedAt lines)).map (fun j => lines.getD j "")) := by
  intro rest
  induction rest with
  | nil => intro pre logs last _; simp [errorWindows, concatLines]
  | cons line rest ih =>
    intro pre logs last hl
    have hD : lines.getD pre.length "" = line := by
      rw [hl, List.getD_eq_getElem?_getD, List.getElem?_append_right (le_refl _)]
      simp
    have hl2 : lines = (pre ++ [line]) ++ rest := by rw [hl]; simp
    have hlen2 : (pre ++ [line]).length = pre.length + 1 := by simp
    have ih2 := fun logs last => ih (pre ++ [line]) logs last hl2
    rw [hlen2] at ih2
    rw [List.length_cons, List.range'_succ, List.foldl_cons]
    unfold errorWindows
    by_cases hE : strings_Contains line "ERROR" = true
    · have hstep : specStep lines (logs, last) pre.length =
          (logs ++ concatLines (line :: specWindow lines last pre.length),
            (pre.length : Int) + 1) := by
        unfold specStep; rw [hD]; simp only [hE, if_true]
      have hw : (emittedAt lines (pre.length, max last ((pre.length : Int) - 10))).map
          (fun j => lines.getD j "") = line :: specWindow lines last pre.length := by
        simp only [emittedAt, List.map_cons, hD, specWindow, max_eq_builtin]
      simp only [hE, if_true]
      rw [hstep, ih2, List.flatMap_cons, List.map_append, hw, concatLines_append,
        String.append_assoc]
    · have hstep : specStep lines (logs, last) pre.length = (logs, last) := by
        unfold specStep; rw [hD]; simp only [hE, if_false, Bool.false_eq_true]
      simp only [hE, if_false, Bool.false_eq_true]
      rw [hstep, ih2]

/-- Invariants of the ghost view, from any index `i` and any
`lastErrorIndex` such that no line of `[lastErrorIndex, i)` holds an error:
every window starts at or after `lastErrorIndex` or `i`, holds no error
line, and starts after the error line of every earlier window. -/
theorem errorWindows_inv (lines : List String) :
    ∀ (rest pre : List String) (last : Int), lines = pre ++ rest →
      (∀ j : Nat, last ≤ (j : Int) → j < pre.length →
        strings_Contains (lines.getD j "") "ERROR" = false) →
      (∀ e ∈ errorWindows rest pre.length last,
        (last ≤ e.2 ∨ (pre.length : Int) ≤ e.2) ∧ pre.length ≤ e.1 ∧
        ∀ j : Nat, e.2 ≤ (j : Int) → j < e.1 →
          strings_Contains (lines.getD j "") "ERROR" = false) ∧
      (errorWindows rest pre.length last).Pairwise
        (fun a b => (a.1 : Int) < b.2 ∧ a.1 < b.1) := by
  intro rest
  induction rest with
  | nil => intro pre last _ _; simp [errorWindows]
  | cons line rest ih =>
    intro pre last hl hno
    have hD : lines.getD pre.length "" = line := by
      rw [hl, List.getD_eq_getElem?_getD, List.getElem?_append_right (le_refl _)]
      simp
    have hl2 : lines = (pre ++ [line]) ++ rest := by rw [hl]; simp
    have hlen2 : (pre ++ [line]).length = pre.length + 1 := by simp
    have ih2 := fun last => ih (pre ++ [line]) last hl2
    rw [hlen2] at ih2
    unfold errorWindows
    by_cases hE : strings_Contains line "ERROR" = true
    · simp only [hE, if_true]
      obtain ⟨hall, hpw⟩ := ih2 ((pre.length : Int) + 1) (fun j h2 h3 => by omega)
      have hmax1 : last ≤ max last ((pre.length : Int) - 10) := by
        rw [max_eq_builtin]; exact le_max_left _ _
      refine ⟨?_, List.pairwise_cons.2 ⟨fun b hb => ?_, hpw⟩⟩
      · intro e he
        rcases List.mem_cons.1 he with rfl | he
        · exact ⟨Or.inl hmax1, le_refl _, fun j h2 h3 => hno j (le_trans hmax1 h2) h3⟩
        · obtain ⟨a1, a3, a4⟩ := hall e he
          exact ⟨Or.inr (by push_cast at a1; omega), by omega, a4⟩
      · have h1 := (hall b hb).1
        have h2 := (hall b hb).2.1
        simp only []
        push_cast at h1
        omega
    · simp only [hE, if_false, Bool.false_eq_true]
      have hF : strings_Contains line "ERROR" = false := by simpa using hE
      obtain ⟨hall, hpw⟩ := ih2 last (fun j h2 h3 => by
        by_cases hj : j < pre.length
        · exact hno j h2 hj
        · have : j = pre.length := by omega
          rw [this, hD]; exact hF)
      refine ⟨fun e he => ?_, hpw⟩
      obtain ⟨a1, a3, a4⟩ := hall e he
      exact ⟨by push_cast at a1; omega, by omega, a4⟩

theorem mem_emittedAt (lines : List String) (e : Nat × Int) (k : Nat)
    (h : k ∈ emittedAt lines e) : k = e.1 ∨ (e.2 ≤ (k : Int) ∧ k < e.1) := by
  simp only [emittedAt, List.mem_cons, List.mem_filter, List.mem_range, Bool.and_eq_true,
    decide_eq_true_eq] at h
  rcases h with h | ⟨h1, h2, _⟩
  · exact Or.inl h
  · exact Or.inr ⟨h2, h1⟩

theorem emittedAt_nodup (lines : List String) (e : Nat × Int) : (emittedAt lines e).Nodup := by
  unfold emittedAt
  refine List.nodup_cons.2 ⟨?_, (List.nodup_range _).filter _⟩
  simp [List.mem_filter]

/-- Windows that are ordered as the ghost view orders them write pairwise
different positions. -/
theorem flatMap_emittedAt_nodup (lines : List String) (tr : List (Nat × Int))
    (hpw : tr.Pairwise (fun a b => (a.1 : Int) < b.2 ∧ a.1 < b.1)) :
    (tr.flatMap (emittedAt lines)).Nodup := by
  rw [List.nodup_flatMap]
  refine ⟨fun e _ => emittedAt_nodup lines e, ?_⟩
  refine hpw.imp ?_
  intro a b hab
  show List.Disjoint (emittedAt lines a) (emittedAt lines b)
  intro k hka hkb
  rcases mem_emittedAt lines a k hka with h1 | ⟨h1, h2⟩ <;>
    rcases mem_emittedAt lines b k hkb with h3 | ⟨h3, h4⟩ <;> omega

/-- The ghost view has one window for each line containing "ERROR", in
increasing index. -/
theorem errorWindows_indices (lines : List String) :
    ∀ (rest pre : List String) (last : Int), lines = pre ++ rest →
      (errorWindows rest pre.length last).map Prod.fst =
        (List.range' pre.length rest.length).filter
          (fun i => strings_Contains (lines.getD i "") "ERROR") := by
  intro rest
  induction rest with
  | nil => intro pre last _; simp [errorWindows]
  | cons line rest ih =>
    intro pre last hl
    have hD : lines.getD pre.length "" = line := by
      rw [hl, List.getD_eq_getElem?_getD, List.getElem?_append_right (le_refl _)]
      simp
    have hl2 : lines = (pre ++ [line]) ++ rest := by rw [hl]; simp
    have hlen2 : (pre ++ [line]).length = pre.length + 1 := by simp
    have ih2 := fun last => ih (pre ++ [line]) last hl2
    rw [hlen2] at ih2
    unfold errorWindows
    rw [List.length_cons, List.range'_succ, List.filter_cons, hD]
    by_cases hE : strings_Contains line "ERROR" = true
    · simp only [hE, if_true, List.map_cons, ih2]
    · simp only [hE, if_false, Bool.false_eq_true, ih2]

/-! ## Claims on the operator log excerpt -/

/-- C1: for every pod log, given as its list of lines and scanned from
`lastErrorIndex = 0` with an empty builder, the scan returns and its excerpt
is the reference excerpt: going through the indices top to bottom, each line
containing "ERROR" is emitted, followed by the lines of
`[max(lastErrorIndex, i-10), i)` containing "WARNING" in increasing index,
each with a line feed, and `lastErrorIndex` becomes `i + 1`; nothing else is
emitted. -/
theorem C1_excerpt_refines_reference (lines : List String) :
    (scanPodLog lines "" 0).map Prod.fst = some (specExcerpt lines) := by
  rw [scanPodLog_eq lines "" 0 (le_refl _)]
  rfl

/-- C2: evaluation at two operator pods with logs "INFO x\nERROR a" and
"WARNING w\nERROR b".  Each log scanned on its own gives "ERROR a\n" and
"ERROR b\nWARNING w\n", but `getInstanaOperatorLogs` returns
"ERROR a\nERROR b\n": the `lastErrorIndex = 2` left by the first pod is still
in force in the second pod, whose window at index 1 is then empty, so the
warning of the second pod is lost and the excerpt is not the concatenation
of the per-pod excerpts. -/
theorem C2_lastErrorIndex_not_reset_per_pod :
    scanPodLog (splitLines [] "INFO x\nERROR a".data) "" 0 = some ("ERROR a\n", 2) ∧
    scanPodLog (splitLines [] "WARNING w\nERROR b".data) "" 0 = some ("ERROR b\nWARNING w\n", 2) ∧
    (getInstanaOperatorLogs twoPodFixture.cluster "instana-operator" ()).1
      = some (.ok "ERROR a\nERROR b\n") ∧
    (getInstanaOperatorLogs twoPodFixture.cluster "instana-operator" ()).1
      ≠ some (.ok ("ERROR a\n" ++ "ERROR b\nWARNING w\n")) := by
  have h : (getInstanaOperatorLogs twoPodFixture.cluster "instana-operator" ()).1
      = some (.ok "ERROR a\nERROR b\n") := rfl
  refine ⟨by decide, by decide, h, ?_⟩
  rw [h]
  intro hne
  injection hne with hne
  injection hne with hne
  exact absurd hne (by decide)

/-- C3: for every pod log, whatever non-negative value `lastErrorIndex`
has when its scan starts (0 for the first pod), the text the scan adds is
made of the lines at the emitted positions, and no position is emitted
twice: there is one window per line containing "ERROR", the windows of two
different error lines share no index, and no window holds a line containing
"ERROR".  For the lines "INFO a", "WARNING b", "ERROR c", "INFO d",
"ERROR e" scanned from 0 the positions are 2, 1, 4 and the excerpt is
"ERROR c\nWARNING b\nERROR e\n", with "WARNING b" once. -/
theorem C3_no_position_emitted_twice (lines : List String) (last : Nat) :
    (scanPodLog lines "" (last : Int)).map Prod.fst =
      some (concatLines (((errorWindows lines 0 (last : Int)).flatMap (emittedAt lines)).map
        (fun j => lines.getD j ""))) ∧
    ((errorWindows lines 0 (last : Int)).flatMap (emittedAt lines)).Nodup ∧
    (errorWindows lines 0 (last : Int)).map Prod.fst =
      (List.range lines.length).filter (fun i => strings_Contains (lines.getD i "") "ERROR") ∧
    (errorWindows lines 0 (last : Int)).Pairwise
      (fun a b => ∀ j : Int, ¬ (a.2 ≤ j ∧ j < (a.1 : Int) ∧ b.2 ≤ j ∧ j < (b.1 : Int))) ∧
    (∀ e ∈ errorWindows lines 0 (last : Int), ∀ j : Nat, e.2 ≤ (j : Int) → j < e.1 →
      strings_Contains (lines.getD j "") "ERROR" = false) ∧
    emittedPositions ["INFO a", "WARNING b", "ERROR c", "INFO d", "ERROR e"] = [2, 1, 4] ∧
    (scanPodLog ["INFO a", "WARNING b", "ERROR c", "INFO d", "ERROR e"] "" 0).map Prod.fst
      = some "ERROR c\nWARNING b\nERROR e\n" := by
  obtain ⟨hall, hpw⟩ := errorWindows_inv lines lines [] (last : Int) rfl
    (fun j _ h => by simp at h)
  simp only [List.length_nil] at hall hpw
  refine ⟨?_, ?_, ?_, ?_, ?_, by decide, by decide⟩
  · rw [scanPodLog_eq lines "" (last : Int) (Int.ofNat_nonneg _), List.range_eq_range']
    have h := foldl_specStep_eq_emitted lines lines [] "" (last : Int) rfl
    simp only [List.length_nil] at h
    simp only [Option.map_some', h]
    simp
  · exact flatMap_emittedAt_nodup lines _ hpw
  · have h := errorWindows_indices lines lines [] (last : Int) rfl
    simpa [List.range_eq_range'] using h
  · refine hpw.imp ?_
    intro a b hab j
    omega
  · intro e he j h1 h2
    exact (hall e he).2.2 j h1 h2

/-- C4: when the client set is built, the operator pods are listed and every
pod log is read, `getInstanaOperatorLogs` returns an excerpt without error,
and the excerpt is the empty string exactly when no line of any of the logs
contains "ERROR". -/
theorem C4_excerpt_empty_iff_no_error_line (c : Cluster σ) (ns : String) (w w1 w2 w3 w4 : σ)
    (pods bufs : List String)
    (hcfg : c.inClusterConfig w = (none, w1))
    (hset : c.newForConfig w1 = (none, w2))
    (hpods : c.listPods ns "app.kubernetes.io/component=operator" w2 = (.ok pods, w3))
    (hlogs : readPodLogs c ns pods w3 = (.ok bufs, w4)) :
    ∃ excerpt, getInstanaOperatorLogs c ns w = (some (.ok excerpt), w4) ∧
      (excerpt = "" ↔
        ∀ buf ∈ bufs, ∀ line ∈ splitLines [] buf.data, strings_Contains line "ERROR" = false) := by
  obtain ⟨l1, n1, hs, _, _, hlt, heq⟩ :=
    scanPodLogs_facts (bufs.map (fun b => splitLines [] b.data)) "" 0 (le_refl _)
  refine ⟨l1, ?_, ?_, ?_⟩
  · unfold getInstanaOperatorLogs
    rw [hcfg]; simp only []
    rw [hset]; simp only []
    rw [hpods]; simp only []
    rw [podLogLoop_eq c ns pods "" 0 w3 w4 bufs (le_refl _) hlogs, hs]
    rfl
  · intro he buf hb line hl
    by_contra hne
    have hE : strings_Contains line "ERROR" = true := by simpa using hne
    have := hlt ⟨splitLines [] buf.data, List.mem_map.2 ⟨buf, hb, rfl⟩, line, hl, hE⟩
    rw [he] at this
    simp at this
  · intro h
    apply heq
    intro lines hm line hl
    obtain ⟨buf, hb, rfl⟩ := List.mem_map.1 hm
    exact h buf hb line hl

/-- Witness for C4 at the two-pod fixture, whose logs hold error lines. -/
theorem C4_excerpt_empty_iff_no_error_line_witness :
    twoPodFixture.cluster.inClusterConfig () = (none, ()) ∧
    twoPodFixture.cluster.newForConfig () = (none, ()) ∧
    twoPodFixture.cluster.listPods "instana-operator" "app.kubernetes.io/component=operator" ()
      = (.ok ["operator-0", "operator-1"], ()) ∧
    readPodLogs twoPodFixture.cluster "instana-operator" ["operator-0", "operator-1"] ()
      = (.ok ["INFO x\nERROR a", "WARNING w\nERROR b"], ()) ∧
    ∃ excerpt, getInstanaOperatorLogs twoPodFixture.cluster "instana-operator" ()
        = (some (.ok excerpt), ()) ∧
      (excerpt = "" ↔
        ∀ buf ∈ ["INFO x\nERROR a", "WARNING w\nERROR b"],
          ∀ line ∈ splitLines [] buf.data, strings_Contains line "ERROR" = false) :=
  ⟨rfl, rfl, rfl, rfl,
    C4_excerpt_empty_iff_no_error_line twoPodFixture.cluster "instana-operator" () () () () ()
      ["operator-0", "operator-1"] ["INFO x\nERROR a", "WARNING w\nERROR b"] rfl rfl rfl rfl⟩

/-! ## Lemmas on field access -/

/-- The `(value, found, err)` triple of `NestedInt64` on a two-field path,
defaulted the way the checks default it, is the reference integer. -/
theorem nestedInt64_default (obj : Object) (a b : String) :
    (if (NestedInt64 obj [a, b]).2.2.isSome || !(NestedInt64 obj [a, b]).2.1 then 0
      else (NestedInt64 obj [a, b]).1) = int64At obj a b := by
  unfold NestedInt64 NestedFieldNoCopy int64At fieldAt
  simp only [nestedFieldLoop]
  rcases mapIndex obj a with _ | v
  · simp
  · cases v <;> simp [nestedFieldLoop]
    rename_i m
    rcases mapIndex m b with _ | v2
    · simp
    · cases v2 <;> simp

/-- The same for `NestedString`, with any default. -/
theorem nestedString_default (obj : Object) (a b dflt : String) :
    (if (NestedString obj [a, b]).2.2.isSome || !(NestedString obj [a, b]).2.1 then dflt
      else (NestedString obj [a, b]).1) = stringAt obj a b dflt := by
  unfold NestedString NestedFieldNoCopy stringAt fieldAt
  simp only [nestedFieldLoop]
  rcases mapIndex obj a with _ | v
  · simp
  · cases v <;> simp [nestedFieldLoop]
    rename_i m
    rcases mapIndex m b with _ | v2
    · simp
    · cases v2 <;> simp

theorem getName_eq (obj : Object) : GetName obj = stringAt obj "metadata" "name" "" := by
  have h := nestedString_default obj "metadata" "name" ""
  unfold GetName
  rcases hN : NestedString obj ["metadata", "name"] with ⟨val, found, err⟩
  rw [hN] at h
  simp only [] at h ⊢
  rw [← h]
  cases found <;> cases err <;> simp

/-! ## Lemmas on the workload loops -/

/-- The stateful-set loop appends, in listing order, one result for each
object whose two reference counts differ. -/
theorem statefulSetLoop_eq (ns : String) :
    ∀ (items : List Object) (acc : List Result),
      statefulSetLoop ns items acc = acc ++
        (items.filter (fun o =>
          decide (int64At o "status" "readyReplicas" ≠ int64At o "spec" "replicas"))).map
          (fun o => ({
            Kind := "StatefulSet"
            Name := stringAt o "metadata" "name" ""
            Error := [{
              Text := "In namespace " ++ ns ++ ", statefulSet "
                ++ stringAt o "metadata" "name" "" ++ " is not running"
              Sensitive := [] }] } : Result)) := by
  intro items
  induction items with
  | nil => intro acc; simp [statefulSetLoop]
  | cons sts rest ih =>
    intro acc
    have h1 := nestedInt64_default sts "status" "readyReplicas"
    have h2 := nestedInt64_default sts "spec" "replicas"
    unfold statefulSetLoop
    rcases hA : NestedInt64 sts ["status", "readyReplicas"] with ⟨r0, f1, e1⟩
    rcases hB : NestedInt64 sts ["spec", "replicas"] with ⟨p0, f2, e2⟩
    rw [hA] at h1
    rw [hB] at h2
    simp only [] at h1 h2
    simp only [h1, h2, getName_eq, ih, List.filter_cons]
    by_cases hne : int64At sts "status" "readyReplicas" = int64At sts "spec" "replicas"
    · simp [hne]
    · simp [hne]

/-- The deployment loop appends, in listing order, one result for each
object whose two reference counts differ. -/
theorem deploymentLoop_eq (ns : String) :
    ∀ (items : List Object) (acc : List Result),
      deploymentLoop ns items acc = acc ++
        (items.filter (fun o =>
          decide (int64At o "status" "availableReplicas" ≠ int64At o "spec" "replicas"))).map
          (fun o => ({
            Kind := "Deployment"
            Name := stringAt o "metadata" "name" ""
            Error := [{
              Text := "In namespace " ++ ns ++ ", deployment "
                ++ stringAt o "metadata" "name" "" ++ " is not available"
              Sensitive := [] }] } : Result)) := by
  intro items
  induction items with
  | nil => intro acc; simp [deploymentLoop]
  | cons deploy rest ih =>
    intro acc
    have h1 := nestedInt64_default deploy "status" "availableReplicas"
    have h2 := nestedInt64_default deploy "spec" "replicas"
    unfold deploymentLoop
    rcases hA : NestedInt64 deploy ["status", "availableReplicas"] with ⟨r0, f1, e1⟩
    rcases hB : NestedInt64 deploy ["spec", "replicas"] with ⟨p0, f2, e2⟩
    rw [hA] at h1
    rw [hB] at h2
    simp only [] at h1 h2
    simp only [h1, h2, getName_eq, ih, List.filter_cons]
    by_cases hne : int64At deploy "status" "availableReplicas" = int64At deploy "spec" "replicas"
    · simp [hne]
    · simp [hne]

/-- The pod loop appends, in listing order, one result for each pod whose
reference phase is not "Running". -/
theorem podLoop_eq (ns : String) :
    ∀ (items : List Object) (acc : List Result),
      podLoop ns items acc = acc ++
        (items.filter (fun o => decide (stringAt o "status" "phase" "Unknown" ≠ "Running"))).map
          (fun o => ({
            Kind := "Pod"
            Name := stringAt o "metadata" "name" ""
            Error := [{
              Text := "In namespace " ++ ns ++ ", pod "
                ++ stringAt o "metadata" "name" "" ++ " is not running"
              Sensitive := [] }] } : Result)) := by
  intro items
  induction items with
  | nil => intro acc; simp [podLoop]
  | cons pod rest ih =>
    intro acc
    have h1 := nestedString_default pod "status" "phase" "Unknown"
    unfold podLoop
    rcases hA : NestedString pod ["status", "phase"] with ⟨r0, f1, e1⟩
    rw [hA] at h1
    simp only [] at h1
    simp only [h1, getName_eq, ih, List.filter_cons]
    by_cases hne : stringAt pod "status" "phase" "Unknown" = "Running"
    · simp [hne]
    · simp [hne]

/-! ## Lemmas on `strings.Contains` -/

/-- The scan finds `sub` exactly when `sub` is a contiguous part of the
characters. -/
theorem containsChars_iff (l sub : List Char) : containsChars l sub = true ↔ sub <:+: l := by
  induction l with
  | nil =>
    cases sub with
    | nil => simp [containsChars]
    | cons c cs => simp [containsChars, List.isPrefixOf]
  | cons c cs ih =>
    simp only [containsChars, Bool.or_eq_true, ih, List.isPrefixOf_iff_prefix,
      List.infix_cons_iff]

theorem strings_Contains_iff (s sub : String) :
    strings_Contains s sub = true ↔ sub.data <:+: s.data :=
  containsChars_iff s.data sub.data

theorem strings_Contains_mid (a s b : String) : strings_Contains (a ++ s ++ b) s = true := by
  rw [strings_Contains_iff]
  simp only [String.data_append]
  exact List.infix_append _ _ _

/-! ## Claims on the workload checks -/

/-- C5: when the stateful sets of a namespace are listed, `checkStatefulSets`
returns, in listing order, exactly one result for each object whose
`status.readyReplicas` differs from its `spec.replicas` (each 0 when
missing), and none for the others; the result has Kind "StatefulSet", the
name of the object and the single failure
"In namespace {ns}, statefulSet {name} is not running". -/
theorem C5_checkStatefulSets_results (c : Cluster σ) (ns : String) (w w1 : σ)
    (items : List Object)
    (hlist : c.list "StatefulSet" "apps/v1" ns w = (.ok items, w1)) :
    checkStatefulSets c ns w =
      ((items.filter (fun o =>
          decide (int64At o "status" "readyReplicas" ≠ int64At o "spec" "replicas"))).map
          (fun o => ({
            Kind := "StatefulSet"
            Name := stringAt o "metadata" "name" ""
            Error := [{
              Text := "In namespace " ++ ns ++ ", statefulSet "
                ++ stringAt o "metadata" "name" "" ++ " is not running"
              Sensitive := [] }] } : Result)), w1) := by
  unfold checkStatefulSets
  rw [hlist]
  simp only [statefulSetLoop_eq, List.nil_append]

/-- Witness for C5 in namespace `instana-kafka` of the workload fixture:
three stateful sets, one result. -/
theorem C5_checkStatefulSets_results_witness :
    workloadFixture.cluster.list "StatefulSet" "apps/v1" "instana-kafka" () =
      (.ok [workload "kafka" [("replicas", .int64 3)] [("readyReplicas", .int64 2)],
          workload "zookeeper" [("replicas", .int64 1)] [("readyReplicas", .int64 1)],
          [("metadata", .map [("name", .str "idle")]), ("spec", .map [("replicas", .int64 0)])]],
        ()) ∧
    checkStatefulSets workloadFixture.cluster "instana-kafka" () =
      ([{ Kind := "StatefulSet"
          Name := "kafka"
          Error := [{
            Text := "In namespace instana-kafka, statefulSet kafka is not running"
            Sensitive := [] }] }], ()) :=
  ⟨rfl, (C5_checkStatefulSets_results workloadFixture.cluster "instana-kafka" () () _ rfl).trans
    (by decide)⟩

/-- C6: when the deployments of a namespace are listed, `checkDeployments`
returns, in listing order, exactly one result for each object whose
`status.availableReplicas` differs from its `spec.replicas` (each 0 when
missing), and none for the others; the result has Kind "Deployment", the
name of the object and the single failure
"In namespace {ns}, deployment {name} is not available". -/
theorem C6_checkDeployments_results (c : Cluster σ) (ns : String) (w w1 : σ)
    (items : List Object)
    (hlist : c.list "Deployment" "apps/v1" ns w = (.ok items, w1)) :
    checkDeployments c ns w =
      ((items.filter (fun o =>
          decide (int64At o "status" "availableReplicas" ≠ int64At o "spec" "replicas"))).map
          (fun o => ({
            Kind := "Deployment"
            Name := stringAt o "metadata" "name" ""
            Error := [{
              Text := "In namespace " ++ ns ++ ", deployment "
                ++ stringAt o "metadata" "name" "" ++ " is not available"
              Sensitive := [] }] } : Result)), w1) := by
  unfold checkDeployments
  rw [hlist]
  simp only [deploymentLoop_eq, List.nil_append]

/-- Witness for C6 in namespace `instana-kafka` of the workload fixture:
two deployments, one result. -/
theorem C6_checkDeployments_results_witness :
    workloadFixture.cluster.list "Deployment" "apps/v1" "instana-kafka" () =
      (.ok [workload "ui" [("replicas", .int64 2)] [("availableReplicas", .str "two")],
          workload "api" [("replicas", .int64 2)] [("availableReplicas", .int64 2)]], ()) ∧
    checkDeployments workloadFixture.cluster "instana-kafka" () =
      ([{ Kind := "Deployment"
          Name := "ui"
          Error := [{
            Text := "In namespace instana-kafka, deployment ui is not available"
            Sensitive := [] }] }], ()) :=
  ⟨rfl, (C6_checkDeployments_results workloadFixture.cluster "instana-kafka" () () _ rfl).trans
    (by decide)⟩

/-- C7: when the pods of a namespace are listed, `checkPods` returns exactly
one result for each pod whose `status.phase` is not "Running" (a missing
phase counting as "Unknown") and none for a running pod; the result has Kind
"Pod", the name of the pod and a single failure, whose text is not empty and
contains the namespace and the pod name. -/
theorem C7_checkPods_results (c : Cluster σ) (ns : String) (w w1 : σ)
    (items : List Object)
    (hlist : c.list "Pod" "v1" ns w = (.ok items, w1)) :
    checkPods c ns w =
      ((items.filter (fun o => decide (stringAt o "status" "phase" "Unknown" ≠ "Running"))).map
          (fun o => ({
            Kind := "Pod"
            Name := stringAt o "metadata" "name" ""
            Error := [{
              Text := "In namespace " ++ ns ++ ", pod "
                ++ stringAt o "metadata" "name" "" ++ " is not running"
              Sensitive := [] }] } : Result)), w1) ∧
    ∀ r ∈ (checkPods c ns w).1, r.Kind = "Pod" ∧
      ∃ f, r.Error = [f] ∧ f.Text ≠ "" ∧ strings_Contains f.Text ns = true ∧
        strings_Contains f.Text r.Name = true := by
  have heq : checkPods c ns w =
      ((items.filter (fun o => decide (stringAt o "status" "phase" "Unknown" ≠ "Running"))).map
          (fun o => ({
            Kind := "Pod"
            Name := stringAt o "metadata" "name" ""
            Error := [{
              Text := "In namespace " ++ ns ++ ", pod "
                ++ stringAt o "metadata" "name" "" ++ " is not running"
              Sensitive := [] }] } : Result)), w1) := by
    unfold checkPods
    rw [hlist]
    simp only [podLoop_eq, List.nil_append]
  refine ⟨heq, ?_⟩
  rw [heq]
  intro r hr
  obtain ⟨o, _, rfl⟩ := List.mem_map.1 hr
  refine ⟨rfl, _, rfl, ?_, ?_, ?_⟩
  · intro h
    have hlen := congrArg String.length h
    have h13 : ("In namespace " : String).length = 13 := by decide
    simp only [String.length_append, h13] at hlen
    have h0 : ("" : String).length = 0 := by decide
    omega
  · have e : "In namespace " ++ ns ++ ", pod " ++ stringAt o "metadata" "name" ""
        ++ " is not running" = "In namespace " ++ ns
          ++ (", pod " ++ stringAt o "metadata" "name" "" ++ " is not running") := by
      simp only [String.append_assoc]
    simp only [e]
    exact strings_Contains_mid _ _ _
  · exact strings_Contains_mid _ _ _

/-- Witness for C7 in namespace `instana-kafka` of the workload fixture:
three pods, the pending one and the one without a phase give a result. -/
theorem C7_checkPods_results_witness :
    workloadFixture.cluster.list "Pod" "v1" "instana-kafka" () =
      (.ok [workload "kafka-0" [] [("phase", .str "Running")],
          workload "kafka-1" [] [("phase", .str "Pending")],
          workload "kafka-2" [] []], ()) ∧
    (checkPods workloadFixture.cluster "instana-kafka" ()).1.map (fun r => r.Name)
      = ["kafka-1", "kafka-2"] ∧
    ∀ r ∈ (checkPods workloadFixture.cluster "instana-kafka" ()).1, r.Kind = "Pod" ∧
      ∃ f, r.Error = [f] ∧ f.Text ≠ "" ∧ strings_Contains f.Text "instana-kafka" = true ∧
        strings_Contains f.Text r.Name = true :=
  ⟨rfl, by decide,
    (C7_checkPods_results workloadFixture.cluster "instana-kafka" () () _ rfl).2⟩

/-! ## Claims on namespace resolution -/

theorem keywordLoop_iff (name : String) (keywords : List String) :
    keywordLoop name keywords = true ↔ ∃ k ∈ keywords, k.data <:+: name.data := by
  induction keywords with
  | nil => simp [keywordLoop]
  | cons k ks ih =>
    unfold keywordLoop
    by_cases h : strings_Contains name k = true
    · simp only [h, if_true, true_iff]
      exact ⟨k, by simp, (strings_Contains_iff name k).1 h⟩
    · have h2 : ¬ k.data <:+: name.data := fun hi => h ((strings_Contains_iff name k).2 hi)
      simp only [h, if_false, Bool.false_eq_true, ih, List.mem_cons, exists_eq_or_imp, h2,
        false_or]

theorem namespaceLoop_eq (keywords : List String) :
    ∀ (items acc : List String),
      namespaceLoop keywords items acc = acc ++
        items.filter (fun name => decide (∃ k ∈ keywords, k.data <:+: name.data)) := by
  intro items
  induction items with
  | nil => intro acc; simp [namespaceLoop]
  | cons name rest ih =>
    intro acc
    unfold namespaceLoop
    rw [List.filter_cons]
    by_cases h : ∃ k ∈ keywords, k.data <:+: name.data
    · simp only [(keywordLoop_iff name keywords).2 h, if_true, ih, decide_eq_true h,
        List.append_assoc, List.singleton_append]
    · have hk : keywordLoop name keywords = false := by
        rw [← Bool.not_eq_true]; exact fun hk => h ((keywordLoop_iff name keywords).1 hk)
      simp only [hk, Bool.false_eq_true, if_false, ih, decide_eq_false h]

/-- C10: `getNamespacesWithKeywords` returns the listing error when the
namespaces cannot be listed.  Otherwise it returns, without error, the
listed names that contain at least one keyword as a contiguous,
case-sensitive part, in listing order: a name is returned as often as it is
listed when it matches one keyword or several, and not at all otherwise, so
distinct listed names give distinct results, and the result is empty exactly
when no listed name matches. -/
theorem C10_getNamespacesWithKeywords (c : Cluster σ) (keywords : List String) (w : σ) :
    match c.listNamespaces w with
    | (.error err, w1) => getNamespacesWithKeywords c keywords w = (.error err, w1)
    | (.ok items, w1) =>
      ∃ matched, getNamespacesWithKeywords c keywords w = (.ok matched, w1) ∧
        matched = items.filter (fun name => decide (∃ k ∈ keywords, k.data <:+: name.data)) ∧
        (∀ name, matched.count name =
          if ∃ k ∈ keywords, k.data <:+: name.data then items.count name else 0) ∧
        (items.Nodup → matched.Nodup) ∧
        (matched = [] ↔ ∀ name ∈ items, ¬ ∃ k ∈ keywords, k.data <:+: name.data) := by
  unfold getNamespacesWithKeywords
  rcases h : c.listNamespaces w with ⟨err | items, w1⟩
  · simp only []
  · simp only [namespaceLoop_eq, List.nil_append]
    refine ⟨_, rfl, rfl, ?_, ?_, ?_⟩
    · intro name
      by_cases hm : ∃ k ∈ keywords, k.data <:+: name.data
      · rw [if_pos hm, List.count_filter (by simpa using hm)]
      · rw [if_neg hm]
        apply List.count_eq_zero_of_not_mem
        simp only [List.mem_filter, decide_eq_true_eq]
        exact fun h2 => hm h2.2
    · exact fun hn => hn.filter _
    · simp only [List.filter_eq_nil_iff, decide_eq_true_eq]

/-! ## Lemmas on setting a field -/

theorem mapIndex_filter_ne (m : List (String × Value)) (a a' : String) (h : a' ≠ a) :
    mapIndex (m.filter (fun e => !(e.1 == a))) a' = mapIndex m a' := by
  unfold mapIndex
  induction m with
  | nil => rfl
  | cons e rest ih =>
    rw [List.filter_cons]
    by_cases h1 : e.1 = a
    · have h2 : ¬ e.1 = a' := fun h3 => h (h3.symm.trans h1)
      simp only [h1, beq_self_eq_true, Bool.not_true, Bool.false_eq_true, if_false]
      rw [List.find?_cons_of_neg _ (by simpa [h1] using fun h3 => h h3.symm)]
      exact ih
    · simp only [beq_iff_eq, h1, not_false_eq_true, Bool.not_eq_true', beq_eq_false_iff_ne,
        ne_eq, if_true, decide_True, decide_not]
      by_cases h2 : e.1 = a'
      · rw [List.find?_cons_of_pos _ (by simpa using h2),
          List.find?_cons_of_pos _ (by simpa using h2)]
      · rw [List.find?_cons_of_neg _ (by simpa using h2),
          List.find?_cons_of_neg _ (by simpa using h2)]
        exact ih

theorem mapIndex_cons_self (m : List (String × Value)) (a : String) (v : Value) :
    mapIndex ((a, v) :: m) a = some v := by
  simp [mapIndex]

theorem mapIndex_cons_ne (m : List (String × Value)) (a a' : String) (v : Value) (h : a' ≠ a) :
    mapIndex ((a, v) :: m) a' = mapIndex m a' := by
  unfold mapIndex
  rw [List.find?_cons_of_neg _ (by simpa using fun h3 => h h3.symm)]

/-- The field that was set is read back. -/
theorem fieldAt_setField_self (obj : Object) (a b : String) (v : Value) :
    fieldAt (setField obj a b v) a b = some v := by
  simp only [fieldAt, setField, mapIndex_cons_self]

/-- A field under another top-level key is left as it was. -/
theorem fieldAt_setField_other (obj : Object) (a b a' b' : String) (v : Value) (h : a' ≠ a) :
    fieldAt (setField obj a b v) a' b' = fieldAt obj a' b' := by
  simp only [fieldAt, setField, mapIndex_cons_ne _ _ _ _ h, mapIndex_filter_ne _ _ _ h]

/-- Another field under the same top-level key is left as it was. -/
theorem fieldAt_setField_sibling (obj : Object) (a b b' : String) (v : Value) (h : b' ≠ b) :
    fieldAt (setField obj a b v) a b' = fieldAt obj a b' := by
  simp only [fieldAt, setField, mapIndex_cons_self, mapIndex_cons_ne _ _ _ _ h,
    mapIndex_filter_ne _ _ _ h]
  rcases mapIndex obj a with _ | x
  · simp [mapIndex]
  · cases x <;> simp [mapIndex]

theorem filter_map_congr_mid {α β : Type} (p : α → Bool) (f : α → β) (pre post : List α)
    (o o' : α) (hp : p o = p o') (hf : f o = f o') :
    ((pre ++ o :: post).filter p).map f = ((pre ++ o' :: post).filter p).map f := by
  simp only [List.filter_append, List.filter_cons, hp, List.map_append]
  cases p o' <;> simp [hf]

theorem int64At_of_unreadable (o : Object) (a b : String)
    (h : ∀ n, fieldAt o a b ≠ some (.int64 n)) : int64At o a b = 0 := by
  unfold int64At
  rcases hf : fieldAt o a b with _ | v
  · rfl
  · cases v <;> simp
    exact absurd hf (h _)

theorem stringAt_of_unreadable (o : Object) (a b dflt : String)
    (h : ∀ s, fieldAt o a b ≠ some (.str s)) : stringAt o a b dflt = dflt := by
  unfold stringAt
  rcases hf : fieldAt o a b with _ | v
  · rfl
  · cases v <;> simp
    exact absurd hf (h _)

theorem int64At_setField_self (o : Object) (a b : String) (n : Int) :
    int64At (setField o a b (.int64 n)) a b = n := by
  simp only [int64At, fieldAt_setField_self]

theorem stringAt_setField_self (o : Object) (a b s dflt : String) :
    stringAt (setField o a b (.str s)) a b dflt = s := by
  simp only [stringAt, fieldAt_setField_self]

theorem int64At_setField_other (o : Object) (a b a' b' : String) (v : Value) (h : a' ≠ a) :
    int64At (setField o a b v) a' b' = int64At o a' b' := by
  simp only [int64At, fieldAt_setField_other _ _ _ _ _ _ h]

theorem stringAt_setField_other (o : Object) (a b a' b' dflt : String) (v : Value)
    (h : a' ≠ a) : stringAt (setField o a b v) a' b' dflt = stringAt o a' b' dflt := by
  simp only [stringAt, fieldAt_setField_other _ _ _ _ _ _ h]

theorem fieldAt_of_no_block (o : Object) (a b : String) (h : mapIndex o a = none) :
    fieldAt o a b = none := by
  simp only [fieldAt, h]

/-- C8: a readiness field that is missing or holds a value of the wrong type
never stops a check and counts as the not-ready default.  For an object `o`
anywhere in the listed sequence, the output of the stateful-set, deployment
and pod loops (which is the output of the three checks on a listed sequence)
is the output on the same sequence with the field of `o` set to 0
(`status.readyReplicas`, `status.availableReplicas`, `spec.replicas`) or to
"Unknown" (`status.phase`); the objects before and after `o` are evaluated as
they are without it; and an object without a `status` block whose
`spec.replicas` is 0 or unreadable adds no stateful-set or deployment
result. -/
theorem C8_unreadable_field_is_default (ns : String) (pre post : List Object) (o : Object) :
    (∀ (c : Cluster σ) (w w1 : σ) (items : List Object),
      (c.list "StatefulSet" "apps/v1" ns w = (.ok items, w1) →
        checkStatefulSets c ns w = (statefulSetLoop ns items [], w1)) ∧
      (c.list "Deployment" "apps/v1" ns w = (.ok items, w1) →
        checkDeployments c ns w = (deploymentLoop ns items [], w1)) ∧
      (c.list "Pod" "v1" ns w = (.ok items, w1) →
        checkPods c ns w = (podLoop ns items [], w1))) ∧
    ((∀ n, fieldAt o "status" "readyReplicas" ≠ some (.int64 n)) →
      statefulSetLoop ns (pre ++ o :: post) [] =
        statefulSetLoop ns (pre ++ setField o "status" "readyReplicas" (.int64 0) :: post) []) ∧
    ((∀ n, fieldAt o "spec" "replicas" ≠ some (.int64 n)) →
      statefulSetLoop ns (pre ++ o :: post) [] =
        statefulSetLoop ns (pre ++ setField o "spec" "replicas" (.int64 0) :: post) [] ∧
      deploymentLoop ns (pre ++ o :: post) [] =
        deploymentLoop ns (pre ++ setField o "spec" "replicas" (.int64 0) :: post) []) ∧
    ((∀ n, fieldAt o "status" "availableReplicas" ≠ some (.int64 n)) →
      deploymentLoop ns (pre ++ o :: post) [] =
        deploymentLoop ns (pre ++ setField o "status" "availableReplicas" (.int64 0) :: post) []) ∧
    ((∀ s, fieldAt o "status" "phase" ≠ some (.str s)) →
      podLoop ns (pre ++ o :: post) [] =
        podLoop ns (pre ++ setField o "status" "phase" (.str "Unknown") :: post) []) ∧
    (statefulSetLoop ns (pre ++ o :: post) [] =
        statefulSetLoop ns pre [] ++ statefulSetLoop ns [o] [] ++ statefulSetLoop ns post [] ∧
      deploymentLoop ns (pre ++ o :: post) [] =
        deploymentLoop ns pre [] ++ deploymentLoop ns [o] [] ++ deploymentLoop ns post [] ∧
      podLoop ns (pre ++ o :: post) [] =
        podLoop ns pre [] ++ podLoop ns [o] [] ++ podLoop ns post []) ∧
    (mapIndex o "status" = none →
      (fieldAt o "spec" "replicas" = some (.int64 0) ∨
        ∀ n, fieldAt o "spec" "replicas" ≠ some (.int64 n)) →
      statefulSetLoop ns [o] [] = [] ∧ deploymentLoop ns [o] [] = [] ∧
      statefulSetLoop ns (pre ++ o :: post) [] = statefulSetLoop ns (pre ++ post) [] ∧
      deploymentLoop ns (pre ++ o :: post) [] = deploymentLoop ns (pre ++ post) []) := by
  have hms : ("metadata" : String) ≠ "status" := by decide
  have hmp : ("metadata" : String) ≠ "spec" := by decide
  have hsp : ("status" : String) ≠ "spec" := by decide
  have hps : ("spec" : String) ≠ "status" := by decide
  refine ⟨?_, ?_, ?_, ?_, ?_, ?_, ?_⟩
  · intro c w w1 items
    refine ⟨fun h => ?_, fun h => ?_, fun h => ?_⟩
    · unfold checkStatefulSets; rw [h]
    · unfold checkDeployments; rw [h]
    · unfold checkPods; rw [h]
  · intro h
    simp only [statefulSetLoop_eq, List.nil_append]
    apply filter_map_congr_mid
    · simp only [int64At_of_unreadable o _ _ h, int64At_setField_self,
        int64At_setField_other _ _ _ _ _ _ hps]
    · simp only [stringAt_setField_other _ _ _ _ _ _ _ hms]
  · intro h
    refine ⟨?_, ?_⟩
    · simp only [statefulSetLoop_eq, List.nil_append]
      apply filter_map_congr_mid
      · simp only [int64At_of_unreadable o _ _ h, int64At_setField_self,
          int64At_setField_other _ _ _ _ _ _ hsp]
      · simp only [stringAt_setField_other _ _ _ _ _ _ _ hmp]
    · simp only [deploymentLoop_eq, List.nil_append]
      apply filter_map_congr_mid
      · simp only [int64At_of_unreadable o _ _ h, int64At_setField_self,
          int64At_setField_other _ _ _ _ _ _ hsp]
      · simp only [stringAt_setField_other _ _ _ _ _ _ _ hmp]
  · intro h
    simp only [deploymentLoop_eq, List.nil_append]
    apply filter_map_congr_mid
    · simp only [int64At_of_unreadable o _ _ h, int64At_setField_self,
        int64At_setField_other _ _ _ _ _ _ hps]
    · simp only [stringAt_setField_other _ _ _ _ _ _ _ hms]
  · intro h
    simp only [podLoop_eq, List.nil_append]
    apply filter_map_congr_mid
    · simp only [stringAt_of_unreadable o _ _ _ h, stringAt_setField_self]
    · simp only [stringAt_setField_other _ _ _ _ _ _ _ hms]
  · simp only [statefulSetLoop_eq, deploymentLoop_eq, podLoop_eq, List.nil_append,
      List.filter_append, List.map_append, List.append_assoc]
    simp [List.filter_cons]
    refine ⟨?_, ?_, ?_⟩ <;> split <;> simp
  · intro hst hrep
    have hready : int64At o "status" "readyReplicas" = 0 :=
      int64At_of_unreadable o _ _ (by simp [fieldAt_of_no_block o _ _ hst])
    have havail : int64At o "status" "availableReplicas" = 0 :=
      int64At_of_unreadable o _ _ (by simp [fieldAt_of_no_block o _ _ hst])
    have hzero : int64At o "spec" "replicas" = 0 := by
      rcases hrep with h | h
      · simp [int64At, h]
      · exact int64At_of_unreadable o _ _ h
    simp [statefulSetLoop_eq, deploymentLoop_eq, List.filter_append, List.filter_cons,
      hready, havail, hzero]

/-- Witness for C8: the bare object between two stateful sets.  Every field
of it is unreadable, it has no `status` block, and it drops out of the
stateful-set output while its neighbour `kafka` is still reported. -/
theorem C8_unreadable_field_is_default_witness :
    (∀ n, fieldAt bareObject "status" "readyReplicas" ≠ some (.int64 n)) ∧
    (∀ n, fieldAt bareObject "spec" "replicas" ≠ some (.int64 n)) ∧
    (∀ n, fieldAt bareObject "status" "availableReplicas" ≠ some (.int64 n)) ∧
    (∀ s, fieldAt bareObject "status" "phase" ≠ some (.str s)) ∧
    mapIndex bareObject "status" = none ∧
    statefulSetLoop "instana-kafka"
      ([workload "zookeeper" [("replicas", .int64 1)] [("readyReplicas", .int64 1)]]
        ++ bareObject
          :: [workload "kafka" [("replicas", .int64 3)] [("readyReplicas", .int64 2)]]) [] =
      statefulSetLoop "instana-kafka"
        ([workload "zookeeper" [("replicas", .int64 1)] [("readyReplicas", .int64 1)]]
          ++ setField bareObject "status" "readyReplicas" (.int64 0)
            :: [workload "kafka" [("replicas", .int64 3)] [("readyReplicas", .int64 2)]]) [] ∧
    podLoop "instana-kafka"
      ([workload "zookeeper" [("replicas", .int64 1)] [("readyReplicas", .int64 1)]]
        ++ bareObject
          :: [workload "kafka" [("replicas", .int64 3)] [("readyReplicas", .int64 2)]]) [] =
      podLoop "instana-kafka"
        ([workload "zookeeper" [("replicas", .int64 1)] [("readyReplicas", .int64 1)]]
          ++ setField bareObject "status" "phase" (.str "Unknown")
            :: [workload "kafka" [("replicas", .int64 3)] [("readyReplicas", .int64 2)]]) [] ∧
    statefulSetLoop "instana-kafka" [bareObject] [] = [] ∧
    (statefulSetLoop "instana-kafka"
      ([workload "zookeeper" [("replicas", .int64 1)] [("readyReplicas", .int64 1)]]
        ++ bareObject
          :: [workload "kafka" [("replicas", .int64 3)] [("readyReplicas", .int64 2)]]) []).map
      (fun r => r.Name) = ["kafka"] :=
  have h1 : ∀ n, fieldAt bareObject "status" "readyReplicas" ≠ some (.int64 n) :=
    fun _ h => by cases h
  have h2 : ∀ n, fieldAt bareObject "spec" "replicas" ≠ some (.int64 n) :=
    fun _ h => by cases h
  have h3 : ∀ n, fieldAt bareObject "status" "availableReplicas" ≠ some (.int64 n) :=
    fun _ h => by cases h
  have h4 : ∀ s, fieldAt bareObject "status" "phase" ≠ some (.str s) :=
    fun _ h => by cases h
  have h5 : mapIndex bareObject "status" = none := rfl
  have hC := @C8_unreadable_field_is_default Unit "instana-kafka"
    [workload "zookeeper" [("replicas", .int64 1)] [("readyReplicas", .int64 1)]]
    [workload "kafka" [("replicas", .int64 3)] [("readyReplicas", .int64 2)]] bareObject
  ⟨h1, h2, h3, h4, h5, hC.2.1 h1, hC.2.2.2.2.1 h4, (hC.2.2.2.2.2.2 h5 (Or.inr h2)).1,
    by decide⟩

/-- Witness for C10 at the workload fixture: `Kafka-upper` is not matched by
`kafka`, and `kafka-cassandra`, which contains two keywords, is returned
once. -/
theorem C10_getNamespacesWithKeywords_witness :
    getNamespacesWithKeywords workloadFixture.cluster dataStoreKeywords () =
      (.ok ["instana-kafka", "instana-postgres", "kafka-cassandra"], ()) ∧
    ∃ matched, getNamespacesWithKeywords workloadFixture.cluster dataStoreKeywords () =
        (.ok matched, ()) ∧
      matched = ["default", "instana-kafka", "instana-postgres", "Kafka-upper",
        "kafka-cassandra"].filter
          (fun name => decide (∃ k ∈ dataStoreKeywords, k.data <:+: name.data)) ∧
      (∀ name, matched.count name =
        if ∃ k ∈ dataStoreKeywords, k.data <:+: name.data then
          ["default", "instana-kafka", "instana-postgres", "Kafka-upper",
            "kafka-cassandra"].count name
        else 0) ∧
      (["default", "instana-kafka", "instana-postgres", "Kafka-upper",
          "kafka-cassandra"].Nodup → matched.Nodup) ∧
      (matched = [] ↔ ∀ name ∈ ["default", "instana-kafka", "instana-postgres", "Kafka-upper",
        "kafka-cassandra"], ¬ ∃ k ∈ dataStoreKeywords, k.data <:+: name.data) :=
  ⟨rfl, C10_getNamespacesWithKeywords workloadFixture.cluster dataStoreKeywords ()⟩

/-! ## Lemmas on the orchestrator -/

/-- The data-store loop appends to the results it is given. -/
theorem dataStoreLoop_acc (c : Cluster σ) :
    ∀ (nss : List String) (acc : List Result) (w : σ),
      dataStoreLoop c nss acc w =
        (acc ++ (dataStoreLoop c nss [] w).1, (dataStoreLoop c nss [] w).2) := by
  intro nss
  induction nss with
  | nil => intro acc w; simp [dataStoreLoop]
  | cons ns rest ih =>
    intro acc w
    unfold dataStoreLoop
    simp only []
    rw [ih, ih ((([] ++ _) ++ _) ++ _)]
    simp [List.append_assoc]

/-- The data-store loop is the three checks of its first namespace followed
by the loop on the others. -/
theorem dataStoreLoop_cons (c : Cluster σ) (ns : String) (rest : List String) (w : σ) :
    dataStoreLoop c (ns :: rest) [] w =
      ((namespaceChecks c ns w).1 ++ (dataStoreLoop c rest [] (namespaceChecks c ns w).2).1,
        (dataStoreLoop c rest [] (namespaceChecks c ns w).2).2) := by
  conv => lhs; unfold dataStoreLoop
  simp only []
  rw [dataStoreLoop_acc]
  simp [namespaceChecks, List.append_assoc]

/-- The results of the three checks of every namespace given to the
data-store loop are part of its results. -/
theorem dataStoreLoop_block (c : Cluster σ) :
    ∀ (nss : List String) (w : σ) (ns : String), ns ∈ nss →
      ∃ wa, (namespaceChecks c ns wa).1 <:+: (dataStoreLoop c nss [] w).1 := by
  intro nss
  induction nss with
  | nil => intro w ns h; simp at h
  | cons n rest ih =>
    intro w ns h
    rw [dataStoreLoop_cons]
    rcases List.mem_cons.1 h with rfl | h
    · exact ⟨w, (List.prefix_append _ _).isInfix⟩
    · obtain ⟨wa, hwa⟩ := ih (namespaceChecks c n w).2 ns h
      exact ⟨wa, hwa.trans (List.suffix_append _ _).isInfix⟩

/-- The core group keeps the results it is given at the front. -/
theorem coreStep_keeps_front (c : Cluster σ) (results rs : List Result) (w w1 : σ)
    (h : coreStep c results w = (some (.ok rs), w1)) : results <+: rs := by
  unfold coreStep at h
  split at h
  · simp at h
  · simp only [Prod.mk.injEq, Option.some.injEq, Except.ok.injEq] at h
    rw [← h.1]
  · split at h
    · simp at h
    · simp only [Prod.mk.injEq, Option.some.injEq, Except.ok.injEq] at h
      rw [← h.1]
    · split at h
      · split at h
        · simp at h
        · simp at h
        · simp only [Prod.mk.injEq, Option.some.injEq, Except.ok.injEq] at h
          rw [← h.1]
          exact List.prefix_append _ _
      · simp only [Prod.mk.injEq, Option.some.injEq, Except.ok.injEq] at h
        rw [← h.1]
        exact List.prefix_append _ _

/-- The unit group keeps the results it is given at the front. -/
theorem unitStep_keeps_front (c : Cluster σ) (results rs : List Result) (w w1 : σ)
    (h : unitStep c results w = (.ok rs, w1)) : results <+: rs := by
  unfold unitStep at h
  split at h
  · simp at h
  · simp only [Prod.mk.injEq, Except.ok.injEq] at h
    rw [← h.1]
  · split at h
    · simp at h
    · simp only [Prod.mk.injEq, Except.ok.injEq] at h
      rw [← h.1]
      exact List.prefix_append _ _

/-- The results of a successful `Analyze` start with the results of the
data-store loop on the resolved namespaces. -/
theorem analyze_starts_with_dataStore (c : Cluster σ) (w w1 wf : σ) (namespaces : List String)
    (rs : List Result)
    (hns : getNamespacesWithKeywords c dataStoreKeywords w = (.ok namespaces, w1))
    (hA : Analyze c w = (some (.ok rs), wf)) :
    (dataStoreLoop c namespaces [] w1).1 <+: rs := by
  unfold Analyze at hA
  rw [hns] at hA
  simp only [] at hA
  rcases hcore : coreStep c (dataStoreLoop c namespaces [] w1).1
    (dataStoreLoop c namespaces [] w1).2 with ⟨_ | ⟨err | rs1⟩, w3⟩
  · rw [hcore] at hA; simp at hA
  · rw [hcore] at hA; simp at hA
  · rw [hcore] at hA
    simp only [] at hA
    rcases hunit : unitStep c rs1 w3 with ⟨err | rs2, w4⟩
    · rw [hunit] at hA; simp at hA
    · rw [hunit] at hA
      simp only [Prod.mk.injEq, Option.some.injEq, Except.ok.injEq] at hA
      rw [← hA.1]
      exact (coreStep_keeps_front c _ _ _ _ hcore).trans (unitStep_keeps_front c _ _ _ _ hunit)

/-! ## Claims on listing failures -/

/-- C9: when the listing of stateful sets, of deployments or of pods fails
with error `e`, the check of that kind returns exactly one result, with
empty Kind and Name and the text of `e` as its only failure; the check has no
error return.  In `Analyze`, for every resolved data-store namespace, the
results of its three checks, whatever their listings answered, appear
together and in order in the results returned. -/
theorem C9_listing_failure_is_a_result (c : Cluster σ) (ns : String) (w : σ) :
    (∀ e w1, c.list "StatefulSet" "apps/v1" ns w = (.error e, w1) →
      checkStatefulSets c ns w =
        ([{ Kind := "", Name := "", Error := [{ Text := e, Sensitive := [] }] }], w1)) ∧
    (∀ e w1, c.list "Deployment" "apps/v1" ns w = (.error e, w1) →
      checkDeployments c ns w =
        ([{ Kind := "", Name := "", Error := [{ Text := e, Sensitive := [] }] }], w1)) ∧
    (∀ e w1, c.list "Pod" "v1" ns w = (.error e, w1) →
      checkPods c ns w =
        ([{ Kind := "", Name := "", Error := [{ Text := e, Sensitive := [] }] }], w1)) ∧
    (∀ (namespaces : List String) (w1 wf : σ) (rs : List Result),
      getNamespacesWithKeywords c dataStoreKeywords w = (.ok namespaces, w1) →
      Analyze c w = (some (.ok rs), wf) →
      ∀ n ∈ namespaces, ∃ wa,
        ((checkStatefulSets c n wa).1
          ++ (checkDeployments c n (checkStatefulSets c n wa).2).1
          ++ (checkPods c n (checkDeployments c n (checkStatefulSets c n wa).2).2).1)
          <:+: rs) := by
  refine ⟨?_, ?_, ?_, ?_⟩
  · intro e w1 h
    unfold checkStatefulSets; rw [h]
  · intro e w1 h
    unfold checkDeployments; rw [h]
  · intro e w1 h
    unfold checkPods; rw [h]
  · intro namespaces w1 wf rs hns hA n hn
    obtain ⟨wa, hwa⟩ := dataStoreLoop_block c namespaces w1 n hn
    exact ⟨wa, hwa.trans (analyze_starts_with_dataStore c w w1 wf namespaces rs hns hA).isInfix⟩

/-- Witness for C9 at the workload fixture: the three listings of
`kafka-cassandra` fail and each check returns the error as a result, and
`Analyze` succeeds with the results of every resolved namespace, among them
the failed deployment listing of `instana-postgres` followed by its pod. -/
theorem C9_listing_failure_is_a_result_witness :
    workloadFixture.cluster.list "StatefulSet" "apps/v1" "kafka-cassandra" () =
      (.error "StatefulSet listing timed out", ()) ∧
    checkStatefulSets workloadFixture.cluster "kafka-cassandra" () =
      ([{ Kind := "", Name := "",
          Error := [{ Text := "StatefulSet listing timed out", Sensitive := [] }] }], ()) ∧
    workloadFixture.cluster.list "Deployment" "apps/v1" "kafka-cassandra" () =
      (.error "Deployment listing timed out", ()) ∧
    checkDeployments workloadFixture.cluster "kafka-cassandra" () =
      ([{ Kind := "", Name := "",
          Error := [{ Text := "Deployment listing timed out", Sensitive := [] }] }], ()) ∧
    workloadFixture.cluster.list "Pod" "v1" "kafka-cassandra" () =
      (.error "Pod listing timed out", ()) ∧
    checkPods workloadFixture.cluster "kafka-cassandra" () =
      ([{ Kind := "", Name := "",
          Error := [{ Text := "Pod listing timed out", Sensitive := [] }] }], ()) ∧
    getNamespacesWithKeywords workloadFixture.cluster dataStoreKeywords () =
      (.ok ["instana-kafka", "instana-postgres", "kafka-cassandra"], ()) ∧
    (namespaceChecks workloadFixture.cluster "instana-postgres" ()).1 =
      [{ Kind := "", Name := "",
          Error := [{ Text := "deployments.apps is forbidden", Sensitive := [] }] },
        { Kind := "Pod", Name := "pg-0",
          Error := [{ Text := "In namespace instana-postgres, pod pg-0 is not running",
                      Sensitive := [] }] }] ∧
    ∃ rs, Analyze workloadFixture.cluster () = (some (.ok rs), ()) ∧
      ∀ n ∈ ["instana-kafka", "instana-postgres", "kafka-cassandra"], ∃ wa,
        ((checkStatefulSets workloadFixture.cluster n wa).1
          ++ (checkDeployments workloadFixture.cluster n
              (checkStatefulSets workloadFixture.cluster n wa).2).1
          ++ (checkPods workloadFixture.cluster n
              (checkDeployments workloadFixture.cluster n
                (checkStatefulSets workloadFixture.cluster n wa).2).2).1)
          <:+: rs :=
  have hC := C9_listing_failure_is_a_result workloadFixture.cluster "kafka-cassandra" ()
  ⟨rfl, hC.1 _ _ rfl, rfl, hC.2.1 _ _ rfl, rfl, hC.2.2.1 _ _ rfl, rfl, by decide,
    ⟨_, rfl, hC.2.2.2 _ () () _ rfl rfl⟩⟩

/-! ## Lemmas on the custom-resource check -/

theorem strings_Contains_append_right (s t sub : String)
    (h : strings_Contains s sub = true) : strings_Contains (s ++ t) sub = true := by
  rw [strings_Contains_iff] at h ⊢
  rw [String.data_append]
  exact h.trans (List.prefix_append _ _).isInfix

/-- The loop with `break` picks the reference name. -/
theorem crNameLoop_eq (keyword : String) (items : List Object) :
    crNameLoop keyword items = firstMatchName keyword items := by
  unfold firstMatchName
  induction items with
  | nil => rfl
  | cons o rest ih =>
    unfold crNameLoop
    rw [getName_eq]
    by_cases h : strings_Contains (stringAt o "metadata" "name" "") keyword = true
    · have h2 := (strings_Contains_iff _ _).1 h
      rw [List.find?_cons_of_pos _ (by simpa using h2)]
      simp [h]
    · have h2 : ¬ keyword.data <:+: (stringAt o "metadata" "name" "").data :=
        fun hi => h ((strings_Contains_iff _ _).2 hi)
      rw [List.find?_cons_of_neg _ (by simpa using h2)]
      simp only [h, Bool.false_eq_true, if_false]
      exact ih

theorem stringAt_eq_ready_iff (obj : Object) (a b : String) :
    stringAt obj a b "" = "Ready" ↔ fieldAt obj a b = some (.str "Ready") := by
  unfold stringAt
  rcases fieldAt obj a b with _ | v
  · simp
  · cases v <;> simp

/-- The test of line 239 fails exactly when the reference string at the
path is "Ready". -/
theorem nestedString_not_ready (obj : Object) (a b : String) :
    ((NestedString obj [a, b]).2.2.isSome || !(NestedString obj [a, b]).2.1
        || decide ((NestedString obj [a, b]).1 ≠ "Ready")) = true ↔
      stringAt obj a b "" ≠ "Ready" := by
  have h := nestedString_default obj a b ""
  rcases hN : NestedString obj [a, b] with ⟨val, found, err⟩
  rw [hN] at h
  simp only [] at h ⊢
  rw [← h]
  have hne : ("" : String) ≠ "Ready" := by decide
  cases found <;> cases err <;> simp [hne]

/-- The custom-resource check once the listing and the fetch have answered. -/
theorem checkCustomResource_of_fetched (c : Cluster σ) (keyword kind ns : String)
    (w w1 w2 : σ) (items : List Object) (cr : Object)
    (hlist : c.list kind "instana.io/v1beta2" ns w = (.ok items, w1))
    (hget : c.get kind "instana.io/v1beta2" ns (firstMatchName keyword items) w1 = (.ok cr, w2)) :
    checkCustomResource c keyword kind ns w =
      (if stringAt cr "status" "componentsStatus" "" = "Ready" then .ok []
        else .ok [{
          Kind := kind
          Name := firstMatchName keyword items
          Error := [{
            Text := "In namespace " ++ ns ++ ", " ++ firstMatchName keyword items
              ++ " is not ready: "
              ++ showError (NestedString cr ["status", "componentsStatus"]).2.2
            Sensitive := [] }] }], w2) := by
  have h := nestedString_not_ready cr "status" "componentsStatus"
  unfold checkCustomResource
  rw [hlist]
  simp only [crNameLoop_eq]
  rw [hget]
  simp only []
  rcases hN : NestedString cr ["status", "componentsStatus"] with ⟨val, found, err⟩
  rw [hN] at h
  simp only [] at h ⊢
  by_cases hr : stringAt cr "status" "componentsStatus" "" = "Ready"
  · have h2 : ¬ ((err.isSome || !found || decide (val ≠ "Ready")) = true) :=
      fun h3 => (h.1 h3) hr
    rw [if_pos hr, if_neg h2]
  · rw [if_neg hr, if_pos (h.2 hr)]

/-- The custom-resource check when the fetch fails. -/
theorem checkCustomResource_of_fetch_error (c : Cluster σ) (keyword kind ns : String)
    (w w1 w2 : σ) (items : List Object) (e : Error)
    (hlist : c.list kind "instana.io/v1beta2" ns w = (.ok items, w1))
    (hget : c.get kind "instana.io/v1beta2" ns (firstMatchName keyword items) w1
      = (.error e, w2)) :
    checkCustomResource c keyword kind ns w =
      (.ok [{ Kind := "", Name := "", Error := [{ Text := e, Sensitive := [] }] }], w2) := by
  unfold checkCustomResource
  rw [hlist]
  simp only [crNameLoop_eq]
  rw [hget]

theorem strings_Contains_append_left (t s sub : String)
    (h : strings_Contains s sub = true) : strings_Contains (t ++ s) sub = true := by
  rw [strings_Contains_iff] at h ⊢
  rw [String.data_append]
  exact h.trans (List.suffix_append _ _).isInfix

theorem strings_Contains_head (s t : String) : strings_Contains (s ++ t) s = true := by
  rw [strings_Contains_iff, String.data_append]
  exact (List.prefix_append _ _).isInfix

/-- The failure text of a resource that is not ready mentions the namespace
and the resource name. -/
theorem notReadyText_contains (ns name tail : String) :
    strings_Contains ("In namespace " ++ ns ++ ", " ++ name ++ " is not ready: " ++ tail) ns
      = true ∧
    strings_Contains ("In namespace " ++ ns ++ ", " ++ name ++ " is not ready: " ++ tail) name
      = true := by
  simp only [String.append_assoc]
  exact ⟨strings_Contains_append_left _ _ _ (strings_Contains_head _ _),
    strings_Contains_append_left _ _ _ (strings_Contains_append_left _ _ _
      (strings_Contains_append_left _ _ _ (strings_Contains_head _ _)))⟩

/-! ## Claims on the custom-resource check -/

/-- C11: when the listing and the fetch both succeed, `checkCustomResource`
returns no result exactly when `status.componentsStatus` of the instance
fetched is present, is a string and is "Ready".  Otherwise (another value,
no such field, or a field that cannot be read as a string) it returns exactly
one result, whose Kind is the kind asked for, whose Name is the resolved
name, and whose single failure text contains the namespace and that name. -/
theorem C11_checkCustomResource_ready_iff (c : Cluster σ) (keyword kind ns : String)
    (w w1 w2 : σ) (items : List Object) (cr : Object)
    (hlist : c.list kind "instana.io/v1beta2" ns w = (.ok items, w1))
    (hget : c.get kind "instana.io/v1beta2" ns (firstMatchName keyword items) w1 = (.ok cr, w2)) :
    ((checkCustomResource c keyword kind ns w).1 = .ok [] ↔
      fieldAt cr "status" "componentsStatus" = some (.str "Ready")) ∧
    (fieldAt cr "status" "componentsStatus" = some (.str "Ready") →
      checkCustomResource c keyword kind ns w = (.ok [], w2)) ∧
    (fieldAt cr "status" "componentsStatus" ≠ some (.str "Ready") →
      ∃ f, checkCustomResource c keyword kind ns w =
          (.ok [{ Kind := kind, Name := firstMatchName keyword items, Error := [f] }], w2) ∧
        strings_Contains f.Text ns = true ∧
        strings_Contains f.Text (firstMatchName keyword items) = true) := by
  have h := checkCustomResource_of_fetched c keyword kind ns w w1 w2 items cr hlist hget
  have hiff := stringAt_eq_ready_iff cr "status" "componentsStatus"
  refine ⟨?_, ?_, ?_⟩
  · rw [h, ← hiff]
    by_cases hr : stringAt cr "status" "componentsStatus" "" = "Ready"
    · simp [hr]
    · simp [hr]
  · intro hr
    rw [h, if_pos (hiff.2 hr)]
  · intro hr
    have hr2 : ¬ stringAt cr "status" "componentsStatus" "" = "Ready" := fun h3 => hr (hiff.1 h3)
    rw [h, if_neg hr2]
    exact ⟨_, rfl, (notReadyText_contains _ _ _).1, (notReadyText_contains _ _ _).2⟩

/-- Witness for C11: the Core resource of the scenario, whose status is
"NotReady". -/
theorem C11_checkCustomResource_ready_iff_witness :
    scenarioFixture.cluster.list "Core" "instana.io/v1beta2" "myapp-core" () =
      (.ok [customResource "instana-core" [("componentsStatus", .str "NotReady")]], ()) ∧
    scenarioFixture.cluster.get "Core" "instana.io/v1beta2" "myapp-core"
        (firstMatchName "core"
          [customResource "instana-core" [("componentsStatus", .str "NotReady")]]) () =
      (.ok (customResource "instana-core" [("componentsStatus", .str "NotReady")]), ()) ∧
    fieldAt (customResource "instana-core" [("componentsStatus", .str "NotReady")])
      "status" "componentsStatus" ≠ some (.str "Ready") ∧
    ∃ f, checkCustomResource scenarioFixture.cluster "core" "Core" "myapp-core" () =
        (.ok [{ Kind := "Core"
                Name := firstMatchName "core"
                  [customResource "instana-core" [("componentsStatus", .str "NotReady")]]
                Error := [f] }], ()) ∧
      strings_Contains f.Text "myapp-core" = true ∧
      strings_Contains f.Text (firstMatchName "core"
        [customResource "instana-core" [("componentsStatus", .str "NotReady")]]) = true :=
  have hne : fieldAt (customResource "instana-core" [("componentsStatus", .str "NotReady")])
      "status" "componentsStatus" ≠ some (.str "Ready") := fun h => by
    injection h with h
    injection h with h
    exact absurd h (by decide)
  ⟨rfl, rfl, hne,
    (C11_checkCustomResource_ready_iff scenarioFixture.cluster "core" "Core" "myapp-core"
      () () () _ _ rfl rfl).2.2 hne⟩

/-- The reference name on a list split at its first match. -/
theorem firstMatchName_first (keyword : String) (pre post : List Object) (o : Object)
    (hpre : ∀ p ∈ pre, ¬ keyword.data <:+: (stringAt p "metadata" "name" "").data)
    (ho : keyword.data <:+: (stringAt o "metadata" "name" "").data) :
    firstMatchName keyword (pre ++ o :: post) = stringAt o "metadata" "name" "" := by
  unfold firstMatchName
  induction pre with
  | nil =>
    rw [List.nil_append, List.find?_cons_of_pos _ (by simpa using ho)]
  | cons p pre ih =>
    rw [List.cons_append, List.find?_cons_of_neg _ (by simpa using hpre p (by simp))]
    exact ih (fun q hq => hpre q (by simp [hq]))

/-- The reference name when nothing matches. -/
theorem firstMatchName_none (keyword : String) (items : List Object)
    (h : ∀ o ∈ items, ¬ keyword.data <:+: (stringAt o "metadata" "name" "").data) :
    firstMatchName keyword items = "" := by
  unfold firstMatchName
  induction items with
  | nil => rfl
  | cons p rest ih =>
    rw [List.find?_cons_of_neg _ (by simpa using h p (by simp))]
    exact ih (fun q hq => h q (by simp [hq]))

/-- C12: when the instances are listed, the name `checkCustomResource`
fetches is the name of the first listed instance whose name contains the
keyword (the instances listed after it play no part) and the empty name when
no listed instance matches: the outcome is decided by the answer of the fetch
of that name.  In the no-match case a failing fetch gives one result with the
fetch error text, not the empty result sequence. -/
theorem C12_fetches_first_match (c : Cluster σ) (keyword kind ns : String)
    (w w1 : σ) (items : List Object)
    (hlist : c.list kind "instana.io/v1beta2" ns w = (.ok items, w1)) :
    crNameLoop keyword items = firstMatchName keyword items ∧
    (∀ pre o post, items = pre ++ o :: post →
      (∀ p ∈ pre, ¬ keyword.data <:+: (stringAt p "metadata" "name" "").data) →
      keyword.data <:+: (stringAt o "metadata" "name" "").data →
      firstMatchName keyword items = stringAt o "metadata" "name" "") ∧
    (∀ e w2, c.get kind "instana.io/v1beta2" ns (firstMatchName keyword items) w1
        = (.error e, w2) →
      checkCustomResource c keyword kind ns w =
        (.ok [{ Kind := "", Name := "", Error := [{ Text := e, Sensitive := [] }] }], w2)) ∧
    (∀ cr w2, c.get kind "instana.io/v1beta2" ns (firstMatchName keyword items) w1
        = (.ok cr, w2) →
      checkCustomResource c keyword kind ns w =
        (if stringAt cr "status" "componentsStatus" "" = "Ready" then .ok []
          else .ok [{
            Kind := kind
            Name := firstMatchName keyword items
            Error := [{
              Text := "In namespace " ++ ns ++ ", " ++ firstMatchName keyword items
                ++ " is not ready: "
                ++ showError (NestedString cr ["status", "componentsStatus"]).2.2
              Sensitive := [] }] }], w2)) ∧
    ((∀ o ∈ items, ¬ keyword.data <:+: (stringAt o "metadata" "name" "").data) →
      firstMatchName keyword items = "" ∧
      ∀ e w2, c.get kind "instana.io/v1beta2" ns "" w1 = (.error e, w2) →
        checkCustomResource c keyword kind ns w =
          (.ok [{ Kind := "", Name := "", Error := [{ Text := e, Sensitive := [] }] }], w2) ∧
        (checkCustomResource c keyword kind ns w).1 ≠ .ok []) := by
  refine ⟨crNameLoop_eq keyword items, ?_, ?_, ?_, ?_⟩
  · intro pre o post hi hpre ho
    rw [hi]
    exact firstMatchName_first keyword pre post o hpre ho
  · intro e w2 hget
    exact checkCustomResource_of_fetch_error c keyword kind ns w w1 w2 items e hlist hget
  · intro cr w2 hget
    exact checkCustomResource_of_fetched c keyword kind ns w w1 w2 items cr hlist hget
  · intro hno
    have hname := firstMatchName_none keyword items hno
    refine ⟨hname, fun e w2 hget => ?_⟩
    have h := checkCustomResource_of_fetch_error c keyword kind ns w w1 w2 items e hlist
      (by rw [hname]; exact hget)
    refine ⟨h, ?_⟩
    rw [h]
    intro h2
    injection h2 with h2
    exact absurd h2 (by simp)

/-- Witness for C12: among the Core resources `alpha`, `core-a`, `core-b`
the fetch is for `core-a`; with no Unit resource listed in `myapp-core` the
fetch of the empty name fails and its error is the only result. -/
theorem C12_fetches_first_match_witness :
    twoCoreFixture.cluster.list "Core" "instana.io/v1beta2" "x-core" () =
      (.ok [customResource "alpha" [("componentsStatus", .str "Ready")],
          customResource "core-a" [("componentsStatus", .str "Pending")],
          customResource "core-b" [("componentsStatus", .str "Ready")]], ()) ∧
    firstMatchName "core" [customResource "alpha" [("componentsStatus", .str "Ready")],
          customResource "core-a" [("componentsStatus", .str "Pending")],
          customResource "core-b" [("componentsStatus", .str "Ready")]] = "core-a" ∧
    (checkCustomResource twoCoreFixture.cluster "core" "Core" "x-core" ()).1 =
      .ok [{ Kind := "Core", Name := "core-a",
             Error := [{ Text := "In namespace x-core, core-a is not ready: <nil>",
                         Sensitive := [] }] }] ∧
    scenarioFixture.cluster.list "Unit" "instana.io/v1beta2" "myapp-core" () = (.ok [], ()) ∧
    scenarioFixture.cluster.get "Unit" "instana.io/v1beta2" "myapp-core" "" () =
      (.error "Unit \"\" not found", ()) ∧
    checkCustomResource scenarioFixture.cluster "unit" "Unit" "myapp-core" () =
      (.ok [{ Kind := "", Name := "",
              Error := [{ Text := "Unit \"\" not found", Sensitive := [] }] }], ()) ∧
    (checkCustomResource scenarioFixture.cluster "unit" "Unit" "myapp-core" ()).1 ≠ .ok [] :=
  have h1 := C12_fetches_first_match twoCoreFixture.cluster "core" "Core" "x-core" () ()
    [customResource "alpha" [("componentsStatus", .str "Ready")],
      customResource "core-a" [("componentsStatus", .str "Pending")],
      customResource "core-b" [("componentsStatus", .str "Ready")]] rfl
  have h2 := (C12_fetches_first_match scenarioFixture.cluster "unit" "Unit" "myapp-core" () ()
    [] rfl).2.2.2.2 (fun o ho => by simp at ho)
  ⟨rfl, h1.2.1 [customResource "alpha" [("componentsStatus", .str "Ready")]]
      (customResource "core-a" [("componentsStatus", .str "Pending")])
      [customResource "core-b" [("componentsStatus", .str "Ready")]] rfl
      (by decide) (by decide),
    rfl, rfl, rfl, (h2.2 _ () rfl).1, (h2.2 _ () rfl).2⟩

/-- C13: `checkCustomResource` returns an error exactly when its listing of
the instances returns one, the same error and no results; when the listing
succeeds and the fetch by name fails, the fetch error is not returned as an
error but as the only failure of a single result with empty Kind and Name. -/
theorem C13_error_only_from_listing (c : Cluster σ) (keyword kind ns : String) (w : σ) :
    (∀ e wf, checkCustomResource c keyword kind ns w = (.error e, wf) ↔
      c.list kind "instana.io/v1beta2" ns w = (.error e, wf)) ∧
    (∀ items w1 e w2, c.list kind "instana.io/v1beta2" ns w = (.ok items, w1) →
      c.get kind "instana.io/v1beta2" ns (firstMatchName keyword items) w1 = (.error e, w2) →
      checkCustomResource c keyword kind ns w =
        (.ok [{ Kind := "", Name := "", Error := [{ Text := e, Sensitive := [] }] }], w2)) := by
  refine ⟨?_, ?_⟩
  · intro e wf
    rcases hl : c.list kind "instana.io/v1beta2" ns w with ⟨e1 | items, w1⟩
    · simp [checkCustomResource, hl]
    · simp only [Prod.mk.injEq, false_and, iff_false]
      rcases hg : c.get kind "instana.io/v1beta2" ns (firstMatchName keyword items) w1
        with ⟨e2 | cr, w2⟩
      · rw [checkCustomResource_of_fetch_error c keyword kind ns w w1 w2 items e2 hl hg]
        simp
      · rw [checkCustomResource_of_fetched c keyword kind ns w w1 w2 items cr hl hg]
        split <;> simp
  · intro items w1 e w2 hl hg
    exact checkCustomResource_of_fetch_error c keyword kind ns w w1 w2 items e hl hg

/-- Witness for C13: the Core listing of `kafka-cassandra` fails and so does
the check; the fetch of the empty Unit name in `myapp-core` fails and the
check succeeds with one result. -/
theorem C13_error_only_from_listing_witness :
    workloadFixture.cluster.list "Core" "instana.io/v1beta2" "kafka-cassandra" () =
      (.error "Core listing timed out", ()) ∧
    checkCustomResource workloadFixture.cluster "core" "Core" "kafka-cassandra" () =
      (.error "Core listing timed out", ()) ∧
    scenarioFixture.cluster.list "Unit" "instana.io/v1beta2" "myapp-core" () = (.ok [], ()) ∧
    scenarioFixture.cluster.get "Unit" "instana.io/v1beta2" "myapp-core"
      (firstMatchName "unit" []) () = (.error "Unit \"\" not found", ()) ∧
    checkCustomResource scenarioFixture.cluster "unit" "Unit" "myapp-core" () =
      (.ok [{ Kind := "", Name := "",
              Error := [{ Text := "Unit \"\" not found", Sensitive := [] }] }], ()) :=
  ⟨rfl,
    ((C13_error_only_from_listing workloadFixture.cluster "core" "Core" "kafka-cassandra" ()).1
      _ _).2 rfl,
    rfl, rfl,
    (C13_error_only_from_listing scenarioFixture.cluster "unit" "Unit" "myapp-core" ()).2
      _ _ _ _ rfl rfl⟩

/-! ## Lemmas on the core and unit groups -/

theorem coreStep_of_resolution_error (c : Cluster σ) (results : List Result) (w w1 : σ)
    (e : Error) (hns : getNamespacesWithKeywords c ["core"] w = (.error e, w1)) :
    coreStep c results w = (some (.error e), w1) := by
  unfold coreStep; rw [hns]

theorem coreStep_of_no_namespace (c : Cluster σ) (results : List Result) (w w1 : σ)
    (hns : getNamespacesWithKeywords c ["core"] w = (.ok [], w1)) :
    coreStep c results w = (some (.ok results), w1) := by
  unfold coreStep; rw [hns]

theorem coreStep_of_check_error (c : Cluster σ) (results : List Result) (w w1 w2 : σ)
    (n : String) (rest : List String) (e : Error)
    (hns : getNamespacesWithKeywords c ["core"] w = (.ok (n :: rest), w1))
    (hcheck : checkCustomResource c "core" "Core" n w1 = (.error e, w2)) :
    coreStep c results w = (some (.error e), w2) := by
  unfold coreStep; rw [hns]; simp only []; rw [hcheck]

theorem coreStep_of_no_result (c : Cluster σ) (results : List Result) (w w1 w2 : σ)
    (n : String) (rest : List String)
    (hns : getNamespacesWithKeywords c ["core"] w = (.ok (n :: rest), w1))
    (hcheck : checkCustomResource c "core" "Core" n w1 = (.ok [], w2)) :
    coreStep c results w = (some (.ok results), w2) := by
  unfold coreStep; rw [hns]; simp only []; rw [hcheck]

theorem coreStep_of_failure (c : Cluster σ) (results : List Result) (w w1 w2 : σ)
    (n : String) (rest : List String) (r : Result) (rs : List Result)
    (hns : getNamespacesWithKeywords c ["core"] w = (.ok (n :: rest), w1))
    (hcheck : checkCustomResource c "core" "Core" n w1 = (.ok (r :: rs), w2))
    (hfail : r.Error ≠ []) :
    coreStep c results w =
      match getInstanaOperatorLogs c "instana-operator" w2 with
      | (none, w3) => (none, w3)
      | (some (.error err), w3) => (some (.error err), w3)
      | (some (.ok logs), w3) =>
        (some (.ok (results ++
          { Kind := r.Kind, Name := r.Name, Error := r.Error ++ [coreLogFailure logs] } :: rs)),
          w3) := by
  have hlen : r.Error.length > 0 := List.length_pos.2 hfail
  unfold coreStep; rw [hns]; simp only []; rw [hcheck]
  simp only [hlen, if_true, appendToFirst, coreLogFailure]

theorem coreStep_of_no_failure (c : Cluster σ) (results : List Result) (w w1 w2 : σ)
    (n : String) (rest : List String) (r : Result) (rs : List Result)
    (hns : getNamespacesWithKeywords c ["core"] w = (.ok (n :: rest), w1))
    (hcheck : checkCustomResource c "core" "Core" n w1 = (.ok (r :: rs), w2))
    (hfail : r.Error = []) :
    coreStep c results w = (some (.ok (results ++ r :: rs)), w2) := by
  unfold coreStep; rw [hns]; simp only []; rw [hcheck]
  simp [hfail]

theorem unitStep_of_resolution_error (c : Cluster σ) (results : List Result) (w w1 : σ)
    (e : Error) (hns : getNamespacesWithKeywords c ["unit"] w = (.error e, w1)) :
    unitStep c results w = (.error e, w1) := by
  unfold unitStep; rw [hns]

theorem unitStep_of_no_namespace (c : Cluster σ) (results : List Result) (w w1 : σ)
    (hns : getNamespacesWithKeywords c ["unit"] w = (.ok [], w1)) :
    unitStep c results w = (.ok results, w1) := by
  unfold unitStep; rw [hns]

theorem unitStep_of_check_error (c : Cluster σ) (results : List Result) (w w1 w2 : σ)
    (n : String) (rest : List String) (e : Error)
    (hns : getNamespacesWithKeywords c ["unit"] w = (.ok (n :: rest), w1))
    (hcheck : checkCustomResource c "unit" "Unit" n w1 = (.error e, w2)) :
    unitStep c results w = (.error e, w2) := by
  unfold unitStep; rw [hns]; simp only []; rw [hcheck]

theorem unitStep_of_check (c : Cluster σ) (results : List Result) (w w1 w2 : σ)
    (n : String) (rest : List String) (rs : List Result)
    (hns : getNamespacesWithKeywords c ["unit"] w = (.ok (n :: rest), w1))
    (hcheck : checkCustomResource c "unit" "Unit" n w1 = (.ok rs, w2)) :
    unitStep c results w = (.ok (results ++ rs), w2) := by
  unfold unitStep; rw [hns]; simp only []; rw [hcheck]

/-- The core group adds its own results behind the ones it is given. -/
theorem coreStep_acc (c : Cluster σ) (results : List Result) (w : σ) :
    coreStep c results w =
      (match (coreStep c [] w).1 with
        | none => none
        | some (.error e) => some (.error e)
        | some (.ok rs) => some (.ok (results ++ rs)), (coreStep c [] w).2) := by
  rcases hns : getNamespacesWithKeywords c ["core"] w with ⟨e | nss, w1⟩
  · simp [coreStep_of_resolution_error c _ w w1 e hns]
  · cases nss with
    | nil => simp [coreStep_of_no_namespace c _ w w1 hns]
    | cons n rest =>
      rcases hc : checkCustomResource c "core" "Core" n w1 with ⟨e | rs, w2⟩
      · simp [coreStep_of_check_error c _ w w1 w2 n rest e hns hc]
      · cases rs with
        | nil => simp [coreStep_of_no_result c _ w w1 w2 n rest hns hc]
        | cons r rs =>
          by_cases hf : r.Error = []
          · simp [coreStep_of_no_failure c _ w w1 w2 n rest r rs hns hc hf]
          · rw [coreStep_of_failure c results w w1 w2 n rest r rs hns hc hf,
              coreStep_of_failure c [] w w1 w2 n rest r rs hns hc hf]
            rcases getInstanaOperatorLogs c "instana-operator" w2 with ⟨_ | ⟨e | logs⟩, w3⟩ <;>
              simp

/-- The unit group adds its own results behind the ones it is given. -/
theorem unitStep_acc (c : Cluster σ) (results : List Result) (w : σ) :
    unitStep c results w =
      (match (unitStep c [] w).1 with
        | .error e => .error e
        | .ok rs => .ok (results ++ rs), (unitStep c [] w).2) := by
  rcases hns : getNamespacesWithKeywords c ["unit"] w with ⟨e | nss, w1⟩
  · simp [unitStep_of_resolution_error c _ w w1 e hns]
  · cases nss with
    | nil => simp [unitStep_of_no_namespace c _ w w1 hns]
    | cons n rest =>
      rcases hc : checkCustomResource c "unit" "Unit" n w1 with ⟨e | rs, w2⟩
      · simp [unitStep_of_check_error c _ w w1 w2 n rest e hns hc]
      · simp [unitStep_of_check c _ w w1 w2 n rest rs hns hc]

/-- The data-store loop computes the reference concatenation. -/
theorem dataStoreLoop_eq (c : Cluster σ) :
    ∀ (nss : List String) (w : σ), (dataStoreLoop c nss [] w).1 = dataStoreResults c nss w := by
  intro nss
  induction nss with
  | nil => intro w; rfl
  | cons ns rest ih =>
    intro w
    rw [dataStoreLoop_cons]
    simp only [dataStoreResults, namespaceChecks, ih]

/-- The shape of `Analyze` once the data-store namespaces are resolved. -/
theorem analyze_of_resolved (c : Cluster σ) (w w1 : σ) (nss : List String)
    (hds : getNamespacesWithKeywords c dataStoreKeywords w = (.ok nss, w1)) :
    Analyze c w =
      match coreStep c (dataStoreLoop c nss [] w1).1 (dataStoreLoop c nss [] w1).2 with
      | (none, w3) => (none, w3)
      | (some (.error err), w3) => (some (.error err), w3)
      | (some (.ok results1), w3) =>
        match unitStep c results1 w3 with
        | (.error err, w4) => (some (.error err), w4)
        | (.ok results2, w4) => (some (.ok results2), w4) := by
  unfold Analyze; rw [hds]


/-! ## Claims on the orchestrator -/

/-- C14: in `Analyze`, once the data-store namespaces and a first Core
namespace are resolved: when the Core check returns a first result with at
least one failure and the operator-log analysis of "instana-operator"
succeeds with excerpt `x`, that result is returned with its failures kept
and one more failure appended last, whose text is
"Core is not ready\nExternal instana-operator Log:\n" followed by `x`; when
the Core check returns no result the unit group starts in the world the
check left, no operator-log call in between; and the unit group returns the
results of the Unit check exactly as `checkCustomResource` produced them. -/
theorem C14_core_log_enrichment (c : Cluster σ) (w w1 w3 w4 : σ) (nss : List String)
    (n : String) (rest : List String)
    (hds : getNamespacesWithKeywords c dataStoreKeywords w = (.ok nss, w1))
    (hcore : getNamespacesWithKeywords c ["core"] (dataStoreLoop c nss [] w1).2
      = (.ok (n :: rest), w3)) :
    (∀ (r : Result) (rs : List Result) (x : String) (w5 w6 : σ) (unit : List Result),
      checkCustomResource c "core" "Core" n w3 = (.ok (r :: rs), w4) →
      r.Error ≠ [] →
      getInstanaOperatorLogs c "instana-operator" w4 = (some (.ok x), w5) →
      unitStep c [] w5 = (.ok unit, w6) →
      Analyze c w = (some (.ok ((dataStoreLoop c nss [] w1).1
        ++ ({ Kind := r.Kind
              Name := r.Name
              Error := r.Error ++ [{
                Text := "Core is not ready\nExternal instana-operator Log:\n" ++ x
                Sensitive := [] }] } :: rs)
        ++ unit)), w6)) ∧
    (∀ (w6 : σ) (unit : List Result),
      checkCustomResource c "core" "Core" n w3 = (.ok [], w4) →
      unitStep c [] w4 = (.ok unit, w6) →
      Analyze c w = (some (.ok ((dataStoreLoop c nss [] w1).1 ++ unit)), w6)) ∧
    (∀ (results : List Result) (wu wu1 wu2 : σ) (un : String) (urest : List String)
        (rsU : List Result),
      getNamespacesWithKeywords c ["unit"] wu = (.ok (un :: urest), wu1) →
      checkCustomResource c "unit" "Unit" un wu1 = (.ok rsU, wu2) →
      unitStep c results wu = (.ok (results ++ rsU), wu2)) := by
  refine ⟨?_, ?_, ?_⟩
  · intro r rs x w5 w6 unit hcheck hfail hlogs hunit
    rw [analyze_of_resolved c w w1 nss hds,
      coreStep_of_failure c _ _ w3 w4 n rest r rs hcore hcheck hfail, hlogs]
    simp only []
    rw [unitStep_acc, hunit]
    simp [coreLogFailure]
  · intro w6 unit hcheck hunit
    rw [analyze_of_resolved c w w1 nss hds,
      coreStep_of_no_result c _ _ w3 w4 n rest hcore hcheck]
    simp only []
    rw [unitStep_acc, hunit]
  · intro results wu wu1 wu2 un urest rsU hns hcheck
    exact unitStep_of_check c results wu wu1 wu2 un urest rsU hns hcheck

/-- Witness for C14.  In the scenario the Core result is returned with the
log failure appended; in the ready-Core fixture, whose operator pods cannot
be listed, `Analyze` succeeds and returns the Unit result as the check
produced it. -/
theorem C14_core_log_enrichment_witness :
    (getNamespacesWithKeywords scenarioFixture.cluster dataStoreKeywords () =
        (.ok ["myapp-kafka"], ()) ∧
      getNamespacesWithKeywords scenarioFixture.cluster ["core"]
        (dataStoreLoop scenarioFixture.cluster ["myapp-kafka"] [] ()).2 =
          (.ok ["myapp-core"], ()) ∧
      checkCustomResource scenarioFixture.cluster "core" "Core" "myapp-core" () =
        (.ok [{ Kind := "Core", Name := "instana-core",
                Error := [{ Text := "In namespace myapp-core, instana-core is not ready: <nil>",
                            Sensitive := [] }] }], ()) ∧
      getInstanaOperatorLogs scenarioFixture.cluster "instana-operator" () =
        (some (.ok "ERROR reconcile failed\nWARNING disk pressure\n"), ()) ∧
      unitStep scenarioFixture.cluster [] () = (.ok [], ()) ∧
      Analyze scenarioFixture.cluster () =
        (some (.ok [
          { Kind := "StatefulSet", Name := "kafka",
            Error := [{ Text := "In namespace myapp-kafka, statefulSet kafka is not running",
                        Sensitive := [] }] },
          { Kind := "Core", Name := "instana-core",
            Error := [
              { Text := "In namespace myapp-core, instana-core is not ready: <nil>",
                Sensitive := [] },
              { Text := "Core is not ready\nExternal instana-operator Log:\n"
                  ++ "ERROR reconcile failed\nWARNING disk pressure\n",
                Sensitive := [] }] }]), ())) ∧
    (getNamespacesWithKeywords readyCoreFixture.cluster dataStoreKeywords () = (.ok [], ()) ∧
      getNamespacesWithKeywords readyCoreFixture.cluster ["core"]
        (dataStoreLoop readyCoreFixture.cluster [] [] ()).2 = (.ok ["myapp-core"], ()) ∧
      checkCustomResource readyCoreFixture.cluster "core" "Core" "myapp-core" () =
        (.ok [], ()) ∧
      (getInstanaOperatorLogs readyCoreFixture.cluster "instana-operator" ()).1 =
        some (.error "pods is forbidden") ∧
      getNamespacesWithKeywords readyCoreFixture.cluster ["unit"] () =
        (.ok ["myapp-unit"], ()) ∧
      checkCustomResource readyCoreFixture.cluster "unit" "Unit" "myapp-unit" () =
        (.ok [{ Kind := "Unit", Name := "instana-unit",
                Error := [{ Text := "In namespace myapp-unit, instana-unit is not ready: <nil>",
                            Sensitive := [] }] }], ()) ∧
      unitStep readyCoreFixture.cluster [] () =
        (.ok [{ Kind := "Unit", Name := "instana-unit",
                Error := [{ Text := "In namespace myapp-unit, instana-unit is not ready: <nil>",
                            Sensitive := [] }] }], ()) ∧
      Analyze readyCoreFixture.cluster () =
        (some (.ok [{ Kind := "Unit", Name := "instana-unit",
                      Error := [{
                        Text := "In namespace myapp-unit, instana-unit is not ready: <nil>",
                        Sensitive := [] }] }]), ())) :=
  have hS := C14_core_log_enrichment scenarioFixture.cluster () () () () ["myapp-kafka"]
    "myapp-core" [] rfl rfl
  have hR := C14_core_log_enrichment readyCoreFixture.cluster () () () () []
    "myapp-core" [] rfl rfl
  have hU := hR.2.2 [] () () () "myapp-unit" [] _ rfl rfl
  ⟨⟨rfl, rfl, rfl, rfl, rfl,
      hS.1 _ _ _ () () [] rfl (by simp) rfl rfl⟩,
    ⟨rfl, rfl, rfl, rfl, rfl, rfl, hU, hR.2.1 () _ rfl hU⟩⟩

/-- A successful `Analyze` split into its three groups. -/
theorem analyze_ok_parts (c : Cluster σ) (w wf : σ) (rs : List Result)
    (hA : Analyze c w = (some (.ok rs), wf)) :
    ∃ (nss : List String) (w1 w3 : σ) (core unit : List Result),
      getNamespacesWithKeywords c dataStoreKeywords w = (.ok nss, w1) ∧
      coreStep c [] (dataStoreLoop c nss [] w1).2 = (some (.ok core), w3) ∧
      unitStep c [] w3 = (.ok unit, wf) ∧
      rs = (dataStoreLoop c nss [] w1).1 ++ core ++ unit := by
  rcases hds : getNamespacesWithKeywords c dataStoreKeywords w with ⟨e | nss, w1⟩
  · simp [Analyze, hds] at hA
  · rw [analyze_of_resolved c w w1 nss hds, coreStep_acc] at hA
    rcases hcore : coreStep c [] (dataStoreLoop c nss [] w1).2 with ⟨_ | ⟨e | core⟩, w3⟩
    · simp [hcore] at hA
    · simp [hcore] at hA
    · rw [hcore] at hA
      simp only [] at hA
      rw [unitStep_acc] at hA
      rcases hunit : unitStep c [] w3 with ⟨e | unit, w4⟩
      · simp [hunit] at hA
      · rw [hunit] at hA
        simp only [Prod.mk.injEq, Option.some.injEq, Except.ok.injEq] at hA
        obtain ⟨h1, h2⟩ := hA
        subst h2
        exact ⟨nss, w1, w3, core, unit, rfl, hcore, hunit, h1.symm⟩

/-- C15: whenever `Analyze` succeeds, its output is the data-store results,
then the results of the core group, then the results of the unit group; the
data-store results are, for each resolved data-store namespace in resolution
order, its stateful-set results, then its deployment results, then its pod
results. -/
theorem C15_results_in_group_order (c : Cluster σ) (w wf : σ) (rs : List Result)
    (hA : Analyze c w = (some (.ok rs), wf)) :
    ∃ (nss : List String) (w1 w3 : σ) (core unit : List Result),
      getNamespacesWithKeywords c dataStoreKeywords w = (.ok nss, w1) ∧
      coreStep c [] (dataStoreLoop c nss [] w1).2 = (some (.ok core), w3) ∧
      unitStep c [] w3 = (.ok unit, wf) ∧
      rs = dataStoreResults c nss w1 ++ core ++ unit := by
  obtain ⟨nss, w1, w3, core, unit, hds, hcore, hunit, hrs⟩ := analyze_ok_parts c w wf rs hA
  refine ⟨nss, w1, w3, core, unit, hds, hcore, hunit, ?_⟩
  rw [hrs, dataStoreLoop_eq]

/-- Witness for C15 in the scenario: one data-store result, one core result,
no unit result. -/
theorem C15_results_in_group_order_witness :
    Analyze scenarioFixture.cluster () =
      (some (.ok [
        { Kind := "StatefulSet", Name := "kafka",
          Error := [{ Text := "In namespace myapp-kafka, statefulSet kafka is not running",
                      Sensitive := [] }] },
        { Kind := "Core", Name := "instana-core",
          Error := [
            { Text := "In namespace myapp-core, instana-core is not ready: <nil>",
              Sensitive := [] },
            { Text := "Core is not ready\nExternal instana-operator Log:\n"
                ++ "ERROR reconcile failed\nWARNING disk pressure\n",
              Sensitive := [] }] }]), ()) ∧
    ∃ (nss : List String) (w1 w3 : Unit) (core unit : List Result),
      getNamespacesWithKeywords scenarioFixture.cluster dataStoreKeywords () = (.ok nss, w1) ∧
      coreStep scenarioFixture.cluster [] (dataStoreLoop scenarioFixture.cluster nss [] w1).2
        = (some (.ok core), w3) ∧
      unitStep scenarioFixture.cluster [] w3 = (.ok unit, ()) ∧
      [ ({ Kind := "StatefulSet", Name := "kafka",
           Error := [{ Text := "In namespace myapp-kafka, statefulSet kafka is not running",
                       Sensitive := [] }] } : Result),
        { Kind := "Core", Name := "instana-core",
          Error := [
            { Text := "In namespace myapp-core, instana-core is not ready: <nil>",
              Sensitive := [] },
            { Text := "Core is not ready\nExternal instana-operator Log:\n"
                ++ "ERROR reconcile failed\nWARNING disk pressure\n",
              Sensitive := [] }] }]
        = dataStoreResults scenarioFixture.cluster nss w1 ++ core ++ unit :=
  ⟨rfl, C15_results_in_group_order scenarioFixture.cluster () () _ rfl⟩

/-! ## Lemmas on the failures carried by results -/

theorem checkStatefulSets_failure (c : Cluster σ) (ns : String) (w : σ) :
    ∀ r ∈ (checkStatefulSets c ns w).1, ∃ f, r.Error = [f] := by
  intro r hr
  unfold checkStatefulSets at hr
  rcases hl : c.list "StatefulSet" "apps/v1" ns w with ⟨e | items, w1⟩
  · rw [hl] at hr
    simp only [List.mem_singleton] at hr
    exact ⟨_, by rw [hr]⟩
  · rw [hl] at hr
    simp only [statefulSetLoop_eq, List.nil_append] at hr
    obtain ⟨o, _, rfl⟩ := List.mem_map.1 hr
    exact ⟨_, rfl⟩

theorem checkDeployments_failure (c : Cluster σ) (ns : String) (w : σ) :
    ∀ r ∈ (checkDeployments c ns w).1, ∃ f, r.Error = [f] := by
  intro r hr
  unfold checkDeployments at hr
  rcases hl : c.list "Deployment" "apps/v1" ns w with ⟨e | items, w1⟩
  · rw [hl] at hr
    simp only [List.mem_singleton] at hr
    exact ⟨_, by rw [hr]⟩
  · rw [hl] at hr
    simp only [deploymentLoop_eq, List.nil_append] at hr
    obtain ⟨o, _, rfl⟩ := List.mem_map.1 hr
    exact ⟨_, rfl⟩

theorem checkPods_failure (c : Cluster σ) (ns : String) (w : σ) :
    ∀ r ∈ (checkPods c ns w).1, ∃ f, r.Error = [f] := by
  intro r hr
  unfold checkPods at hr
  rcases hl : c.list "Pod" "v1" ns w with ⟨e | items, w1⟩
  · rw [hl] at hr
    simp only [List.mem_singleton] at hr
    exact ⟨_, by rw [hr]⟩
  · rw [hl] at hr
    simp only [podLoop_eq, List.nil_append] at hr
    obtain ⟨o, _, rfl⟩ := List.mem_map.1 hr
    exact ⟨_, rfl⟩

theorem checkCustomResource_failure (c : Cluster σ) (keyword kind ns : String) (w wf : σ)
    (rs : List Result) (h : checkCustomResource c keyword kind ns w = (.ok rs, wf)) :
    ∀ r ∈ rs, ∃ f, r.Error = [f] := by
  intro r hr
  rcases hl : c.list kind "instana.io/v1beta2" ns w with ⟨e | items, w1⟩
  · simp [checkCustomResource, hl] at h
  · rcases hg : c.get kind "instana.io/v1beta2" ns (firstMatchName keyword items) w1
      with ⟨e2 | cr, w2⟩
    · rw [checkCustomResource_of_fetch_error c keyword kind ns w w1 w2 items e2 hl hg] at h
      simp only [Prod.mk.injEq, Except.ok.injEq] at h
      rw [← h.1] at hr
      simp only [List.mem_singleton] at hr
      exact ⟨_, by rw [hr]⟩
    · rw [checkCustomResource_of_fetched c keyword kind ns w w1 w2 items cr hl hg] at h
      split at h
      · simp only [Prod.mk.injEq, Except.ok.injEq] at h
        rw [← h.1] at hr
        simp at hr
      · simp only [Prod.mk.injEq, Except.ok.injEq] at h
        rw [← h.1] at hr
        simp only [List.mem_singleton] at hr
        exact ⟨_, by rw [hr]⟩

theorem dataStoreResults_failure (c : Cluster σ) :
    ∀ (nss : List String) (w : σ), ∀ r ∈ dataStoreResults c nss w, r.Error ≠ [] := by
  intro nss
  induction nss with
  | nil => intro w r hr; simp [dataStoreResults] at hr
  | cons ns rest ih =>
    intro w r hr
    simp only [dataStoreResults, List.mem_append] at hr
    rcases hr with ((hr | hr) | hr) | hr
    · obtain ⟨f, hf⟩ := checkStatefulSets_failure c ns _ r hr
      simp [hf]
    · obtain ⟨f, hf⟩ := checkDeployments_failure c ns _ r hr
      simp [hf]
    · obtain ⟨f, hf⟩ := checkPods_failure c ns _ r hr
      simp [hf]
    · exact ih _ r hr

theorem coreStep_failure (c : Cluster σ) (w w3 : σ) (core : List Result)
    (h : coreStep c [] w = (some (.ok core), w3)) : ∀ r ∈ core, r.Error ≠ [] := by
  intro r hr
  rcases hns : getNamespacesWithKeywords c ["core"] w with ⟨e | nss, w1⟩
  · simp [coreStep_of_resolution_error c _ w w1 e hns] at h
  · cases nss with
    | nil =>
      rw [coreStep_of_no_namespace c _ w w1 hns] at h
      simp only [Prod.mk.injEq, Option.some.injEq, Except.ok.injEq] at h
      rw [← h.1] at hr
      simp at hr
    | cons n rest =>
      rcases hc : checkCustomResource c "core" "Core" n w1 with ⟨e | rs, w2⟩
      · simp [coreStep_of_check_error c _ w w1 w2 n rest e hns hc] at h
      · have hall := checkCustomResource_failure c "core" "Core" n w1 w2 rs hc
        cases rs with
        | nil =>
          rw [coreStep_of_no_result c _ w w1 w2 n rest hns hc] at h
          simp only [Prod.mk.injEq, Option.some.injEq, Except.ok.injEq] at h
          rw [← h.1] at hr
          simp at hr
        | cons r0 rs =>
          obtain ⟨f0, hf0⟩ := hall r0 (by simp)
          have hne : r0.Error ≠ [] := by simp [hf0]
          rw [coreStep_of_failure c _ w w1 w2 n rest r0 rs hns hc hne] at h
          rcases hlog : getInstanaOperatorLogs c "instana-operator" w2
            with ⟨_ | ⟨e | logs⟩, w4⟩
          · simp [hlog] at h
          · simp [hlog] at h
          · rw [hlog] at h
            simp only [List.nil_append, Prod.mk.injEq, Option.some.injEq,
              Except.ok.injEq] at h
            rw [← h.1] at hr
            rcases List.mem_cons.1 hr with rfl | hr
            · simp
            · obtain ⟨f, hf⟩ := hall r (by simp [hr])
              simp [hf]

theorem unitStep_failure (c : Cluster σ) (w w4 : σ) (unit : List Result)
    (h : unitStep c [] w = (.ok unit, w4)) : ∀ r ∈ unit, r.Error ≠ [] := by
  intro r hr
  rcases hns : getNamespacesWithKeywords c ["unit"] w with ⟨e | nss, w1⟩
  · simp [unitStep_of_resolution_error c _ w w1 e hns] at h
  · cases nss with
    | nil =>
      rw [unitStep_of_no_namespace c _ w w1 hns] at h
      simp only [Prod.mk.injEq, Except.ok.injEq] at h
      rw [← h.1] at hr
      simp at hr
    | cons n rest =>
      rcases hc : checkCustomResource c "unit" "Unit" n w1 with ⟨e | rs, w2⟩
      · simp [unitStep_of_check_error c _ w w1 w2 n rest e hns hc] at h
      · rw [unitStep_of_check c _ w w1 w2 n rest rs hns hc] at h
        simp only [List.nil_append, Prod.mk.injEq, Except.ok.injEq] at h
        rw [← h.1] at hr
        obtain ⟨f, hf⟩ := checkCustomResource_failure c "unit" "Unit" n w1 w2 rs hc r hr
        simp [hf]

/-- C19: every result returned by `checkStatefulSets`, `checkDeployments`,
`checkPods` and `checkCustomResource` carries exactly one failure, and every
result returned by `Analyze` carries at least one: a result is built only for
a problem, so "no problem" is the empty result sequence. -/
theorem C19_every_result_has_a_failure (c : Cluster σ) (keyword kind ns : String) (w : σ) :
    (∀ r ∈ (checkStatefulSets c ns w).1, ∃ f, r.Error = [f]) ∧
    (∀ r ∈ (checkDeployments c ns w).1, ∃ f, r.Error = [f]) ∧
    (∀ r ∈ (checkPods c ns w).1, ∃ f, r.Error = [f]) ∧
    (∀ rs wf, checkCustomResource c keyword kind ns w = (.ok rs, wf) →
      ∀ r ∈ rs, ∃ f, r.Error = [f]) ∧
    (∀ rs wf, Analyze c w = (some (.ok rs), wf) → ∀ r ∈ rs, r.Error ≠ []) := by
  refine ⟨checkStatefulSets_failure c ns w, checkDeployments_failure c ns w,
    checkPods_failure c ns w,
    fun rs wf h => checkCustomResource_failure c keyword kind ns w wf rs h, ?_⟩
  intro rs wf hA r hr
  obtain ⟨nss, w1, w3, core, unit, _, hcore, hunit, hrs⟩ := analyze_ok_parts c w wf rs hA
  rw [hrs, dataStoreLoop_eq] at hr
  rcases List.mem_append.1 hr with hr | hr
  · rcases List.mem_append.1 hr with hr | hr
    · exact dataStoreResults_failure c nss w1 r hr
    · exact coreStep_failure c _ w3 core hcore r hr
  · exact unitStep_failure c w3 wf unit hunit r hr

/-- Witness for C19 in the scenario: both results of `Analyze` carry
failures, and so does the result of the Core check. -/
theorem C19_every_result_has_a_failure_witness :
    (∃ rs, checkCustomResource scenarioFixture.cluster "core" "Core" "myapp-core" ()
        = (.ok rs, ()) ∧ rs.length = 1 ∧ ∀ r ∈ rs, ∃ f, r.Error = [f]) ∧
    (∃ rs, Analyze scenarioFixture.cluster () = (some (.ok rs), ()) ∧ rs.length = 2 ∧
      ∀ r ∈ rs, r.Error ≠ []) :=
  have h := C19_every_result_has_a_failure scenarioFixture.cluster "core" "Core"
    "myapp-core" ()
  ⟨⟨_, rfl, rfl, h.2.2.2.1 _ () rfl⟩, ⟨_, rfl, rfl, h.2.2.2.2 _ () rfl⟩⟩

/-! ## Claims on the indices of the log scan -/

theorem mem_warningReads : ∀ (n : Nat) (start j : Int),
    j ∈ warningReads n start → start ≤ j ∧ j < start + n := by
  intro n
  induction n with
  | zero => intro start j h; simp [warningReads] at h
  | succ n ih =>
    intro start j h
    simp only [warningReads, List.mem_cons] at h
    rcases h with rfl | h
    · constructor <;> omega
    · have := ih (start + 1) j h
      push_cast
      omega

theorem warningReads_length : ∀ (n : Nat) (start : Int), (warningReads n start).length = n := by
  intro n
  induction n with
  | zero => intro start; rfl
  | succ n ih => intro start; simp [warningReads, ih]

/-- Bounds of the ghost view from a non-negative `lastErrorIndex`: every
window start is non-negative and at most 10 below its error index, which is
an index of the log. -/
theorem errorWindows_bounds (lines : List String) :
    ∀ (rest pre : List String) (last : Int), lines = pre ++ rest → 0 ≤ last →
      ∀ e ∈ errorWindows rest pre.length last,
        0 ≤ e.2 ∧ (e.1 : Int) - 10 ≤ e.2 ∧ pre.length ≤ e.1 ∧ e.1 < lines.length := by
  intro rest
  induction rest with
  | nil => intro pre last _ _ e he; simp [errorWindows] at he
  | cons line rest ih =>
    intro pre last hl h0 e he
    have hlen : pre.length < lines.length := by rw [hl]; simp
    have hl2 : lines = (pre ++ [line]) ++ rest := by rw [hl]; simp
    have hlen2 : (pre ++ [line]).length = pre.length + 1 := by simp
    have ih2 := fun last => ih (pre ++ [line]) last hl2
    rw [hlen2] at ih2
    unfold errorWindows at he
    by_cases hE : strings_Contains line "ERROR" = true
    · simp only [hE, if_true, List.mem_cons] at he
      rcases he with rfl | he
      · have h1 : last ≤ max last ((pre.length : Int) - 10) := by
          rw [max_eq_builtin]; exact le_max_left _ _
        have h2 : (pre.length : Int) - 10 ≤ max last ((pre.length : Int) - 10) := by
          rw [max_eq_builtin]; exact le_max_right _ _
        exact ⟨le_trans h0 h1, h2, le_refl _, hlen⟩
      · obtain ⟨a1, a2, a3, a4⟩ := ih2 ((pre.length : Int) + 1) (by omega) e he
        exact ⟨a1, a2, by omega, a4⟩
    · simp only [hE, if_false, Bool.false_eq_true] at he
      obtain ⟨a1, a2, a3, a4⟩ := ih2 last h0 e he
      exact ⟨a1, a2, by omega, a4⟩

/-- The inner loop of the source reads exactly the indices of its ghost
view: it panics exactly when one of them is outside the slice, and otherwise
appends, in order, the lines at these indices that contain "WARNING". -/
theorem warningLoop_eq_reads (logLines : List String) :
    ∀ (n : Nat) (j : Int) (logs : String),
      warningLoop logLines n j logs =
        if ∀ k ∈ warningReads n j, 0 ≤ k ∧ k.toNat < logLines.length then
          some (logs ++ concatLines
            (((warningReads n j).map (fun k => logLines.getD k.toNat "")).filter
              (fun l => strings_Contains l "WARNING")))
        else none := by
  intro n
  induction n with
  | zero => intro j logs; simp [warningLoop, warningReads, concatLines]
  | succ n ih =>
    intro j logs
    unfold warningLoop
    simp only [warningReads, List.forall_mem_cons, List.map_cons]
    by_cases hneg : j < 0
    · have hc : ¬ ((0 ≤ j ∧ j.toNat < logLines.length) ∧
          ∀ k ∈ warningReads n (j + 1), 0 ≤ k ∧ k.toNat < logLines.length) :=
        fun h => by omega
      rw [if_pos hneg, if_neg hc]
    · rw [if_neg hneg]
      by_cases hlen : j.toNat < logLines.length
      · have hget : logLines[j.toNat]? = some logLines[j.toNat] :=
          List.getElem?_eq_getElem hlen
        have hD : logLines.getD j.toNat "" = logLines[j.toNat] := by
          rw [List.getD_eq_getElem?_getD, hget]; rfl
        have hj : (0 ≤ j ∧ j.toNat < logLines.length) := ⟨by omega, hlen⟩
        rw [hget, hD]
        simp only [ih, hj, true_and, List.filter_cons]
        by_cases hW : strings_Contains logLines[j.toNat] "WARNING" = true
        · simp only [hW, if_true]
          split
          · simp [concatLines, String.append_assoc]
          · rfl
        · simp only [hW, if_false, Bool.false_eq_true]
      · have hget : logLines[j.toNat]? = none :=
          List.getElem?_eq_none (by omega)
        have hc : ¬ ((0 ≤ j ∧ j.toNat < logLines.length) ∧
            ∀ k ∈ warningReads n (j + 1), 0 ≤ k ∧ k.toNat < logLines.length) :=
          fun h => hlen h.1.2
        rw [hget, if_neg hc]

/-- The outer loop of the source is the replay of its ghost windows: at each
line containing "ERROR" it writes that line and runs the inner loop with the
start and the iteration count the ghost view records. -/
theorem lineLoop_eq_replay (lines : List String) :
    ∀ (rest pre : List String) (logs : String) (last : Int), lines = pre ++ rest →
      (lineLoop lines rest (pre.length : Int) logs last).map Prod.fst =
        replayWindows lines (errorWindows rest pre.length last) logs := by
  intro rest
  induction rest with
  | nil => intro pre logs last _; simp [lineLoop, errorWindows, replayWindows]
  | cons line rest ih =>
    intro pre logs last hl
    have hD : lines.getD pre.length "" = line := by
      rw [hl, List.getD_eq_getElem?_getD, List.getElem?_append_right (le_refl _)]
      simp
    have hcast : ((pre.length : Int) + 1) = (((pre ++ [line]).length : Nat) : Int) := by
      simp
    have hl2 : lines = (pre ++ [line]) ++ rest := by rw [hl]; simp
    have hlen2 : (pre ++ [line]).length = pre.length + 1 := by simp
    have ih2 := fun logs last => ih (pre ++ [line]) logs last hl2
    rw [hlen2] at ih2
    unfold lineLoop errorWindows
    by_cases hE : strings_Contains line "ERROR" = true
    · simp only [hE, if_true]
      unfold replayWindows
      rw [hD]
      rcases warningLoop lines ((pre.length : Int) - max last ((pre.length : Int) - 10)).toNat
          (max last ((pre.length : Int) - 10)) (logs ++ (line ++ "\n")) with _ | logs2
      · rfl
      · simp only []
        rw [← ih2, hcast, hlen2]
    · simp only [hE, if_false, Bool.false_eq_true]
      rw [← ih2, hcast, hlen2]

/-- C20: the log scan never reads outside a log.  For every sequence of pod
logs the scan returns, which in this model means that no index expression
was out of range.  The scan of a pod log is the replay of its ghost windows
through the inner loop of the source, and the inner loop reads exactly the
indices of its ghost view (it panics exactly when one of them is outside the
log).  For every pod log and every non-negative value `lastErrorIndex` has
when its scan starts, at each line `i` containing "ERROR" the window start
`max(lastErrorIndex, i-10)` is not negative, `i` is an index of the log,
every index `j` the inner loop reads has `start ≤ j < i` and is an index of
the log, and at most 10 indices are read; when the start exceeds `i` (a
`lastErrorIndex` left by a longer log) nothing is read.  With the value 2
left by an earlier log, the log "WARNING w", "ERROR b" has the window start
2 at index 1, reads nothing and adds only "ERROR b\n". -/
theorem C20_scan_indices_in_bounds (logss : List (List String)) (lines : List String)
    (last : Nat) :
    (∃ logs lastErrorIndex, scanPodLogs logss "" 0 = some (logs, lastErrorIndex) ∧
      0 ≤ lastErrorIndex) ∧
    (∃ logs lastErrorIndex, scanPodLog lines "" (last : Int) = some (logs, lastErrorIndex) ∧
      0 ≤ lastErrorIndex) ∧
    (∀ (logs : String) (lastErrorIndex : Int),
      (scanPodLog lines logs lastErrorIndex).map Prod.fst =
        replayWindows lines (errorWindows lines 0 lastErrorIndex) logs) ∧
    (∀ (n : Nat) (j : Int) (logs : String),
      warningLoop lines n j logs =
        if ∀ k ∈ warningReads n j, 0 ≤ k ∧ k.toNat < lines.length then
          some (logs ++ concatLines
            (((warningReads n j).map (fun k => lines.getD k.toNat "")).filter
              (fun l => strings_Contains l "WARNING")))
        else none) ∧
    (∀ e ∈ errorWindows lines 0 (last : Int),
      0 ≤ e.2 ∧ e.1 < lines.length ∧
      (∀ j ∈ warningReads ((e.1 : Int) - e.2).toNat e.2,
        e.2 ≤ j ∧ j < (e.1 : Int) ∧ 0 ≤ j ∧ j.toNat < lines.length) ∧
      (warningReads ((e.1 : Int) - e.2).toNat e.2).length ≤ 10 ∧
      ((e.1 : Int) < e.2 → warningReads ((e.1 : Int) - e.2).toNat e.2 = [])) ∧
    errorWindows ["WARNING w", "ERROR b"] 0 2 = [(1, 2)] ∧
    warningReads ((1 : Int) - 2).toNat 2 = [] ∧
    scanPodLog ["WARNING w", "ERROR b"] "" 2 = some ("ERROR b\n", 2) := by
  refine ⟨?_, ?_, ?_, ?_, ?_, by decide, by decide, by decide⟩
  · obtain ⟨l1, n1, hs, hn, _⟩ := scanPodLogs_facts logss "" 0 (le_refl _)
    exact ⟨l1, n1, hs, hn⟩
  · obtain ⟨l1, n1, hs, hn, _⟩ := scanPodLog_facts lines "" (last : Int) (Int.ofNat_nonneg _)
    exact ⟨l1, n1, hs, hn⟩
  · intro logs lastErrorIndex
    have h := lineLoop_eq_replay lines lines [] logs lastErrorIndex rfl
    simpa [scanPodLog] using h
  · exact warningLoop_eq_reads lines
  · intro e he
    obtain ⟨a1, a2, _, a4⟩ :=
      errorWindows_bounds lines lines [] (last : Int) rfl (Int.ofNat_nonneg _) e he
    refine ⟨a1, a4, ?_, ?_, ?_⟩
    · intro j hj
      have h := mem_warningReads _ _ _ hj
      have hpos : 0 < ((e.1 : Int) - e.2).toNat := by
        rcases Nat.eq_zero_or_pos ((e.1 : Int) - e.2).toNat with h0 | h0
        · rw [h0] at hj; simp [warningReads] at hj
        · exact h0
      omega
    · rw [warningReads_length]; omega
    · intro hlt
      have h0 : ((e.1 : Int) - e.2).toNat = 0 := by omega
      rw [h0]; rfl

/-! ## Lemmas on the errors of the orchestrator -/

theorem getNamespaces_error_iff (c : Cluster σ) (keywords : List String) (w wf : σ)
    (e : Error) :
    getNamespacesWithKeywords c keywords w = (.error e, wf) ↔
      c.listNamespaces w = (.error e, wf) := by
  unfold getNamespacesWithKeywords
  rcases c.listNamespaces w with ⟨e1 | items, w1⟩ <;> simp

/-- The pod loop from a non-negative `lastErrorIndex`, in terms of its reads
and its scans: it never panics, and it fails exactly when a read fails. -/
theorem podLogLoop_read (c : Cluster σ) (ns : String) :
    ∀ (pods : List String) (logs : String) (last : Int) (w : σ), 0 ≤ last →
      podLogLoop c ns pods logs last w =
        match readPodLogs c ns pods w with
        | (.error e, w1) => (some (.error e), w1)
        | (.ok bufs, w1) =>
          ((scanPodLogs (bufs.map (fun b => splitLines [] b.data)) logs last).map
            (fun r => Except.ok r.1), w1) := by
  intro pods
  induction pods with
  | nil => intro logs last w _; simp [podLogLoop, readPodLogs, scanPodLogs]
  | cons pod rest ih =>
    intro logs last w h0
    unfold podLogLoop readPodLogs
    rcases hp : c.podLogs ns pod w with ⟨e | buf, w2⟩
    · simp
    · simp only []
      obtain ⟨l1, n1, hscan, hn1, _⟩ := scanPodLog_facts (splitLines [] buf.data) logs last h0
      rw [hscan]
      simp only []
      rw [ih l1 n1 w2 hn1]
      rcases readPodLogs c ns rest w2 with ⟨e | bufs, w3⟩
      · simp
      · simp [scanPodLogs, hscan]

theorem podLogLoop_ne_none (c : Cluster σ) (ns : String) (pods : List String) (w : σ) :
    (podLogLoop c ns pods "" 0 w).1 ≠ none := by
  rw [podLogLoop_read c ns pods "" 0 w (le_refl _)]
  rcases readPodLogs c ns pods w with ⟨e | bufs, w1⟩
  · simp
  · obtain ⟨l1, n1, hs, _⟩ :=
      scanPodLogs_facts (bufs.map (fun b => splitLines [] b.data)) "" 0 (le_refl _)
    simp [hs]

theorem podLogLoop_error_iff (c : Cluster σ) (ns : String) (pods : List String) (w wf : σ)
    (e : Error) :
    podLogLoop c ns pods "" 0 w = (some (.error e), wf) ↔
      readPodLogs c ns pods w = (.error e, wf) := by
  rw [podLogLoop_read c ns pods "" 0 w (le_refl _)]
  rcases readPodLogs c ns pods w with ⟨e1 | bufs, w1⟩
  · simp
  · obtain ⟨l1, n1, hs, _⟩ :=
      scanPodLogs_facts (bufs.map (fun b => splitLines [] b.data)) "" 0 (le_refl _)
    simp [hs]

theorem operatorLogs_ne_none (c : Cluster σ) (ns : String) (w : σ) :
    (getInstanaOperatorLogs c ns w).1 ≠ none := by
  unfold getInstanaOperatorLogs
  rcases h1 : c.inClusterConfig w with ⟨_ | e1, w1⟩
  · simp only []
    rcases h2 : c.newForConfig w1 with ⟨_ | e2, w2⟩
    · simp only []
      rcases h3 : c.listPods ns "app.kubernetes.io/component=operator" w2 with ⟨e3 | pods, w3⟩
      · simp
      · exact podLogLoop_ne_none c ns pods w3
    · simp
  · simp

/-- The operator-log analysis fails exactly when the configuration, the
client set, the pod listing or the reading of a pod log fails. -/
theorem operatorLogs_error_iff (c : Cluster σ) (ns : String) (w wf : σ) (e : Error) :
    getInstanaOperatorLogs c ns w = (some (.error e), wf) ↔
      c.inClusterConfig w = (some e, wf) ∨
      ∃ w1, c.inClusterConfig w = (none, w1) ∧
        (c.newForConfig w1 = (some e, wf) ∨
          ∃ w2, c.newForConfig w1 = (none, w2) ∧
            (c.listPods ns "app.kubernetes.io/component=operator" w2 = (.error e, wf) ∨
              ∃ pods w3, c.listPods ns "app.kubernetes.io/component=operator" w2
                  = (.ok pods, w3) ∧
                readPodLogs c ns pods w3 = (.error e, wf))) := by
  unfold getInstanaOperatorLogs
  rcases h1 : c.inClusterConfig w with ⟨_ | e1, w1⟩
  · simp only []
    rcases h2 : c.newForConfig w1 with ⟨_ | e2, w2⟩
    · simp only []
      rcases h3 : c.listPods ns "app.kubernetes.io/component=operator" w2 with ⟨e3 | pods, w3⟩
      · simp [h2, h3]
      · simp only [h2, h3, podLogLoop_error_iff, Prod.mk.injEq, false_and, false_or,
          true_and, exists_eq_left', Except.ok.injEq, reduceCtorEq]
        constructor
        · intro h; exact ⟨pods, w3, ⟨rfl, rfl⟩, h⟩
        · rintro ⟨_, _, ⟨rfl, rfl⟩, h⟩; exact h
    · simp [h2]
  · simp

theorem coreStep_ne_none (c : Cluster σ) (results : List Result) (w : σ) :
    (coreStep c results w).1 ≠ none := by
  rcases hns : getNamespacesWithKeywords c ["core"] w with ⟨e | nss, w1⟩
  · simp [coreStep_of_resolution_error c _ w w1 e hns]
  · cases nss with
    | nil => simp [coreStep_of_no_namespace c _ w w1 hns]
    | cons n rest =>
      rcases hc : checkCustomResource c "core" "Core" n w1 with ⟨e | rs, w2⟩
      · simp [coreStep_of_check_error c _ w w1 w2 n rest e hns hc]
      · cases rs with
        | nil => simp [coreStep_of_no_result c _ w w1 w2 n rest hns hc]
        | cons r rs =>
          by_cases hf : r.Error = []
          · simp [coreStep_of_no_failure c _ w w1 w2 n rest r rs hns hc hf]
          · rw [coreStep_of_failure c results w w1 w2 n rest r rs hns hc hf]
            have hl := operatorLogs_ne_none c "instana-operator" w2
            rcases hlog : getInstanaOperatorLogs c "instana-operator" w2
              with ⟨_ | ⟨e | logs⟩, w3⟩
            · rw [hlog] at hl; simp at hl
            · simp
            · simp

/-- The custom-resource check fails exactly when its listing fails. -/
theorem checkCustomResource_error_iff (c : Cluster σ) (keyword kind ns : String) (w wf : σ)
    (e : Error) :
    checkCustomResource c keyword kind ns w = (.error e, wf) ↔
      c.list kind "instana.io/v1beta2" ns w = (.error e, wf) := by
  rcases hl : c.list kind "instana.io/v1beta2" ns w with ⟨e1 | items, w1⟩
  · simp [checkCustomResource, hl]
  · simp only [Prod.mk.injEq, false_and, iff_false, reduceCtorEq]
    rcases hg : c.get kind "instana.io/v1beta2" ns (firstMatchName keyword items) w1
      with ⟨e2 | cr, w2⟩
    · rw [checkCustomResource_of_fetch_error c keyword kind ns w w1 w2 items e2 hl hg]
      simp
    · rw [checkCustomResource_of_fetched c keyword kind ns w w1 w2 items cr hl hg]
      split <;> simp

/-- The core group once a first Core namespace is resolved: it fails exactly
when the listing of the Core instances fails or the operator-log analysis
started for a Core result fails. -/
theorem coreStep_error_of_resolved (c : Cluster σ) (results : List Result) (w w1 wf : σ)
    (n : String) (rest : List String) (e : Error)
    (hns : getNamespacesWithKeywords c ["core"] w = (.ok (n :: rest), w1)) :
    coreStep c results w = (some (.error e), wf) ↔
      c.list "Core" "instana.io/v1beta2" n w1 = (.error e, wf) ∨
      ∃ r rs w2, checkCustomResource c "core" "Core" n w1 = (.ok (r :: rs), w2) ∧
        getInstanaOperatorLogs c "instana-operator" w2 = (some (.error e), wf) := by
  rw [← checkCustomResource_error_iff c "core" "Core" n w1 wf e]
  rcases hc : checkCustomResource c "core" "Core" n w1 with ⟨e2 | rs, w2⟩
  · rw [coreStep_of_check_error c _ w w1 w2 n rest e2 hns hc]
    simp
  · have hall := checkCustomResource_failure c "core" "Core" n w1 w2 rs hc
    cases rs with
    | nil =>
      rw [coreStep_of_no_result c _ w w1 w2 n rest hns hc]
      simp
    | cons r rs =>
      obtain ⟨f0, hf0⟩ := hall r (by simp)
      have hf : r.Error ≠ [] := by simp [hf0]
      rw [coreStep_of_failure c results w w1 w2 n rest r rs hns hc hf]
      constructor
      · intro h
        refine Or.inr ⟨r, rs, w2, rfl, ?_⟩
        rcases hlog : getInstanaOperatorLogs c "instana-operator" w2
          with ⟨_ | ⟨e3 | logs⟩, w3⟩
        · rw [hlog] at h; simp at h
        · rw [hlog] at h
          simp only [Prod.mk.injEq, Option.some.injEq, Except.error.injEq] at h
          rw [h.1, h.2]
        · rw [hlog] at h; simp at h
      · rintro (h | ⟨r', rs', w2', h, hlog⟩)
        · simp at h
        · simp only [Prod.mk.injEq, Except.ok.injEq, List.cons.injEq] at h
          obtain ⟨⟨_, _⟩, rfl⟩ := h
          rw [hlog]

/-- The core group fails exactly when its namespace listing fails, the
listing of the Core instances fails, or the operator-log analysis started for
a Core result fails. -/
theorem coreStep_error_iff (c : Cluster σ) (results : List Result) (w wf : σ) (e : Error) :
    coreStep c results w = (some (.error e), wf) ↔
      c.listNamespaces w = (.error e, wf) ∨
      ∃ n rest w1, getNamespacesWithKeywords c ["core"] w = (.ok (n :: rest), w1) ∧
        (c.list "Core" "instana.io/v1beta2" n w1 = (.error e, wf) ∨
          ∃ r rs w2, checkCustomResource c "core" "Core" n w1 = (.ok (r :: rs), w2) ∧
            getInstanaOperatorLogs c "instana-operator" w2 = (some (.error e), wf)) := by
  rw [← getNamespaces_error_iff c ["core"] w wf e]
  constructor
  · intro h
    rcases hns : getNamespacesWithKeywords c ["core"] w with ⟨e1 | nss, w1⟩
    · rw [coreStep_of_resolution_error c _ w w1 e1 hns] at h
      simp only [Prod.mk.injEq, Option.some.injEq, Except.error.injEq] at h
      left; rw [h.1, h.2]
    · cases nss with
      | nil => rw [coreStep_of_no_namespace c _ w w1 hns] at h; simp at h
      | cons n rest =>
        right
        exact ⟨n, rest, w1, rfl,
          (coreStep_error_of_resolved c results w w1 wf n rest e hns).1 h⟩
  · rintro (h | ⟨n, rest, w1, hns, h⟩)
    · exact coreStep_of_resolution_error c _ w wf e h
    · exact (coreStep_error_of_resolved c results w w1 wf n rest e hns).2 h

/-- The unit group fails exactly when its namespace listing fails or the
listing of the Unit instances fails. -/
theorem unitStep_error_iff (c : Cluster σ) (results : List Result) (w wf : σ) (e : Error) :
    unitStep c results w = (.error e, wf) ↔
      c.listNamespaces w = (.error e, wf) ∨
      ∃ n rest w1, getNamespacesWithKeywords c ["unit"] w = (.ok (n :: rest), w1) ∧
        c.list "Unit" "instana.io/v1beta2" n w1 = (.error e, wf) := by
  rw [← getNamespaces_error_iff c ["unit"] w wf e]
  constructor
  · intro h
    rcases hns : getNamespacesWithKeywords c ["unit"] w with ⟨e1 | nss, w1⟩
    · rw [unitStep_of_resolution_error c _ w w1 e1 hns] at h
      simp only [Prod.mk.injEq, Except.error.injEq] at h
      left; rw [h.1, h.2]
    · cases nss with
      | nil => rw [unitStep_of_no_namespace c _ w w1 hns] at h; simp at h
      | cons n rest =>
        right
        refine ⟨n, rest, w1, rfl, ?_⟩
        rw [← checkCustomResource_error_iff c "unit" "Unit" n w1 wf e]
        rcases hc : checkCustomResource c "unit" "Unit" n w1 with ⟨e2 | rs, w2⟩
        · rw [unitStep_of_check_error c _ w w1 w2 n rest e2 hns hc] at h
          exact h
        · rw [unitStep_of_check c _ w w1 w2 n rest rs hns hc] at h
          simp at h
  · rintro (h | ⟨n, rest, w1, hns, h⟩)
    · exact unitStep_of_resolution_error c _ w wf e h
    · exact unitStep_of_check_error c _ w w1 wf n rest e hns
        ((checkCustomResource_error_iff c "unit" "Unit" n w1 wf e).2 h)

/-- `Analyze` never panics. -/
theorem analyze_ne_none (c : Cluster σ) (w : σ) : (Analyze c w).1 ≠ none := by
  rcases hds : getNamespacesWithKeywords c dataStoreKeywords w with ⟨e1 | nss, w1⟩
  · simp [Analyze, hds]
  · rw [analyze_of_resolved c w w1 nss hds]
    have hn := coreStep_ne_none c (dataStoreLoop c nss [] w1).1 (dataStoreLoop c nss [] w1).2
    rcases hcore : coreStep c (dataStoreLoop c nss [] w1).1 (dataStoreLoop c nss [] w1).2
      with ⟨_ | ⟨e2 | core⟩, w3⟩
    · rw [hcore] at hn; simp at hn
    · simp
    · simp only []
      rcases unitStep c core w3 with ⟨e3 | unit, w4⟩ <;> simp

/-- `Analyze` fails exactly when the data-store resolution fails, the core
group fails, or the core group succeeds and the unit group fails. -/
theorem analyze_error_iff (c : Cluster σ) (w wf : σ) (e : Error) :
    Analyze c w = (some (.error e), wf) ↔
      getNamespacesWithKeywords c dataStoreKeywords w = (.error e, wf) ∨
      ∃ nss w1, getNamespacesWithKeywords c dataStoreKeywords w = (.ok nss, w1) ∧
        (coreStep c [] (dataStoreLoop c nss [] w1).2 = (some (.error e), wf) ∨
          ∃ core w5, coreStep c [] (dataStoreLoop c nss [] w1).2 = (some (.ok core), w5) ∧
            unitStep c [] w5 = (.error e, wf)) := by
  rcases hds : getNamespacesWithKeywords c dataStoreKeywords w with ⟨e1 | nss, w1⟩
  · simp [Analyze, hds]
  · rw [analyze_of_resolved c w w1 nss hds, coreStep_acc]
    have hn := coreStep_ne_none c [] (dataStoreLoop c nss [] w1).2
    constructor
    · intro h
      right
      refine ⟨nss, w1, rfl, ?_⟩
      rcases hcore : coreStep c [] (dataStoreLoop c nss [] w1).2 with ⟨_ | ⟨e2 | core⟩, w3⟩
      · rw [hcore] at hn; simp at hn
      · rw [hcore] at h
        simp only [Prod.mk.injEq, Option.some.injEq, Except.error.injEq] at h
        left; rw [h.1, h.2]
      · rw [hcore] at h
        simp only [] at h
        rw [unitStep_acc] at h
        right
        refine ⟨core, w3, rfl, ?_⟩
        rcases hunit : unitStep c [] w3 with ⟨e3 | unit, w4⟩
        · rw [hunit] at h
          simp only [Prod.mk.injEq, Option.some.injEq, Except.error.injEq] at h
          rw [h.1, h.2]
        · rw [hunit] at h; simp at h
    · rintro (h | ⟨nss', w1', h, h2⟩)
      · simp at h
      · simp only [Prod.mk.injEq, Except.ok.injEq] at h
        obtain ⟨rfl, rfl⟩ := h
        rcases h2 with h2 | ⟨core, w5, h2, h3⟩
        · rw [h2]
        · rw [h2]
          simp only []
          rw [unitStep_acc, h3]

/-- C17: `Analyze` never panics, and it returns an error (with no results)
exactly when a namespace listing fails (for the data-store, the core or the
unit resolution), when the listing of the Core or of the Unit instances in
the first resolved namespace fails, or when the operator-log analysis
started for a Core result fails; the operator-log analysis fails exactly when
the configuration, the client set, the pod listing or the reading of a pod
log fails.  No answer of a workload listing or of a fetch is among the
causes.  Examples: the third namespace listing failing fails the whole call;
an unreadable pod log fails it although a stateful-set result was found;
failed workload listings and a failed fetch leave it successful. -/
theorem C17_analyze_fails_exactly_when (c : Cluster σ) (w wf : σ) (e : Error) :
    (Analyze c w).1 ≠ none ∧
    (Analyze c w = (some (.error e), wf) ↔
      c.listNamespaces w = (.error e, wf) ∨
      ∃ nss w1, getNamespacesWithKeywords c dataStoreKeywords w = (.ok nss, w1) ∧
        ((c.listNamespaces (dataStoreLoop c nss [] w1).2 = (.error e, wf) ∨
          ∃ n rest w3,
            getNamespacesWithKeywords c ["core"] (dataStoreLoop c nss [] w1).2
              = (.ok (n :: rest), w3) ∧
            (c.list "Core" "instana.io/v1beta2" n w3 = (.error e, wf) ∨
              ∃ r rs w4, checkCustomResource c "core" "Core" n w3 = (.ok (r :: rs), w4) ∧
                getInstanaOperatorLogs c "instana-operator" w4 = (some (.error e), wf))) ∨
          ∃ core w5, coreStep c [] (dataStoreLoop c nss [] w1).2 = (some (.ok core), w5) ∧
            (c.listNamespaces w5 = (.error e, wf) ∨
              ∃ n rest w6, getNamespacesWithKeywords c ["unit"] w5 = (.ok (n :: rest), w6) ∧
                c.list "Unit" "instana.io/v1beta2" n w6 = (.error e, wf)))) ∧
    (∀ (ns : String) (wa wb : σ),
      getInstanaOperatorLogs c ns wa = (some (.error e), wb) ↔
        c.inClusterConfig wa = (some e, wb) ∨
        ∃ w1, c.inClusterConfig wa = (none, w1) ∧
          (c.newForConfig w1 = (some e, wb) ∨
            ∃ w2, c.newForConfig w1 = (none, w2) ∧
              (c.listPods ns "app.kubernetes.io/component=operator" w2 = (.error e, wb) ∨
                ∃ pods w3, c.listPods ns "app.kubernetes.io/component=operator" w2
                    = (.ok pods, w3) ∧
                  readPodLogs c ns pods w3 = (.error e, wb)))) ∧
    Analyze (flakyNamespaces scenarioFixture 2) 0 =
      (some (.error "namespaces unavailable"), 3) ∧
    Analyze logFailFixture.cluster () = (some (.error "log stream closed"), ()) ∧
    (∃ rs, Analyze workloadFixture.cluster () = (some (.ok rs), ()) ∧
      ({ Kind := "", Name := "",
         Error := [{ Text := "deployments.apps is forbidden", Sensitive := [] }] } : Result)
        ∈ rs) ∧
    Analyze fetchFailFixture.cluster () =
      (some (.ok [{ Kind := "", Name := "",
                    Error := [{ Text := "Core \"\" not found", Sensitive := [] },
                      { Text := "Core is not ready\nExternal instana-operator Log:\n",
                        Sensitive := [] }] }]), ()) := by
  refine ⟨analyze_ne_none c w, ?_, ?_, rfl, rfl, ⟨_, rfl, by decide⟩, rfl⟩
  · rw [analyze_error_iff, getNamespaces_error_iff]
    simp only [coreStep_error_iff, unitStep_error_iff]
  · intro ns wa wb
    exact operatorLogs_error_iff c ns wa wb e

/-! ## Lemmas on two clusters -/

/-- Two clusters with the same first resolved namespace resolve alike: both
fail with the same error, both resolve nothing, or both resolve a list with
the same head. -/
theorem resolution_of_firstResolved (c c' : Cluster σ) (keyword : String) (w : σ)
    (h : firstResolved c' keyword w = firstResolved c keyword w) :
    (∃ e w1, getNamespacesWithKeywords c [keyword] w = (.error e, w1) ∧
      getNamespacesWithKeywords c' [keyword] w = (.error e, w1)) ∨
    (∃ w1, getNamespacesWithKeywords c [keyword] w = (.ok [], w1) ∧
      getNamespacesWithKeywords c' [keyword] w = (.ok [], w1)) ∨
    (∃ n rest rest' w1, getNamespacesWithKeywords c [keyword] w = (.ok (n :: rest), w1) ∧
      getNamespacesWithKeywords c' [keyword] w = (.ok (n :: rest'), w1)) := by
  unfold firstResolved at h
  rcases h1 : getNamespacesWithKeywords c [keyword] w with ⟨e1 | nss, w1⟩ <;>
    rcases h2 : getNamespacesWithKeywords c' [keyword] w with ⟨e2 | nss', w2⟩ <;>
    rw [h1, h2] at h <;>
    simp only [Prod.mk.injEq, Except.error.injEq, Except.ok.injEq, reduceCtorEq,
      false_and] at h
  · obtain ⟨rfl, rfl⟩ := h
    exact Or.inl ⟨_, _, rfl, rfl⟩
  · obtain ⟨h, rfl⟩ := h
    cases nss with
    | nil =>
      cases nss' with
      | nil => exact Or.inr (Or.inl ⟨_, rfl, rfl⟩)
      | cons n' rest' => simp at h
    | cons n rest =>
      cases nss' with
      | nil => simp at h
      | cons n' rest' =>
        simp only [List.head?_cons, Option.some.injEq] at h
        subst h
        exact Or.inr (Or.inr ⟨_, _, _, _, rfl, rfl⟩)

theorem checkCustomResource_congr (c c' : Cluster σ) (keyword kind ns : String) (w : σ)
    (hlist : ∀ wa, c'.list kind "instana.io/v1beta2" ns wa = c.list kind "instana.io/v1beta2" ns wa)
    (hget : ∀ name wa, c'.get kind "instana.io/v1beta2" ns name wa
      = c.get kind "instana.io/v1beta2" ns name wa) :
    checkCustomResource c' keyword kind ns w = checkCustomResource c keyword kind ns w := by
  unfold checkCustomResource
  rw [hlist]
  rcases c.list kind "instana.io/v1beta2" ns w with ⟨e | items, w1⟩
  · rfl
  · simp only [hget]

theorem podLogLoop_congr (c c' : Cluster σ) (ns : String) (hlogs : c'.podLogs = c.podLogs) :
    ∀ (pods : List String) (logs : String) (last : Int) (w : σ),
      podLogLoop c' ns pods logs last w = podLogLoop c ns pods logs last w := by
  intro pods
  induction pods with
  | nil => intro logs last w; rfl
  | cons pod rest ih =>
    intro logs last w
    unfold podLogLoop
    rw [hlogs]
    rcases c.podLogs ns pod w with ⟨e | buf, w1⟩
    · rfl
    · simp only []
      rcases scanPodLog (splitLines [] buf.data) logs last with _ | ⟨l1, n1⟩
      · rfl
      · exact ih l1 n1 w1

theorem operatorLogs_congr (c c' : Cluster σ) (ns : String) (w : σ)
    (h1 : c'.inClusterConfig = c.inClusterConfig) (h2 : c'.newForConfig = c.newForConfig)
    (h3 : c'.listPods = c.listPods) (h4 : c'.podLogs = c.podLogs) :
    getInstanaOperatorLogs c' ns w = getInstanaOperatorLogs c ns w := by
  unfold getInstanaOperatorLogs
  rw [h1, h2, h3]
  simp only [podLogLoop_congr c c' ns h4]

theorem dataStoreLoop_congr (c c' : Cluster σ)
    (hwork : ∀ kind apiVersion ns wa, kind ≠ "Core" → kind ≠ "Unit" →
      c'.list kind apiVersion ns wa = c.list kind apiVersion ns wa) :
    ∀ (nss : List String) (acc : List Result) (w : σ),
      dataStoreLoop c' nss acc w = dataStoreLoop c nss acc w := by
  intro nss
  induction nss with
  | nil => intro acc w; rfl
  | cons ns rest ih =>
    intro acc w
    have hs : ∀ wa, checkStatefulSets c' ns wa = checkStatefulSets c ns wa := fun wa => by
      unfold checkStatefulSets; rw [hwork _ _ _ _ (by decide) (by decide)]
    have hd : ∀ wa, checkDeployments c' ns wa = checkDeployments c ns wa := fun wa => by
      unfold checkDeployments; rw [hwork _ _ _ _ (by decide) (by decide)]
    have hp : ∀ wa, checkPods c' ns wa = checkPods c ns wa := fun wa => by
      unfold checkPods; rw [hwork _ _ _ _ (by decide) (by decide)]
    unfold dataStoreLoop
    simp only [hs, hd, hp, ih]

/-! ## Claims on the first resolved namespace -/

/-- C16: `Analyze` depends on the namespaces matching "core" and "unit" only
through the first one resolved, and on custom resources only through that
namespace.  Let two clusters resolve the same data-store namespaces and the
same first namespace for "core" and for "unit" (they may differ in the
further matches), answer alike for workload listings, for the operator logs,
and for the listing and the fetch of Core (Unit) instances in the first
namespace resolved for "core" ("unit"), while answering in any way for
custom resources of other namespaces.  Then the core group, the unit group
and the whole of `Analyze` return the same in both. -/
theorem C16_only_first_namespace_matters (c c' : Cluster σ) (w : σ)
    (hds : ∀ wa, getNamespacesWithKeywords c' dataStoreKeywords wa
      = getNamespacesWithKeywords c dataStoreKeywords wa)
    (hfirst : ∀ keyword wa, keyword = "core" ∨ keyword = "unit" →
      firstResolved c' keyword wa = firstResolved c keyword wa)
    (hwork : ∀ kind apiVersion ns wa, kind ≠ "Core" → kind ≠ "Unit" →
      c'.list kind apiVersion ns wa = c.list kind apiVersion ns wa)
    (hcr : ∀ keyword kind wa n rest w1,
      (keyword = "core" ∧ kind = "Core") ∨ (keyword = "unit" ∧ kind = "Unit") →
      getNamespacesWithKeywords c [keyword] wa = (.ok (n :: rest), w1) →
      (∀ wb, c'.list kind "instana.io/v1beta2" n wb = c.list kind "instana.io/v1beta2" n wb) ∧
      (∀ name wb, c'.get kind "instana.io/v1beta2" n name wb
        = c.get kind "instana.io/v1beta2" n name wb))
    (hcfg : c'.inClusterConfig = c.inClusterConfig)
    (hset : c'.newForConfig = c.newForConfig)
    (hpods : c'.listPods = c.listPods)
    (hlogs : c'.podLogs = c.podLogs) :
    Analyze c' w = Analyze c w ∧
    (∀ results wa, coreStep c' results wa = coreStep c results wa) ∧
    (∀ results wa, unitStep c' results wa = unitStep c results wa) := by
  have hcore : ∀ results wa, coreStep c' results wa = coreStep c results wa := by
    intro results wa
    rcases resolution_of_firstResolved c c' "core" wa (hfirst "core" wa (Or.inl rfl)) with
      ⟨e, w1, h1, h2⟩ | ⟨w1, h1, h2⟩ | ⟨n, rest, rest', w1, h1, h2⟩
    · rw [coreStep_of_resolution_error c' _ wa w1 e h2,
        coreStep_of_resolution_error c _ wa w1 e h1]
    · rw [coreStep_of_no_namespace c' _ wa w1 h2, coreStep_of_no_namespace c _ wa w1 h1]
    · obtain ⟨hl, hg⟩ := hcr "core" "Core" wa n rest w1 (Or.inl ⟨rfl, rfl⟩) h1
      unfold coreStep
      rw [h1, h2]
      simp only []
      rw [checkCustomResource_congr c c' "core" "Core" n w1 hl hg]
      simp only [operatorLogs_congr c c' "instana-operator" _ hcfg hset hpods hlogs]
  have hunit : ∀ results wa, unitStep c' results wa = unitStep c results wa := by
    intro results wa
    rcases resolution_of_firstResolved c c' "unit" wa (hfirst "unit" wa (Or.inr rfl)) with
      ⟨e, w1, h1, h2⟩ | ⟨w1, h1, h2⟩ | ⟨n, rest, rest', w1, h1, h2⟩
    · rw [unitStep_of_resolution_error c' _ wa w1 e h2,
        unitStep_of_resolution_error c _ wa w1 e h1]
    · rw [unitStep_of_no_namespace c' _ wa w1 h2, unitStep_of_no_namespace c _ wa w1 h1]
    · obtain ⟨hl, hg⟩ := hcr "unit" "Unit" wa n rest w1 (Or.inr ⟨rfl, rfl⟩) h1
      unfold unitStep
      rw [h1, h2]
      simp only []
      rw [checkCustomResource_congr c c' "unit" "Unit" n w1 hl hg]
  refine ⟨?_, hcore, hunit⟩
  unfold Analyze
  rw [hds]
  simp only [dataStoreLoop_congr c c' hwork, hcore, hunit]

/-- Witness for C16: the extended scenario lists `other-core` and
`other-unit` after the first matches and holds a failed Core resource and an
unreadable Unit listing there; it resolves more "core" and "unit" namespaces
than the base scenario and `Analyze` returns the same three results. -/
theorem C16_only_first_namespace_matters_witness :
    getNamespacesWithKeywords unitScenarioFixture.cluster ["core"] () =
      (.ok ["myapp-core"], ()) ∧
    getNamespacesWithKeywords extendedScenarioFixture.cluster ["core"] () =
      (.ok ["myapp-core", "other-core"], ()) ∧
    getNamespacesWithKeywords unitScenarioFixture.cluster ["unit"] () =
      (.ok ["myapp-unit"], ()) ∧
    getNamespacesWithKeywords extendedScenarioFixture.cluster ["unit"] () =
      (.ok ["myapp-unit", "other-unit"], ()) ∧
    (checkCustomResource extendedScenarioFixture.cluster "core" "Core" "other-core" ()).1 =
      .ok [{ Kind := "Core", Name := "broken-core",
             Error := [{ Text := "In namespace other-core, broken-core is not ready: <nil>",
                         Sensitive := [] }] }] ∧
    (checkCustomResource unitScenarioFixture.cluster "core" "Core" "other-core" ()).1 =
      .ok [{ Kind := "", Name := "",
             Error := [{ Text := "Core \"\" not found", Sensitive := [] }] }] ∧
    Analyze extendedScenarioFixture.cluster () = Analyze unitScenarioFixture.cluster () ∧
    (∃ rs, Analyze unitScenarioFixture.cluster () = (some (.ok rs), ()) ∧
      rs.map (fun r => r.Name) = ["kafka", "instana-core", "instana-unit"]) :=
  have h := C16_only_first_namespace_matters unitScenarioFixture.cluster
    extendedScenarioFixture.cluster ()
    (fun _ => rfl)
    (fun keyword _ hk => by rcases hk with rfl | rfl <;> rfl)
    (fun kind _ ns _ h1 h2 => by
      simp [Fixture.cluster, extendedScenarioFixture, h1, h2])
    (fun keyword kind wa n rest w1 hk hres => by
      rcases hk with ⟨rfl, rfl⟩ | ⟨rfl, rfl⟩
      · have hr : getNamespacesWithKeywords unitScenarioFixture.cluster ["core"] wa
            = (.ok ["myapp-core"], wa) := rfl
        rw [hr] at hres
        simp only [Prod.mk.injEq, Except.ok.injEq, List.cons.injEq] at hres
        obtain ⟨⟨rfl, _⟩, _⟩ := hres
        exact ⟨fun _ => rfl, fun _ _ => rfl⟩
      · have hr : getNamespacesWithKeywords unitScenarioFixture.cluster ["unit"] wa
            = (.ok ["myapp-unit"], wa) := rfl
        rw [hr] at hres
        simp only [Prod.mk.injEq, Except.ok.injEq, List.cons.injEq] at hres
        obtain ⟨⟨rfl, _⟩, _⟩ := hres
        exact ⟨fun _ => rfl, fun _ _ => rfl⟩)
    rfl rfl rfl rfl
  ⟨rfl, rfl, rfl, rfl, rfl, rfl, h.1, ⟨_, rfl, by decide⟩⟩

/-! ## Lemmas for the end-to-end scenario -/

theorem concatLines_contains (ls : List String) (l : String) (h : l ∈ ls) :
    strings_Contains (concatLines ls) l = true := by
  induction ls with
  | nil => simp at h
  | cons x xs ih =>
    unfold concatLines
    rcases List.mem_cons.1 h with rfl | h
    · rw [String.append_assoc]
      exact strings_Contains_head _ _
    · exact strings_Contains_append_left _ _ _ (ih h)

/-- The reference fold over indices of which exactly one holds an error line
is the step at that index. -/
theorem foldl_specStep_single (lines : List String) (i : Nat) :
    ∀ (idxs : List Nat) (st : String × Int), idxs.Nodup → i ∈ idxs →
      (∀ k ∈ idxs, k ≠ i → strings_Contains (lines.getD k "") "ERROR" = false) →
      idxs.foldl (specStep lines) st = specStep lines st i := by
  intro idxs
  induction idxs with
  | nil => intro st _ hi _; simp at hi
  | cons k rest ih =>
    intro st hnd hi hno
    obtain ⟨hk, hnd2⟩ := List.nodup_cons.1 hnd
    rw [List.foldl_cons]
    by_cases hki : k = i
    · subst hki
      exact foldl_specStep_of_no_error lines rest _
        (fun j hj => hno j (by simp [hj]) (fun h => hk (h ▸ hj)))
    · have hi2 : i ∈ rest := by
        rcases List.mem_cons.1 hi with h | h
        · exact absurd h.symm hki
        · exact h
      rw [specStep_of_not_error lines st k (hno k (by simp) hki)]
      exact ih st hnd2 hi2 (fun j hj => hno j (by simp [hj]))

/-- The excerpt of a log with exactly one error line, at index `i`, holds
that line and every warning line among the 10 lines before it. -/
theorem specExcerpt_single_error (lines : List String) (i j : Nat)
    (hi : i < lines.length)
    (hE : ∀ k, k < lines.length →
      (strings_Contains (lines.getD k "") "ERROR" = true ↔ k = i))
    (hW : strings_Contains (lines.getD j "") "WARNING" = true)
    (hj : j < i) (hj10 : i ≤ j + 10) :
    strings_Contains (specExcerpt lines) (lines.getD i "") = true ∧
    strings_Contains (specExcerpt lines) (lines.getD j "") = true := by
  have hfold : specExcerpt lines =
      "" ++ concatLines (lines.getD i "" :: specWindow lines 0 i) := by
    unfold specExcerpt
    rw [foldl_specStep_single lines i (List.range lines.length) ("", 0)
      (List.nodup_range _) (List.mem_range.2 hi) (fun k hk hki => by
        have := hE k (List.mem_range.1 hk)
        rw [← Bool.not_eq_true]
        exact fun h => hki (this.1 h))]
    unfold specStep
    rw [(hE i hi).2 rfl]
    simp
  have hmem : lines.getD j "" ∈ specWindow lines 0 i := by
    unfold specWindow
    refine List.mem_map.2 ⟨j, List.mem_filter.2 ⟨List.mem_range.2 hj, ?_⟩, rfl⟩
    simp only [Bool.and_eq_true, decide_eq_true_eq]
    refine ⟨?_, hW⟩
    apply max_le <;> omega
  rw [hfold]
  exact ⟨strings_Contains_append_left _ _ _ (concatLines_contains _ _ (by simp)),
    strings_Contains_append_left _ _ _
      (concatLines_contains _ _ (List.mem_cons_of_mem _ hmem))⟩

/-- The operator-log analysis of a fixture with one operator pod whose log
is read returns the reference excerpt of that log. -/
theorem operatorLogs_of_one_pod (f : Fixture) (ns pod text : String)
    (hpods : f.operatorPods = .ok [(pod, .ok text)]) :
    getInstanaOperatorLogs f.cluster ns () =
      (some (.ok (specExcerpt (splitLines [] text.data))), ()) := by
  have hlist : f.cluster.listPods ns "app.kubernetes.io/component=operator" ()
      = (.ok [pod], ()) := by
    simp [Fixture.cluster, hpods]
  have hread : readPodLogs f.cluster ns [pod] () = (.ok [text], ()) := by
    simp [readPodLogs, Fixture.cluster, hpods]
  unfold getInstanaOperatorLogs
  have h1 : f.cluster.inClusterConfig () = (none, ()) := rfl
  have h2 : f.cluster.newForConfig () = (none, ()) := rfl
  rw [h1]; simp only []
  rw [h2]; simp only []
  rw [hlist]; simp only []
  rw [podLogLoop_eq f.cluster ns [pod] "" 0 () () [text] (le_refl _) hread]
  simp only [List.map_cons, List.map_nil, scanPodLogs]
  rw [scanPodLog_eq _ "" 0 (le_refl _)]
  rfl

/-! ## Claims on the end-to-end scenario -/

/-- C18: the end-to-end scenario, for every cluster that never changes and
answers as follows.  The namespaces are `myapp-core` and `myapp-kafka`; in
`myapp-kafka` one stateful set `s` has 3 replicas of which 2 are ready and
every other stateful set, every deployment and every pod is healthy;
`myapp-core` holds one Core resource, whose name contains "core" and whose
`componentsStatus` is "NotReady"; there is one operator pod, and its log has
exactly one line containing "ERROR", at index `i`, and a line containing
"WARNING" at an index `j` with `i - 10 ≤ j < i`.  Then `Analyze` succeeds
with exactly two results, in this order: the stateful-set result for `s` in
namespace `myapp-kafka`, and a Core result named after the resource, one of
whose failures contains both the error line and the warning line. -/
theorem C18_end_to_end_scenario (f : Fixture) (pre post deps pods : List Object)
    (s cr : Object) (pod text : String) (i j : Nat)
    (hns : f.namespaces = .ok ["myapp-core", "myapp-kafka"])
    (hsts : f.objects "StatefulSet" "myapp-kafka" = .ok (pre ++ s :: post))
    (hrep : int64At s "spec" "replicas" = 3)
    (hready : int64At s "status" "readyReplicas" = 2)
    (hpre : ∀ o ∈ pre, int64At o "status" "readyReplicas" = int64At o "spec" "replicas")
    (hpost : ∀ o ∈ post, int64At o "status" "readyReplicas" = int64At o "spec" "replicas")
    (hdep : f.objects "Deployment" "myapp-kafka" = .ok deps)
    (hdepok : ∀ d ∈ deps, int64At d "status" "availableReplicas" = int64At d "spec" "replicas")
    (hpod : f.objects "Pod" "myapp-kafka" = .ok pods)
    (hpodok : ∀ p ∈ pods, stringAt p "status" "phase" "Unknown" = "Running")
    (hcore : f.objects "Core" "myapp-core" = .ok [cr])
    (hname : "core".data <:+: (stringAt cr "metadata" "name" "").data)
    (hstatus : fieldAt cr "status" "componentsStatus" = some (.str "NotReady"))
    (hpods : f.operatorPods = .ok [(pod, .ok text)])
    (hi : i < (splitLines [] text.data).length)
    (hE : ∀ k, k < (splitLines [] text.data).length →
      (strings_Contains ((splitLines [] text.data).getD k "") "ERROR" = true ↔ k = i))
    (hW : strings_Contains ((splitLines [] text.data).getD j "") "WARNING" = true)
    (hj : j < i) (hj10 : i ≤ j + 10) :
    ∃ coreFailures : List Failure,
      Analyze f.cluster () = (some (.ok [
        { Kind := "StatefulSet"
          Name := stringAt s "metadata" "name" ""
          Error := [{
            Text := "In namespace myapp-kafka, statefulSet "
              ++ stringAt s "metadata" "name" "" ++ " is not running"
            Sensitive := [] }] },
        { Kind := "Core"
          Name := stringAt cr "metadata" "name" ""
          Error := coreFailures }]), ()) ∧
      ∃ fl ∈ coreFailures,
        strings_Contains fl.Text ((splitLines [] text.data).getD i "") = true ∧
        strings_Contains fl.Text ((splitLines [] text.data).getD j "") = true := by
  have hlistNs : f.cluster.listNamespaces () = (.ok ["myapp-core", "myapp-kafka"], ()) := by
    show (f.namespaces, ()) = _
    rw [hns]
  have hresDs : getNamespacesWithKeywords f.cluster dataStoreKeywords ()
      = (.ok ["myapp-kafka"], ()) := by
    unfold getNamespacesWithKeywords
    rw [hlistNs]
    rfl
  have hresCore : getNamespacesWithKeywords f.cluster ["core"] ()
      = (.ok ["myapp-core"], ()) := by
    unfold getNamespacesWithKeywords
    rw [hlistNs]
    rfl
  have hresUnit : getNamespacesWithKeywords f.cluster ["unit"] () = (.ok [], ()) := by
    unfold getNamespacesWithKeywords
    rw [hlistNs]
    rfl
  have hfilter : (pre ++ s :: post).filter (fun o =>
      decide (int64At o "status" "readyReplicas" ≠ int64At o "spec" "replicas")) = [s] := by
    have h1 : pre.filter (fun o =>
        decide (int64At o "status" "readyReplicas" ≠ int64At o "spec" "replicas")) = [] :=
      List.filter_eq_nil_iff.2 (fun o ho => by simp [hpre o ho])
    have h2 : post.filter (fun o =>
        decide (int64At o "status" "readyReplicas" ≠ int64At o "spec" "replicas")) = [] :=
      List.filter_eq_nil_iff.2 (fun o ho => by simp [hpost o ho])
    rw [List.filter_append, List.filter_cons, h1, h2]
    simp [hrep, hready]
  have hS : checkStatefulSets f.cluster "myapp-kafka" () =
      ([{ Kind := "StatefulSet"
          Name := stringAt s "metadata" "name" ""
          Error := [{
            Text := "In namespace myapp-kafka, statefulSet "
              ++ stringAt s "metadata" "name" "" ++ " is not running"
            Sensitive := [] }] }], ()) := by
    have hl : f.cluster.list "StatefulSet" "apps/v1" "myapp-kafka" ()
        = (.ok (pre ++ s :: post), ()) := by
      show (f.objects _ _, ()) = _
      rw [hsts]
    have hlit : "In namespace " ++ "myapp-kafka" ++ ", statefulSet "
        = "In namespace myapp-kafka, statefulSet " := by decide
    unfold checkStatefulSets
    rw [hl]
    simp only [statefulSetLoop_eq, List.nil_append, hfilter, List.map_cons, List.map_nil, hlit]
  have hD : checkDeployments f.cluster "myapp-kafka" () = ([], ()) := by
    have hl : f.cluster.list "Deployment" "apps/v1" "myapp-kafka" () = (.ok deps, ()) := by
      show (f.objects _ _, ()) = _
      rw [hdep]
    have hnil : deps.filter (fun o =>
        decide (int64At o "status" "availableReplicas" ≠ int64At o "spec" "replicas")) = [] :=
      List.filter_eq_nil_iff.2 (fun o ho => by simp [hdepok o ho])
    unfold checkDeployments
    rw [hl]
    simp only [deploymentLoop_eq, List.nil_append, hnil, List.map_nil]
  have hP : checkPods f.cluster "myapp-kafka" () = ([], ()) := by
    have hl : f.cluster.list "Pod" "v1" "myapp-kafka" () = (.ok pods, ()) := by
      show (f.objects _ _, ()) = _
      rw [hpod]
    have hnil : pods.filter (fun o =>
        decide (stringAt o "status" "phase" "Unknown" ≠ "Running")) = [] :=
      List.filter_eq_nil_iff.2 (fun o ho => by simp [hpodok o ho])
    unfold checkPods
    rw [hl]
    simp only [podLoop_eq, List.nil_append, hnil, List.map_nil]
  have hloop : dataStoreLoop f.cluster ["myapp-kafka"] [] () =
      ([{ Kind := "StatefulSet"
          Name := stringAt s "metadata" "name" ""
          Error := [{
            Text := "In namespace myapp-kafka, statefulSet "
              ++ stringAt s "metadata" "name" "" ++ " is not running"
            Sensitive := [] }] }], ()) := by
    simp only [dataStoreLoop, hS, hD, hP, List.nil_append, List.append_nil]
  have hfm : firstMatchName "core" [cr] = stringAt cr "metadata" "name" "" :=
    firstMatchName_first "core" [] [] cr (by simp) hname
  have hlistCore : f.cluster.list "Core" "instana.io/v1beta2" "myapp-core" ()
      = (.ok [cr], ()) := by
    show (f.objects _ _, ()) = _
    rw [hcore]
  have hget : f.cluster.get "Core" "instana.io/v1beta2" "myapp-core"
      (firstMatchName "core" [cr]) () = (.ok cr, ()) := by
    simp [Fixture.cluster, hcore, hfm, getName_eq]
  have hnotReady : ¬ stringAt cr "status" "componentsStatus" "" = "Ready" := by
    simp [stringAt, hstatus]
  have hcheck := checkCustomResource_of_fetched f.cluster "core" "Core" "myapp-core"
    () () () [cr] cr hlistCore hget
  rw [if_neg hnotReady, hfm] at hcheck
  have hlogs := operatorLogs_of_one_pod f "instana-operator" pod text hpods
  have hexc := specExcerpt_single_error (splitLines [] text.data) i j hi hE hW hj hj10
  refine ⟨[({
      Text := "In namespace " ++ "myapp-core" ++ ", " ++ stringAt cr "metadata" "name" ""
        ++ " is not ready: " ++ showError (NestedString cr ["status", "componentsStatus"]).2.2
      Sensitive := [] } : Failure)]
    ++ [coreLogFailure (specExcerpt (splitLines [] text.data))], ?_, ?_⟩
  · rw [analyze_of_resolved f.cluster () () ["myapp-kafka"] hresDs, hloop]
    simp only []
    rw [coreStep_of_failure f.cluster _ () () () "myapp-core" [] _ [] hresCore hcheck
      (by simp), hlogs]
    simp only []
    rw [unitStep_of_no_namespace f.cluster _ () () hresUnit]
    rfl
  · refine ⟨coreLogFailure (specExcerpt (splitLines [] text.data)), by simp, ?_, ?_⟩
    · exact strings_Contains_append_left _ _ _ hexc.1
    · exact strings_Contains_append_left _ _ _ hexc.2

/-- Witness for C18: the scenario fixture, whose operator log has its only
error line at index 3 and a warning line at index 1. -/
theorem C18_end_to_end_scenario_witness :
    scenarioFixture.namespaces = .ok ["myapp-core", "myapp-kafka"] ∧
    splitLines [] "INFO start\nWARNING disk pressure\nINFO reconcile\nERROR reconcile failed\nINFO done\n".data
      = ["INFO start", "WARNING disk pressure", "INFO reconcile", "ERROR reconcile failed",
          "INFO done", ""] ∧
    Analyze scenarioFixture.cluster () =
      (some (.ok [
        { Kind := "StatefulSet", Name := "kafka",
          Error := [{ Text := "In namespace myapp-kafka, statefulSet kafka is not running",
                      Sensitive := [] }] },
        { Kind := "Core", Name := "instana-core",
          Error := [
            { Text := "In namespace myapp-core, instana-core is not ready: <nil>",
              Sensitive := [] },
            { Text := "Core is not ready\nExternal instana-operator Log:\n"
                ++ "ERROR reconcile failed\nWARNING disk pressure\n",
              Sensitive := [] }] }]), ()) ∧
    ∃ coreFailures : List Failure,
      Analyze scenarioFixture.cluster () = (some (.ok [
        { Kind := "StatefulSet"
          Name := stringAt
            (workload "kafka" [("replicas", .int64 3)] [("readyReplicas", .int64 2)])
            "metadata" "name" ""
          Error := [{
            Text := "In namespace myapp-kafka, statefulSet "
              ++ stringAt
                (workload "kafka" [("replicas", .int64 3)] [("readyReplicas", .int64 2)])
                "metadata" "name" "" ++ " is not running"
            Sensitive := [] }] },
        { Kind := "Core"
          Name := stringAt
            (customResource "instana-core" [("componentsStatus", .str "NotReady")])
            "metadata" "name" ""
          Error := coreFailures }]), ()) ∧
      ∃ fl ∈ coreFailures,
        strings_Contains fl.Text ((splitLines []
          "INFO start\nWARNING disk pressure\nINFO reconcile\nERROR reconcile failed\nINFO done\n".data).getD
            3 "") = true ∧
        strings_Contains fl.Text ((splitLines []
          "INFO start\nWARNING disk pressure\nINFO reconcile\nERROR reconcile failed\nINFO done\n".data).getD
            1 "") = true :=
  ⟨rfl, by decide, rfl,
    C18_end_to_end_scenario scenarioFixture [] []
      [workload "ui" [("replicas", .int64 1)] [("availableReplicas", .int64 1)]]
      [workload "kafka-0" [] [("phase", .str "Running")]]
      (workload "kafka" [("replicas", .int64 3)] [("readyReplicas", .int64 2)])
      (customResource "instana-core" [("componentsStatus", .str "NotReady")])
      "operator-0"
      "INFO start\nWARNING disk pressure\nINFO reconcile\nERROR reconcile failed\nINFO done\n"
      3 1
      rfl rfl (by decide) (by decide) (by simp) (by simp) rfl
      (by intro d hd; simp only [List.mem_singleton] at hd; subst hd; decide)
      rfl
      (by intro d hd; simp only [List.mem_singleton] at hd; subst hd; decide)
      rfl (by decide) rfl rfl (by decide) (by decide) (by decide) (by decide) (by decide)⟩

end Instana
